import Mathlib

/-!
# viz1090: projection, map traversal and view animation of `View.cpp`

A shallow embedding of the parts of `src/View.cpp` that the projection, the
quadtree traversal, the view/animation state machine, the aircraft pass and
the label layout consist of, and of `anetRead` of `src/anet.c`.

Conventions of the embedding.

* C `float`/`double` values are exact rationals (`ℚ`): every finite float is a
  rational, and the arithmetic is the exact one (no rounding of intermediate
  results, no NaN, no infinities; the one exception is `lerpColor`, whose
  `float` operations are rounded by a parameter). A decimal literal stands for its decimal
  value (`0.95` is `95/100`, `0.0001` is `1/10000`); `M_PI` is the exact value
  of the `double` constant of `<math.h>`.
* C `int` values are `ℤ` (no wrap-around); a conversion from floating point
  to `int` truncates toward zero (`toInt`); `round` rounds half away from
  zero (`cround`).
* The library cosine is a parameter `cos : ℚ → ℚ` of the functions that
  call it; nothing is assumed about it unless a theorem says so.
* Macros of `View.h` that are not part of the embedded source
  (`LATLONMULT`, `CENTEROFFSET`, `FRAMETIME`, `MODES_ACFLAGS_HEADING_VALID`)
  are parameters named after the macro.
* Clock readings (`elapsed(...)`) are inputs.
* The library square root is a parameter `sqrt : ℚ → ℚ`, like the cosine; the
  colour table `parula` of `parula.h` and the macro `DISPLAY_ACTIVE` are
  parameters too.
* A `uint8_t` is a natural number below 256; a conversion to it reduces
  modulo 256 (`toUInt8`).
* The aircraft list is a `List Aircraft`; a pointer into it is a list
  position, and a write through the pointer is `List.set` at that position.
* The system call `read` is a parameter of `anetRead`: the value its `n`-th
  call returns for the requested size. The loop of `anetRead` carries a bound
  on its rounds, and the theorem on it shows which bound is enough.
-/

namespace Viz1090

/-! ## Numeric helpers -/

/-- The value of `M_PI` as a `double`: `0x400921FB54442D18`. -/
def M_PI : ℚ := 884279719003555 / 281474976710656

/-- C `round`: nearest integer, halfway cases away from zero. -/
def cround (q : ℚ) : ℤ := if 0 ≤ q then ⌊q + 1 / 2⌋ else ⌈q - 1 / 2⌉

/-- Conversion of a floating value to `int`: truncation toward zero. -/
def toInt (q : ℚ) : ℤ := if 0 ≤ q then ⌊q⌋ else ⌈q⌉

/-! ## View state -/

/-- The members of `View` that the embedded functions read or write. The
three flags are C `int`s, true when non-zero. -/
structure View where
  screen_width : ℤ
  screen_height : ℤ
  maxDist : ℚ
  centerLon : ℚ
  centerLat : ℚ
  currentLon : ℚ
  currentLat : ℚ
  currentMaxDist : ℚ
  mapTargetLon : ℚ
  mapTargetLat : ℚ
  mapTargetMaxDist : ℚ
  mapMoved : ℤ
  mapRedraw : ℤ
  mapAnimating : ℤ
  deriving DecidableEq

/-- `float scale_factor = (screen_width > screen_height) ? screen_width : screen_height;` -/
def scale_factor (v : View) : ℚ :=
  if v.screen_width > v.screen_height then (v.screen_width : ℚ) else (v.screen_height : ℚ)

/-- `View::screenDist` (View.cpp 183-187). -/
def screenDist (v : View) (d : ℚ) : ℤ :=
  cround (scale_factor v * (1 / 2) * |d| / v.maxDist)

/-- `View::pxFromLonLat` (View.cpp 189-199); the result is `(dx, dy)`. -/
def pxFromLonLat (LATLONMULT : ℚ) (cos : ℚ → ℚ) (v : View) (lon lat : ℚ) : ℚ × ℚ :=
  if lon = 0 ∨ lat = 0 then (0, 0)
  else
    (LATLONMULT * (lon - v.centerLon) * cos (((lat + v.centerLat) / 2) * M_PI / 180),
     LATLONMULT * (lat - v.centerLat))

/-- `View::latLonFromScreenCoords` (View.cpp 201-209); the result is `(lat, lon)`. -/
def latLonFromScreenCoords (CENTEROFFSET : ℚ) (cos : ℚ → ℚ) (v : View) (x y : ℤ) : ℚ × ℚ :=
  let dx : ℚ := v.maxDist * ((x : ℚ) - ((v.screen_width >>> (1 : ℕ) : ℤ) : ℚ))
    / (95 / 100 * scale_factor v * (1 / 2))
  let dy : ℚ := v.maxDist * ((y : ℚ) - (v.screen_height : ℚ) * CENTEROFFSET)
    / (95 / 100 * scale_factor v * (1 / 2))
  let lat : ℚ := 180 * dy / (6371 * M_PI) + v.centerLat
  let lon : ℚ := 180 * dx / (cos (((lat + v.centerLat) / 2) * M_PI / 180) * 6371 * M_PI)
    + v.centerLon
  (lat, lon)

/-- `View::screenCoords` (View.cpp 212-215); the result is `(outX, outY)`. -/
def screenCoords (CENTEROFFSET : ℚ) (v : View) (dx dy : ℚ) : ℤ × ℤ :=
  ((v.screen_width >>> (1 : ℕ)) + (if dx > 0 then 1 else -1) * screenDist v dx,
   toInt ((v.screen_height : ℚ) * CENTEROFFSET
     + (((if dy > 0 then -1 else 1) * screenDist v dy : ℤ) : ℚ)))

/-- `View::outOfBounds(x, y, left, top, right, bottom)` (View.cpp 221-227). -/
def outOfBoundsRect (x y left top right bottom : ℤ) : Bool :=
  decide (x < left ∨ x ≥ right ∨ y < top ∨ y ≥ bottom)

/-- `View::outOfBounds(x, y)` (View.cpp 217-219). -/
def outOfBounds (v : View) (x y : ℤ) : Bool :=
  outOfBoundsRect x y 0 0 v.screen_width v.screen_height

/-- A geographic point through the forward projection to a pixel and back:
`pxFromLonLat`, `screenCoords`, `latLonFromScreenCoords`; the result is `(lat, lon)`. -/
def roundTrip (LATLONMULT CENTEROFFSET : ℚ) (cos : ℚ → ℚ) (v : View) (lon lat : ℚ) : ℚ × ℚ :=
  let d := pxFromLonLat LATLONMULT cos v lon lat
  let p := screenCoords CENTEROFFSET v d.1 d.2
  latLonFromScreenCoords CENTEROFFSET cos v p.1 p.2

/-- An 800x600 view of radius 25 centred at longitude 10, latitude 40, with no
target and clear flags. -/
def view800 : View :=
  { screen_width := 800, screen_height := 600, maxDist := 25,
    centerLon := 10, centerLat := 40,
    currentLon := 10, currentLat := 40, currentMaxDist := 25,
    mapTargetLon := 0, mapTargetLat := 0, mapTargetMaxDist := 0,
    mapMoved := 0, mapRedraw := 0, mapAnimating := 0 }

/-! ## Aircraft pass (`drawPlanes`) -/

/-- The members of `Aircraft` that the embedded functions read or write.
`created_ms` and `seenLatLon_ms` are the clock readings `elapsed(p->created)`
and `elapsed(p->msSeenLatLon)` of the frame. -/
structure Aircraft where
  addr : ℕ
  lon : ℚ
  lat : ℚ
  track : ℚ
  cx : ℤ
  cy : ℤ
  created_ms : ℚ
  seenLatLon_ms : ℚ
  /-- The clock reading `elapsed_s(p->msSeen)` of the frame. -/
  seen_s : ℚ := 0
  /-- The eight entries of `signalLevel`. -/
  signalLevel : List ℕ := []
  lonHistory : List ℚ := []
  latHistory : List ℚ := []
  flight : String := ""
  altitude : ℤ := 0
  speed : ℤ := 0
  x : ℤ := 0
  y : ℤ := 0
  w : ℤ := 0
  h : ℤ := 0
  ox : ℚ := 0
  oy : ℚ := 0
  dox : ℚ := 0
  doy : ℚ := 0
  ddox : ℚ := 0
  ddoy : ℚ := 0
  pressure : ℚ := 0
  deriving DecidableEq

/-- The drawing calls of the aircraft pass, with the pixel they are placed at. -/
inductive PlaneOp where
  /-- The ring of `pixelRGBA` calls around the anchor of a just created aircraft. -/
  | ring (x y : ℤ)
  /-- The call `drawPlaneOffMap(x, y, &cx, &cy, planeColor)`. -/
  | offMap (x y : ℤ)
  /-- The call `drawPlaneIcon(usex, usey, p->track, planeColor)`. -/
  | icon (x y : ℤ) (track : ℚ)
  /-- The position ping `circleRGBA(renderer, p->cx, p->cy, ...)`. -/
  | ping (cx cy : ℤ)
  /-- The call `drawPlaneText(p)`. -/
  | text
  /-- The label of `drawSelectedAircraftText`, at `(cx - 20, cy + 22)`. -/
  | selectedText (x y : ℤ)
  deriving DecidableEq

/-- What one iteration of the loop of `drawPlanes` leaves: the aircraft, the
locals `x, y` when the iteration computed them, and its drawing calls. -/
structure PlaneStep where
  plane : Aircraft
  anchor : Option (ℤ × ℤ)
  ops : List PlaneOp
  deriving DecidableEq

/-- The body of the loop of `View::drawPlanes` (View.cpp 1187-1257) for the
aircraft `p`; `selected` is `p == selectedAircraft`. The anchor that
`drawPlaneOffMap` writes through its out-pointers is the parameter
`drawPlaneOffMap`. -/
def drawPlane (LATLONMULT CENTEROFFSET : ℚ) (cos : ℚ → ℚ) (MODES_ACFLAGS_HEADING_VALID : ℤ)
    (drawPlaneOffMap : ℤ → ℤ → ℤ × ℤ) (v : View) (selected : Bool) (p : Aircraft) : PlaneStep :=
  if p.lon ≠ 0 ∧ p.lat ≠ 0 then
    let d := pxFromLonLat LATLONMULT cos v p.lon p.lat
    let a := screenCoords CENTEROFFSET v d.1 d.2
    if p.created_ms < 500 then
      { plane := p, anchor := some a, ops := [PlaneOp.ring a.1 a.2] }
    else if MODES_ACFLAGS_HEADING_VALID ≠ 0 then
      let off := outOfBounds v a.1 a.2
      let c : ℤ × ℤ := if off then drawPlaneOffMap a.1 a.2 else a
      let op : PlaneOp := if off then PlaneOp.offMap a.1 a.2 else PlaneOp.icon a.1 a.2 p.track
      let rest : List PlaneOp :=
        if selected then []
        else (if p.seenLatLon_ms < 500 then [PlaneOp.ping c.1 c.2] else []) ++ [PlaneOp.text]
      { plane := { p with cx := c.1, cy := c.2 }, anchor := some a, ops := op :: rest }
    else
      { plane := p, anchor := some a, ops := [] }
  else
    { plane := p, anchor := none, ops := [] }

/-- The loop of `drawPlanes` from list position `i` on; `selectedAircraft` is
the list position of the selected aircraft. -/
def drawPlanesFrom (LATLONMULT CENTEROFFSET : ℚ) (cos : ℚ → ℚ) (MODES_ACFLAGS_HEADING_VALID : ℤ)
    (drawPlaneOffMap : ℤ → ℤ → ℤ × ℤ) (v : View) (selectedAircraft : Option ℕ) :
    ℕ → List Aircraft → List PlaneStep
  | _, [] => []
  | i, p :: rest =>
    drawPlane LATLONMULT CENTEROFFSET cos MODES_ACFLAGS_HEADING_VALID drawPlaneOffMap v
        (decide (selectedAircraft = some i)) p
      :: drawPlanesFrom LATLONMULT CENTEROFFSET cos MODES_ACFLAGS_HEADING_VALID drawPlaneOffMap
          v selectedAircraft (i + 1) rest

/-- `View::drawPlanes` (View.cpp 1174-1262): the view after the call, one step
for each aircraft of the list in order, and the calls of the closing
`drawSelectedAircraftText(selectedAircraft)`. -/
def drawPlanes (LATLONMULT CENTEROFFSET : ℚ) (cos : ℚ → ℚ) (MODES_ACFLAGS_HEADING_VALID : ℤ)
    (drawPlaneOffMap : ℤ → ℤ → ℤ × ℤ) (v : View) (selectedAircraft : Option ℕ)
    (planes : List Aircraft) : View × List PlaneStep × List PlaneOp :=
  let v1 : View :=
    match selectedAircraft.bind planes.get? with
    | some s => { v with mapTargetLon := s.lon, mapTargetLat := s.lat }
    | none => v
  let steps := drawPlanesFrom LATLONMULT CENTEROFFSET cos MODES_ACFLAGS_HEADING_VALID
    drawPlaneOffMap v1 selectedAircraft 0 planes
  let closing : List PlaneOp :=
    match selectedAircraft.bind (steps.map PlaneStep.plane).get? with
    | some s => [PlaneOp.selectedText (s.cx - 20) (s.cy + 22)]
    | none => []
  (v1, steps, closing)

/-- An aircraft on the prime meridian, at (lon 0, lat 41), created 1000 ms ago. -/
def meridianPlane : Aircraft :=
  { addr := 1, lon := 0, lat := 41, track := 90, cx := 7, cy := 9,
    created_ms := 1000, seenLatLon_ms := 1000 }

/-- An aircraft at (lon 10, lat 41), created 1000 ms ago. -/
def northPlane : Aircraft :=
  { addr := 2, lon := 10, lat := 41, track := 90, cx := 0, cy := 0,
    created_ms := 1000, seenLatLon_ms := 1000 }

/-! ## Map quadtree (`drawLinesRecursive`) -/

/-- A geographic point of the map data. -/
structure Point where
  lat : ℚ
  lon : ℚ
  deriving DecidableEq

/-- A map segment: `start` and `end` of the source's `Line`. -/
structure Line where
  start : Point
  end_ : Point
  deriving DecidableEq

/-- The quadtree of the map: `null` is the `NULL` child pointer. -/
inductive QuadTree where
  | null : QuadTree
  | node (lat_min lat_max lon_min lon_max : ℚ) (nw sw ne se : QuadTree)
      (lines : List Line) : QuadTree

/-- What a traversal has done: the member `lineCount`, the segments the loop
body ran for, in order, and the `lineRGBA` calls `(x1, y1, x2, y2)`. -/
structure LineRender where
  lineCount : ℤ
  visited : List Line
  drawn : List (ℤ × ℤ × ℤ × ℤ)
  deriving DecidableEq

/-- The body of the segment loop of `drawLinesRecursive` (View.cpp 678-699). -/
def drawLine (LATLONMULT CENTEROFFSET : ℚ) (cos : ℚ → ℚ) (v : View)
    (r : LineRender) (l : Line) : LineRender :=
  let d1 := pxFromLonLat LATLONMULT cos v l.start.lon l.start.lat
  let p1 := screenCoords CENTEROFFSET v d1.1 d1.2
  let d2 := pxFromLonLat LATLONMULT cos v l.end_.lon l.end_.lat
  let p2 := screenCoords CENTEROFFSET v d2.1 d2.2
  let r1 : LineRender := { r with lineCount := r.lineCount + 1, visited := r.visited ++ [l] }
  if outOfBounds v p1.1 p1.2 && outOfBounds v p2.1 p2.2 then r1
  else if p1.1 = p2.1 ∧ p1.2 = p2.2 then r1
  else { r1 with drawn := r1.drawn ++ [(p1.1, p1.2, p2.1, p2.2)] }

/-- `View::drawLinesRecursive` (View.cpp 655-699). -/
def drawLinesRecursive (LATLONMULT CENTEROFFSET : ℚ) (cos : ℚ → ℚ) (v : View)
    (screen_lat_min screen_lat_max screen_lon_min screen_lon_max : ℚ) :
    QuadTree → LineRender → LineRender
  | QuadTree.null, r => r
  | QuadTree.node lat_min lat_max lon_min lon_max nw sw ne se lines, r =>
    if lat_min > screen_lat_max ∨ screen_lat_min > lat_max then r
    else if lon_min > screen_lon_max ∨ screen_lon_min > lon_max then r
    else
      let r1 := drawLinesRecursive LATLONMULT CENTEROFFSET cos v
        screen_lat_min screen_lat_max screen_lon_min screen_lon_max nw r
      let r2 := drawLinesRecursive LATLONMULT CENTEROFFSET cos v
        screen_lat_min screen_lat_max screen_lon_min screen_lon_max sw r1
      let r3 := drawLinesRecursive LATLONMULT CENTEROFFSET cos v
        screen_lat_min screen_lat_max screen_lon_min screen_lon_max ne r2
      let r4 := drawLinesRecursive LATLONMULT CENTEROFFSET cos v
        screen_lat_min screen_lat_max screen_lon_min screen_lon_max se r3
      lines.foldl (drawLine LATLONMULT CENTEROFFSET cos v) r4

/-- Every segment stored anywhere in the tree (children NW, SW, NE, SE, then
the node's own). -/
def QuadTree.segments : QuadTree → List Line
  | QuadTree.null => []
  | QuadTree.node _ _ _ _ nw sw ne se lines =>
    nw.segments ++ sw.segments ++ ne.segments ++ se.segments ++ lines

/-- The box `[lat_min, lat_max] x [lon_min, lon_max]` meets the query box on
the latitude axis and on the longitude axis. -/
def boxMeets (lat_min lat_max lon_min lon_max
    screen_lat_min screen_lat_max screen_lon_min screen_lon_max : ℚ) : Prop :=
  (lat_min ≤ screen_lat_max ∧ screen_lat_min ≤ lat_max)
    ∧ (lon_min ≤ screen_lon_max ∧ screen_lon_min ≤ lon_max)

instance (a b c d e f g h : ℚ) : Decidable (boxMeets a b c d e f g h) := by
  unfold boxMeets
  infer_instance

/-- The segments stored in the nodes whose bounding box meets the query box,
over all nodes of the tree. -/
def QuadTree.segmentsMeeting
    (screen_lat_min screen_lat_max screen_lon_min screen_lon_max : ℚ) : QuadTree → List Line
  | QuadTree.null => []
  | QuadTree.node lat_min lat_max lon_min lon_max nw sw ne se lines =>
    nw.segmentsMeeting screen_lat_min screen_lat_max screen_lon_min screen_lon_max
      ++ sw.segmentsMeeting screen_lat_min screen_lat_max screen_lon_min screen_lon_max
      ++ ne.segmentsMeeting screen_lat_min screen_lat_max screen_lon_min screen_lon_max
      ++ se.segmentsMeeting screen_lat_min screen_lat_max screen_lon_min screen_lon_max
      ++ (if boxMeets lat_min lat_max lon_min lon_max
            screen_lat_min screen_lat_max screen_lon_min screen_lon_max then lines else [])

/-- The root's bounding box lies inside the box
`[lat_lo, lat_hi] x [lon_lo, lon_hi]` (an absent tree has no box). -/
def QuadTree.within (lat_lo lat_hi lon_lo lon_hi : ℚ) : QuadTree → Prop
  | QuadTree.null => True
  | QuadTree.node lat_min lat_max lon_min lon_max _ _ _ _ _ =>
    lat_lo ≤ lat_min ∧ lat_max ≤ lat_hi ∧ lon_lo ≤ lon_min ∧ lon_max ≤ lon_hi

/-- Each child's bounding box lies inside its parent's, throughout the tree. -/
def QuadTree.childrenInside : QuadTree → Prop
  | QuadTree.null => True
  | QuadTree.node lat_min lat_max lon_min lon_max nw sw ne se _ =>
    (nw.within lat_min lat_max lon_min lon_max ∧ nw.childrenInside)
    ∧ (sw.within lat_min lat_max lon_min lon_max ∧ sw.childrenInside)
    ∧ (ne.within lat_min lat_max lon_min lon_max ∧ ne.childrenInside)
    ∧ (se.within lat_min lat_max lon_min lon_max ∧ se.childrenInside)

/-- Every node's box is a box: its minimum is not above its maximum. -/
def QuadTree.boxesOrdered : QuadTree → Prop
  | QuadTree.null => True
  | QuadTree.node lat_min lat_max lon_min lon_max nw sw ne se _ =>
    (lat_min ≤ lat_max ∧ lon_min ≤ lon_max)
    ∧ nw.boxesOrdered ∧ sw.boxesOrdered ∧ ne.boxesOrdered ∧ se.boxesOrdered

/-- A leaf node. -/
def QuadTree.leaf (lat_min lat_max lon_min lon_max : ℚ) (lines : List Line) : QuadTree :=
  QuadTree.node lat_min lat_max lon_min lon_max
    QuadTree.null QuadTree.null QuadTree.null QuadTree.null lines

/-- Three map segments around (lon 10, lat 40). -/
def segA : Line := { start := { lat := 41, lon := 9 }, end_ := { lat := 42, lon := 9 } }

/-- See `segA`. -/
def segB : Line := { start := { lat := 39, lon := 11 }, end_ := { lat := 38, lon := 12 } }

/-- See `segA`. -/
def segC : Line := { start := { lat := 39, lon := 9 }, end_ := { lat := 41, lon := 11 } }

/-- A two-level map: the root box `[36, 44] x [6, 14]` holds `segC`, its NW child
`[40, 44] x [6, 10]` holds `segA`, its SE child `[36, 40] x [10, 14]` holds `segB`. -/
def smallMap : QuadTree :=
  QuadTree.node 36 44 6 14
    (QuadTree.leaf 40 44 6 10 [segA]) QuadTree.null QuadTree.null
    (QuadTree.leaf 36 40 10 14 [segB]) [segC]

/-- The traversal state at the start of a frame. -/
def LineRender.empty : LineRender := { lineCount := 0, visited := [], drawn := [] }

/-! ## Target-seeking animation -/

/-- `View::zoomMapToTarget` (View.cpp 1334-1344). -/
def zoomMapToTarget (v : View) : View :=
  if v.mapTargetMaxDist ≠ 0 then
    if |v.mapTargetMaxDist - v.maxDist| > 1 / 10000 then
      { v with
        maxDist := v.maxDist + 1 / 10 * (v.mapTargetMaxDist - v.maxDist)
        mapAnimating := 1
        mapMoved := 1 }
    else
      { v with mapTargetMaxDist := 0 }
  else v

/-- `View::moveMapToTarget` (View.cpp 1346-1359). -/
def moveMapToTarget (v : View) : View :=
  if v.mapTargetLon ≠ 0 ∧ v.mapTargetLat ≠ 0 then
    if |v.mapTargetLon - v.centerLon| > 1 / 10000 ∨ |v.mapTargetLat - v.centerLat| > 1 / 10000 then
      { v with
        centerLon := v.centerLon + 1 / 10 * (v.mapTargetLon - v.centerLon)
        centerLat := v.centerLat + 1 / 10 * (v.mapTargetLat - v.centerLat)
        mapAnimating := 1
        mapMoved := 1 }
    else
      { v with mapTargetLon := 0, mapTargetLat := 0 }
  else v

/-- The view after `n` frames' calls of the step `f`. -/
def frames (f : View → View) : ℕ → View → View
  | 0, v => v
  | n + 1, v => f (frames f n v)

/-- The view `view800` with the target centre (lon 0, lat 41) pending. -/
def meridianTargetView : View := { view800 with mapTargetLon := 0, mapTargetLat := 41 }

/-- The view `view800` with the target centre (lon 11, lat 41) and the target
radius 5 pending. -/
def animView : View :=
  { view800 with mapTargetLon := 11, mapTargetLat := 41, mapTargetMaxDist := 5 }

/-- The view `view800` moved to the centre (lon 11, lat 41) at radius 20, with
the cache still rendered at (lon 10, lat 40), radius 25, and `mapRedraw` set. -/
def dirtyView : View :=
  { view800 with centerLon := 11, centerLat := 41, maxDist := 20, mapRedraw := 1 }

/-! ## Map cache (`drawGeography`) -/

/-- The rendering calls of `drawGeography`. -/
inductive GeoOp where
  /-- The cache is regenerated: `drawLines(left, top, right, bottom, 0)` with
  `mapTexture` as the render target. -/
  | renderCache (left top right bottom : ℤ)
  /-- A strip drawn on the screen: `drawLines(left, top, right, bottom, ...)`. -/
  | strip (left top right bottom : ℤ)
  /-- The cache is copied to the screen: `SDL_RenderCopy`, to the rectangle
  `(x, y, w, h)` or, with `none`, to the whole screen. -/
  | copyCache (dest : Option (ℤ × ℤ × ℤ × ℤ))
  deriving DecidableEq

/-- The condition of the first `if` of `drawGeography` (View.cpp 733);
`sinceRedraw` is the reading `elapsed(lastRedraw)`. -/
def redrawDue (FRAMETIME sinceRedraw : ℚ) (v : View) : Prop :=
  (v.mapRedraw ≠ 0 ∧ ¬ v.mapMoved ≠ 0) ∨ (v.mapAnimating ≠ 0 ∧ sinceRedraw > 8 * FRAMETIME)

instance (FRAMETIME sinceRedraw : ℚ) (v : View) : Decidable (redrawDue FRAMETIME sinceRedraw v) := by
  unfold redrawDue
  infer_instance

/-- `View::drawGeography` (View.cpp 731-813): the view on return and the
rendering calls in order. -/
def drawGeography (LATLONMULT CENTEROFFSET : ℚ) (cos : ℚ → ℚ) (FRAMETIME sinceRedraw : ℚ)
    (v : View) : View × List GeoOp :=
  let due : Bool := decide (redrawDue FRAMETIME sinceRedraw v)
  let v1 : View :=
    if due then
      { v with
        mapMoved := 0
        mapRedraw := 0
        mapAnimating := 0
        currentLon := v.centerLon
        currentLat := v.centerLat
        currentMaxDist := v.maxDist }
    else v
  let ops1 : List GeoOp :=
    if due then [GeoOp.renderCache 0 0 v.screen_width v.screen_height] else []
  if v1.mapMoved ≠ 0 then
    let d1 := pxFromLonLat LATLONMULT cos v1 v1.currentLon v1.currentLat
    let p1 := screenCoords CENTEROFFSET v1 d1.1 d1.2
    let d2 := pxFromLonLat LATLONMULT cos v1 v1.centerLon v1.centerLat
    let p2 := screenCoords CENTEROFFSET v1 d2.1 d2.2
    let shiftx : ℤ := p1.1 - p2.1
    let shifty : ℤ := p1.2 - p2.2
    let W : ℤ := v1.screen_width
    let H : ℤ := v1.screen_height
    let destx : ℤ := toInt ((shiftx : ℚ) + ((Int.tdiv W 2 : ℤ) : ℚ) * (1 - v1.currentMaxDist / v1.maxDist))
    let desty : ℤ := toInt ((shifty : ℚ) + ((Int.tdiv H 2 : ℤ) : ℚ) * (1 - v1.currentMaxDist / v1.maxDist))
    let destw : ℤ := toInt ((W : ℚ) * v1.currentMaxDist / v1.maxDist)
    let desth : ℤ := toInt ((H : ℚ) * v1.currentMaxDist / v1.maxDist)
    let left : List GeoOp := if destx > 0 then [GeoOp.strip 0 0 destx H] else []
    let top : List GeoOp := if desty > 0 then [GeoOp.strip 0 (H - desty) W H] else []
    let right : List GeoOp :=
      if destx + destw < W then [GeoOp.strip (destx + destw) 0 W H] else []
    let bottom : List GeoOp :=
      if desty + desth < H then [GeoOp.strip 0 0 W (H - desty - desth)] else []
    ({ v1 with mapRedraw := 1, mapMoved := 0 },
      ops1 ++ left ++ top ++ right ++ bottom ++ [GeoOp.copyCache (some (destx, desty, destw, desth))])
  else
    (v1, ops1 ++ [GeoOp.copyCache none])

/-! ## Colours -/

/-- `sign` (View.cpp 59-61): `(x > 0) - (x < 0)`. -/
def sign (x : ℚ) : ℚ := (if x > 0 then 1 else 0) - (if x < 0 then 1 else 0)

/-- `clamp` (View.cpp 63-75). -/
def clamp (inp min max : ℚ) : ℚ :=
  let out := if inp < min then min else inp
  if inp > max then max else out

/-- Conversion of a floating value to `uint8_t`. -/
def toUInt8 (q : ℚ) : ℕ := (toInt q % 256).toNat

/-- The channels `r`, `g`, `b` of an `SDL_Color`. -/
structure SDL_Color where
  r : ℕ
  g : ℕ
  b : ℕ
  deriving DecidableEq

/-- Each channel is a `uint8_t`. -/
def SDL_Color.valid (c : SDL_Color) : Prop := c.r < 256 ∧ c.g < 256 ∧ c.b < 256

instance (c : SDL_Color) : Decidable c.valid := by
  unfold SDL_Color.valid
  infer_instance

/-- `setColor` (View.cpp 84-90), with `uint8_t` parameters. -/
def setColor (r g b : ℕ) : SDL_Color := { r := r % 256, g := g % 256, b := b % 256 }

/-- The index into `parula` that `signalToColor` uses: `signal` after
`if(signal > 127) signal = 127;`. -/
def signalIndex (signal : ℤ) : ℤ := if signal > 127 then 127 else signal

/-- `signalToColor` (View.cpp 92-106). The table `parula` is a list of
`(r, g, b)` rows; `none` stands for a read outside the table. -/
def signalToColor (parula : List (ℕ × ℕ × ℕ)) (signal : ℤ) : Option SDL_Color :=
  if signalIndex signal < 0 then some (setColor 96 96 96)
  else
    match signalIndex signal with
    | Int.ofNat i => (parula.get? i).map (fun e => setColor e.1 e.2.1 e.2.2)
    | Int.negSucc _ => none

/-- Rounding to the nearest integer, halfway cases to the even one. -/
def roundHalfEven (q : ℚ) : ℤ :=
  if q - (⌊q⌋ : ℚ) < 1 / 2 then ⌊q⌋
  else if q - (⌊q⌋ : ℚ) > 1 / 2 then ⌊q⌋ + 1
  else if ⌊q⌋ % 2 = 0 then ⌊q⌋ else ⌊q⌋ + 1

/-- Rounding to IEEE 754 single precision, to nearest with ties to even: 24
significant bits, for a value in the normal range (no overflow, no subnormals). -/
def roundF32 (x : ℚ) : ℚ :=
  if x = 0 then 0
  else (roundHalfEven (x / (2 : ℚ) ^ (Int.log 2 |x| - 23)) : ℚ) * (2 : ℚ) ^ (Int.log 2 |x| - 23)

/-- What is asked of the rounding `fl` of one `float` operation: a relative
error of at most `2^-24`, and no error on the natural numbers below `2^24`.
The identity (exact arithmetic) and `roundF32` both qualify. -/
def Rounds (fl : ℚ → ℚ) : Prop :=
  (∀ x : ℚ, |fl x - x| ≤ |x| / 2 ^ 24) ∧ (∀ n : ℕ, n < 2 ^ 24 → fl (n : ℚ) = (n : ℚ))

/-- `lerpColor` (View.cpp 108-123). The result of each `float` operation of the
three channel expressions passes through the rounding `fl`: the identity for
exact arithmetic, `roundF32` for single precision. -/
def lerpColor (fl : ℚ → ℚ) (aColor bColor : SDL_Color) (factor : ℚ) : SDL_Color :=
  let f1 : ℚ := if factor > 1 then 1 else factor
  let f : ℚ := if f1 < 0 then 0 else f1
  { r := toUInt8 (fl (fl (fl (1 - f) * (aColor.r : ℚ)) + fl (f * (bColor.r : ℚ))))
    g := toUInt8 (fl (fl (fl (1 - f) * (aColor.g : ℚ)) + fl (f * (bColor.g : ℚ))))
    b := toUInt8 (fl (fl (fl (1 - f) * (aColor.b : ℚ)) + fl (f * (bColor.b : ℚ)))) }

/-- The members of `style` that the aircraft pass reads. -/
structure Style where
  planeColor : SDL_Color
  planeGoneColor : SDL_Color
  selectedColor : SDL_Color
  deriving DecidableEq

/-- The colour `planeColor` that `drawPlanes` computes for an aircraft
(View.cpp 1232-1236); `selected` is `p == selectedAircraft`. -/
def planeColorOf (fl : ℚ → ℚ) (style : Style) (DISPLAY_ACTIVE : ℚ) (selected : Bool)
    (p : Aircraft) : SDL_Color :=
  let planeColor :=
    lerpColor fl style.planeColor style.planeGoneColor (p.seen_s / DISPLAY_ACTIVE)
  if selected then style.selectedColor else planeColor

/-- The local `signalAverage` of `drawSignalMarks` (View.cpp 816-818). -/
def signalAverage (p : Aircraft) : ℕ := (p.signalLevel.sum + 3) >>> 3

/-- A colour table of 128 rows that runs from blue to yellow. -/
def rampTable : List (ℕ × ℕ × ℕ) := (List.range 128).map (fun i => (2 * i, 2 * i, 255 - 2 * i))

/-- A style: `planeColor` is the `greenblue` of `font_init`, `planeGoneColor` a
grey, `selectedColor` a pink. -/
def sampleStyle : Style :=
  { planeColor := { r := 236, g := 192, b := 68 }
    planeGoneColor := { r := 127, g := 127, b := 127 }
    selectedColor := { r := 249, g := 38, b := 114 } }

/-- An aircraft seen just now with a weak signal: eight signal levels of 10. -/
def weakPlane : Aircraft :=
  { northPlane with signalLevel := [10, 10, 10, 10, 10, 10, 10, 10] }

/-- An aircraft seen just now with a strong signal: eight signal levels of 100. -/
def strongPlane : Aircraft :=
  { northPlane with signalLevel := [100, 100, 100, 100, 100, 100, 100, 100] }

/-! ## Pan, tap and selection -/

/-- The `View` object: the numeric members, the member `selectedAircraft` (the
selected aircraft's position in the aircraft list, `none` for `NULL`) and the
recorded click. -/
structure ViewObject where
  view : View
  selectedAircraft : Option ℕ
  clickx : ℤ
  clicky : ℤ
  deriving DecidableEq

/-- The geographic offset `(outLon, outLat)` that `moveCenterAbsolute` and
`animateCenterAbsolute` compute from the pixel `(x, y)` (View.cpp 1265-1272 and
1287-1294, the same text). -/
def centerAbsoluteOffset (cos : ℚ → ℚ) (v : View) (x y : ℚ) : ℚ × ℚ :=
  let dx : ℚ := -1 * (75 / 100 * (v.screen_width : ℚ) / (v.screen_height : ℚ))
    * (x - ((Int.tdiv v.screen_width 2 : ℤ) : ℚ)) * v.maxDist
    / (95 / 100 * scale_factor v * (1 / 2))
  let dy : ℚ := 1 * (y - ((Int.tdiv v.screen_height 2 : ℤ) : ℚ)) * v.maxDist
    / (95 / 100 * scale_factor v * (1 / 2))
  let outLat : ℚ := dy * (1 / 6371) * (180 / M_PI)
  let outLon : ℚ := dx * (1 / 6371) * (180 / M_PI) / cos ((v.centerLat / 2) * M_PI / 180)
  (outLon, outLat)

/-- `View::animateCenterAbsolute` (View.cpp 1264-1283). -/
def animateCenterAbsolute (cos : ℚ → ℚ) (s : ViewObject) (x y : ℚ) : ViewObject :=
  let o := centerAbsoluteOffset cos s.view x y
  { s with
    view :=
      { s.view with
        mapTargetLon := s.view.centerLon - o.1
        mapTargetLat := s.view.centerLat - o.2
        mapTargetMaxDist := 25 / 100 * s.view.maxDist
        mapMoved := 1 } }

/-- `View::moveCenterAbsolute` (View.cpp 1286-1306). -/
def moveCenterAbsolute (cos : ℚ → ℚ) (s : ViewObject) (x y : ℚ) : ViewObject :=
  let o := centerAbsoluteOffset cos s.view x y
  { s with
    view :=
      { s.view with
        centerLon := s.view.centerLon + o.1
        centerLat := s.view.centerLat + o.2
        mapTargetLon := 0
        mapTargetLat := 0
        mapMoved := 1 } }

/-- `View::moveCenterRelative` (View.cpp 1308-1332). -/
def moveCenterRelative (cos : ℚ → ℚ) (s : ViewObject) (dx dy : ℚ) : ViewObject :=
  let v := s.view
  let dx1 : ℚ := -1 * dx * v.maxDist / (95 / 100 * scale_factor v * (1 / 2))
  let dy1 : ℚ := 1 * dy * v.maxDist / (95 / 100 * scale_factor v * (1 / 2))
  let outLat : ℚ := dy1 * (1 / 6371) * (180 / M_PI)
  let outLon : ℚ := dx1 * (1 / 6371) * (180 / M_PI) / cos ((v.centerLat / 2) * M_PI / 180)
  { s with
    view :=
      { v with
        centerLon := v.centerLon + outLon
        centerLat := v.centerLat + outLat
        mapTargetLon := 0
        mapTargetLat := 0
        mapMoved := 1 } }

/-- The squared pixel distance of the anchor of `p` from the tap `(x, y)`:
`(p->cx - x) * (p->cx - x) + (p->cy - y) * (p->cy - y)`. -/
def tapDist (x y : ℤ) (p : Aircraft) : ℤ :=
  (p.cx - x) * (p.cx - x) + (p.cy - y) * (p.cy - y)

/-- The body of the selection loop of `registerClick` (View.cpp 1422-1433) for
the aircraft `p` at list position `i`; `selection` is the pointer so far, as a
list position with the aircraft it points to. -/
def selectStep (x y : ℤ) (selection : Option (ℕ × Aircraft)) (i : ℕ) (p : Aircraft) :
    Option (ℕ × Aircraft) :=
  if x ≠ 0 ∧ y ≠ 0 then
    if tapDist x y p < 900 then
      match selection with
      | some (j, q) => if tapDist x y p < tapDist x y q then some (i, p) else some (j, q)
      | none => some (i, p)
    else selection
  else selection

/-- The selection loop of `registerClick` from list position `i` on. -/
def selectLoop (x y : ℤ) : ℕ → List Aircraft → Option (ℕ × Aircraft) → Option (ℕ × Aircraft)
  | _, [], selection => selection
  | i, p :: rest, selection => selectLoop x y (i + 1) rest (selectStep x y selection i p)

/-- `View::registerClick` (View.cpp 1416-1447) over the aircraft list `planes`. -/
def registerClick (cos : ℚ → ℚ) (planes : List Aircraft) (s : ViewObject)
    (tapcount x y : ℤ) : ViewObject :=
  let s1 : ViewObject :=
    if tapcount = 1 then
      { s with selectedAircraft := (selectLoop x y 0 planes none).map Prod.fst }
    else if tapcount = 2 then
      animateCenterAbsolute cos
        { s with view := { s.view with mapTargetMaxDist := 25 / 100 * s.view.maxDist } }
        (x : ℚ) (y : ℚ)
    else s
  { s1 with clickx := x, clicky := y }

/-- The `View` object of `view800` with nothing selected and no click. -/
def object800 : ViewObject :=
  { view := view800, selectedAircraft := none, clickx := 0, clicky := 0 }

/-- An aircraft drawn at the pixel (3, 5). -/
def cornerPlane : Aircraft := { northPlane with cx := 3, cy := 5 }

/-- An aircraft drawn at the pixel (410, 300). -/
def nearPlane : Aircraft := { northPlane with cx := 410, cy := 300 }

/-- An aircraft drawn at the pixel (400, 320). -/
def farPlane : Aircraft := { northPlane with cx := 400, cy := 320 }

/-- The pointer `selection` is right for the aircraft `planes` and the tap
`(x, y)`: empty when no anchor is within the radius, and otherwise an aircraft
of the list within the radius, no anchor nearer than its own, and every
earlier aircraft of the list strictly farther. -/
def NearestWithin (x y : ℤ) (planes : List Aircraft) : Option (ℕ × Aircraft) → Prop
  | none => ∀ q ∈ planes, ¬ tapDist x y q < 900
  | some (i, p) =>
    planes.get? i = some p ∧ tapDist x y p < 900
    ∧ (∀ (j : ℕ) (q : Aircraft), planes.get? j = some q → tapDist x y p ≤ tapDist x y q)
    ∧ (∀ (j : ℕ) (q : Aircraft), j < i → planes.get? j = some q →
        tapDist x y p < tapDist x y q)

/-! ## Trails (`drawTrails`) -/

/-- A trail segment drawn by `drawTrails`: the call
`thickLineRGBA(renderer, prevX, prevY, currentX, currentY, ..., 255, 255, 255, colorVal)`. -/
structure TrailOp where
  prevX : ℤ
  prevY : ℤ
  currentX : ℤ
  currentY : ℤ
  colorVal : ℕ
  deriving DecidableEq

/-- The inner loop of `drawTrails` (View.cpp 587-607) over the history samples
`(lon, lat)` from the iterator position on, with the local `idx` and with
`size` for `p->lonHistory.size()`. -/
def trailSegments (LATLONMULT CENTEROFFSET : ℚ) (cos : ℚ → ℚ) (v : View)
    (left top right bottom : ℤ) (size : ℕ) : ℤ → List (ℚ × ℚ) → List TrailOp
  | _, [] => []
  | _, [_] => []
  | idx, s0 :: s1 :: rest =>
    let dc := pxFromLonLat LATLONMULT cos v s1.1 s1.2
    let current := screenCoords CENTEROFFSET v dc.1 dc.2
    let dp := pxFromLonLat LATLONMULT cos v s0.1 s0.2
    let prev := screenCoords CENTEROFFSET v dp.1 dp.2
    if outOfBoundsRect current.1 current.2 left top right bottom
        && outOfBoundsRect prev.1 prev.2 left top right bottom then
      trailSegments LATLONMULT CENTEROFFSET cos v left top right bottom size idx (s1 :: rest)
    else
      let age : ℚ := 1 - (idx : ℚ) / (size : ℚ)
      let colorVal : ℕ := toUInt8 (⌊255 * clamp age 0 (1 / 2)⌋ : ℤ)
      { prevX := prev.1, prevY := prev.2, currentX := current.1, currentY := current.2,
        colorVal := colorVal }
        :: trailSegments LATLONMULT CENTEROFFSET cos v left top right bottom size (idx - 1)
            (s1 :: rest)

/-- `View::drawTrails` (View.cpp 569-611): the segments drawn, in order. The
histories `lonHistory` and `latHistory` are walked in step. -/
def drawTrails (LATLONMULT CENTEROFFSET : ℚ) (cos : ℚ → ℚ) (v : View)
    (left top right bottom : ℤ) : List Aircraft → List TrailOp
  | [] => []
  | p :: rest =>
    if p.lon ≠ 0 ∧ p.lat ≠ 0 then
      if p.lonHistory = [] then []
      else
        trailSegments LATLONMULT CENTEROFFSET cos v left top right bottom
            p.lonHistory.length (p.lonHistory.length : ℤ) (p.lonHistory.zip p.latHistory)
          ++ drawTrails LATLONMULT CENTEROFFSET cos v left top right bottom rest
    else drawTrails LATLONMULT CENTEROFFSET cos v left top right bottom rest

/-- The opacity that the rank `k` of a segment among `n` history samples
calls for: `floor(255 * clamp(k / n, 0, 0.5))`. -/
def rankAlpha (k n : ℕ) : ℕ := toUInt8 (⌊255 * clamp ((k : ℚ) / (n : ℚ)) 0 (1 / 2)⌋ : ℤ)

/-- An aircraft at (lon 10, lat 39.875) with four history samples on the
meridian of the view centre, oldest first: latitudes 42 and 41, which the view
`view800` puts above the screen, then 40 and 39.875, which it shows. -/
def trailPlane : Aircraft :=
  { northPlane with
    lat := 319 / 8
    lonHistory := [10, 10, 10, 10]
    latHistory := [42, 41, 40, 319 / 8] }

/-! ## Label layout: the update phase of `resolveLabelConflicts` -/

/-- The update of `resolveLabelConflicts` (View.cpp 1142-1168) for one aircraft. -/
def labelUpdate (p : Aircraft) : Aircraft :=
  let dox1 : ℚ := (p.dox + p.ddox) * (95 / 100)
  let doy1 : ℚ := (p.doy + p.ddoy) * (95 / 100)
  let dox2 : ℚ := if |dox1| > 10 then sign dox1 * 10 else dox1
  let doy2 : ℚ := if |doy1| > 10 then sign doy1 * 10 else doy1
  let dox3 : ℚ := if |dox2| < 1 then 0 else dox2
  let doy3 : ℚ := if |doy2| < 1 then 0 else doy2
  let ox1 : ℚ := p.ox + dox3
  let oy1 : ℚ := p.oy + doy3
  { p with
    dox := dox3
    doy := doy3
    ox := ox1
    oy := oy1
    x := p.cx + cround ox1
    y := p.cy + cround oy1 }

/-- The update loop of `resolveLabelConflicts` (View.cpp 1139-1171). -/
def labelUpdateAll (planes : List Aircraft) : List Aircraft := planes.map labelUpdate

/-- The velocity that the update phase makes of `u`: the magnitude clamped to
at most 10, then replaced by 0 when below 1. -/
def settle (u : ℚ) : ℚ :=
  if |max (-10) (min 10 u)| < 1 then 0 else max (-10) (min 10 u)

/-- An aircraft drawn at (400, 300) whose label has the offset (12, -3), the
velocity (9, 0.5) and the acceleration (4, 0.2). -/
def labelPlane : Aircraft :=
  { northPlane with
    cx := 400, cy := 300, ox := 12, oy := -3, dox := 9, doy := 1 / 2, ddox := 4, ddoy := 1 / 5 }

/-! ## Label text (`drawPlaneText`) -/

/-- The three lines of a label. -/
inductive LabelLine where
  | flight
  | altitude
  | speed
  deriving DecidableEq

/-- A `drawStringBG` call of `drawPlaneText`: the line, its position and the
character count that `snprintf` returned for it. -/
structure LabelText where
  line : LabelLine
  x : ℤ
  y : ℤ
  chars : ℤ
  deriving DecidableEq

/-- What `drawPlaneText` leaves: the aircraft with `w`, `h` written, whether
`drawSignalMarks` was called, the lines drawn in order, and whether the
connector to the anchor was drawn. -/
structure PlaneText where
  plane : Aircraft
  signalMarks : Bool
  texts : List LabelText
  connector : Bool
  deriving DecidableEq

/-- The number of characters that `%d` prints for `n`. -/
def decimalLength (n : ℤ) : ℤ :=
  ((Nat.toDigits 10 n.natAbs).length : ℤ) + (if n < 0 then 1 else 0)

/-- The count that `snprintf(flight, 10, " %s", p->flight)` returns. -/
def flightChars (p : Aircraft) : ℤ := 1 + (p.flight.length : ℤ)

/-- The count that the `snprintf` of the altitude line returns: `" %dm"` of
`(int)(p->altitude / 3.2828)` when `metric`, else `" %d'"` of `p->altitude`. -/
def altChars (metric : Bool) (p : Aircraft) : ℤ :=
  if metric then 1 + decimalLength (toInt ((p.altitude : ℚ) / (32828 / 10000))) + 1
  else 1 + decimalLength p.altitude + 1

/-- The count that the `snprintf` of the speed line returns: `" %dkm/h"` of
`(int)(p->speed * 1.852)` when `metric`, else `" %dmph"` of `p->speed`. -/
def speedChars (metric : Bool) (p : Aircraft) : ℤ :=
  if metric then 1 + decimalLength (toInt ((p.speed : ℚ) * (1852 / 1000))) + 4
  else 1 + decimalLength p.speed + 3

/-- `View::drawPlaneText` (View.cpp 839-922); `mapFontWidth`, `mapFontHeight`
and `metric` are the members of that name. -/
def drawPlaneText (mapFontWidth mapFontHeight : ℤ) (metric : Bool) (v : View) (p : Aircraft) :
    PlaneText :=
  let pressure_scale : ℚ := 2
  -- first block: signal marks and flight
  let first : Bool := decide (p.pressure * (v.screen_width : ℚ) < pressure_scale)
  let maxCharCount0 : ℤ := if first then flightChars p else 0
  let flightDrawn : Bool := first && decide (maxCharCount0 > 1)
  let currentLine0 : ℤ := if flightDrawn then 1 else 0
  let texts0 : List LabelText :=
    if flightDrawn then
      [{ line := LabelLine.flight, x := p.x, y := p.y, chars := flightChars p }]
    else []
  -- second block: altitude, then speed
  let second : Bool := decide (p.pressure * (v.screen_width : ℚ) < 1 / 2 * pressure_scale)
  let altDrawn : Bool := second && decide (altChars metric p > 1)
  let texts1 : List LabelText :=
    if altDrawn then
      texts0 ++ [{ line := LabelLine.altitude, x := p.x, y := p.y + currentLine0 * mapFontHeight,
                   chars := altChars metric p }]
    else texts0
  let currentLine1 : ℤ := if altDrawn then currentLine0 + 1 else currentLine0
  let maxCharCount1 : ℤ :=
    if second && decide (altChars metric p > maxCharCount0) then altChars metric p
    else maxCharCount0
  let speedDrawn : Bool := second && decide (speedChars metric p > 1)
  let texts2 : List LabelText :=
    if speedDrawn then
      texts1 ++ [{ line := LabelLine.speed, x := p.x, y := p.y + currentLine1 * mapFontHeight,
                   chars := speedChars metric p }]
    else texts1
  let currentLine2 : ℤ := if speedDrawn then currentLine1 + 1 else currentLine1
  let maxCharCount2 : ℤ :=
    if second && decide (speedChars metric p > maxCharCount1) then speedChars metric p
    else maxCharCount1
  { plane := { p with w := maxCharCount2 * mapFontWidth, h := currentLine2 * mapFontHeight }
    signalMarks := first
    texts := texts2
    connector := decide (maxCharCount2 > 1) }

/-- The line `l` is among the lines drawn. -/
def PlaneText.shows (r : PlaneText) (l : LabelLine) : Prop := ∃ t ∈ r.texts, t.line = l

/-- The largest character count among the lines drawn (0 when there is none). -/
def PlaneText.longest (r : PlaneText) : ℤ := (r.texts.map LabelText.chars).foldr max 0

/-- An aircraft with the identifier `KLM1023` at 35000 ft and 450 kt. -/
def textPlane : Aircraft :=
  { northPlane with flight := "KLM1023", altitude := 35000, speed := 450, x := 420, y := 310 }

/-- An aircraft in a crowded spot: `textPlane` with `pressure * 800 = 1.5`. -/
def crowdedPlane : Aircraft := { textPlane with pressure := 3 / 1600 }

/-! ## Off-screen indicator (`drawPlaneOffMap`) -/

/-- The local `inx` of `drawPlaneOffMap`: `x - (screen_width>>1)`. -/
def offMapInx (v : View) (x : ℤ) : ℚ := ((x - (v.screen_width >>> (1 : ℕ)) : ℤ) : ℚ)

/-- The local `iny` of `drawPlaneOffMap`: `y - screen_height * CENTEROFFSET`. -/
def offMapIny (CENTEROFFSET : ℚ) (v : View) (y : ℤ) : ℚ :=
  (y : ℚ) - (v.screen_height : ℚ) * CENTEROFFSET

/-- The local `inmag` of `drawPlaneOffMap`: `sqrt(inx * inx + iny * iny)`. -/
def offMapInmag (CENTEROFFSET : ℚ) (sqrt : ℚ → ℚ) (v : View) (x y : ℤ) : ℚ :=
  sqrt (offMapInx v x * offMapInx v x + offMapIny CENTEROFFSET v y * offMapIny CENTEROFFSET v y)

/-- The test of the first `if` of `drawPlaneOffMap` (View.cpp 475): the left and
right quadrants. -/
def offMapSides (CENTEROFFSET : ℚ) (v : View) (x y : ℤ) : Prop :=
  |offMapInx v x| > ((|y - (v.screen_height >>> (1 : ℕ))| : ℤ) : ℚ)
    * ((v.screen_width >>> (1 : ℕ) : ℤ) : ℚ) / ((v.screen_height : ℚ) * CENTEROFFSET)

instance (CENTEROFFSET : ℚ) (v : View) (x y : ℤ) : Decidable (offMapSides CENTEROFFSET v x y) := by
  unfold offMapSides
  infer_instance

/-- The local `outx` of `drawPlaneOffMap` after the `if` (View.cpp 475-481). -/
def offMapOutx (CENTEROFFSET : ℚ) (v : View) (x y : ℤ) : ℚ :=
  if offMapSides CENTEROFFSET v x y then
    ((v.screen_width >>> (1 : ℕ) : ℤ) : ℚ) * (if offMapInx v x > 0 then 1 else -1)
  else
    ((v.screen_height : ℚ)
        * (if offMapIny CENTEROFFSET v y > 0 then 1 - CENTEROFFSET else -CENTEROFFSET))
      * offMapInx v x / offMapIny CENTEROFFSET v y

/-- The local `outy` of `drawPlaneOffMap` after the `if` (View.cpp 475-481). -/
def offMapOuty (CENTEROFFSET : ℚ) (v : View) (x y : ℤ) : ℚ :=
  if offMapSides CENTEROFFSET v x y then
    offMapOutx CENTEROFFSET v x y * offMapIny CENTEROFFSET v y / offMapInx v x
  else
    (v.screen_height : ℚ)
      * (if offMapIny CENTEROFFSET v y > 0 then 1 - CENTEROFFSET else -CENTEROFFSET)

/-- What `drawPlaneOffMap` computes: the edge point
`((screen_width>>1) + outx, screen_height * CENTEROFFSET + outy)`, the two
`filledTrigonRGBA` calls `(x1, y1, x2, y2, x3, y3)`, and the anchor written to
`*returnx`, `*returny`. -/
structure OffMap where
  edgeX : ℚ
  edgeY : ℚ
  arrows : List (ℤ × ℤ × ℤ × ℤ × ℤ × ℤ)
  returnx : ℤ
  returny : ℤ
  deriving DecidableEq

/-- `View::drawPlaneOffMap` (View.cpp 464-520); `screen_uiscale` is the member of
that name. -/
def drawPlaneOffMap (CENTEROFFSET : ℚ) (sqrt : ℚ → ℚ) (screen_uiscale : ℤ) (v : View)
    (x y : ℤ) : OffMap :=
  let arrowWidth : ℚ := 6 * (screen_uiscale : ℚ)
  let cxq : ℚ := ((v.screen_width >>> (1 : ℕ) : ℤ) : ℚ)
  let cyq : ℚ := (v.screen_height : ℚ) * CENTEROFFSET
  let outx : ℚ := offMapOutx CENTEROFFSET v x y
  let outy : ℚ := offMapOuty CENTEROFFSET v x y
  let inmag : ℚ := offMapInmag CENTEROFFSET sqrt v x y
  let vec0 : ℚ := offMapInx v x / inmag
  let vec1 : ℚ := offMapIny CENTEROFFSET v y / inmag
  -- CROSSVP(out, vec, up) with up = (0, 0, 1)
  let out0 : ℚ := vec1 * 1 - 0 * 0
  let out1 : ℚ := 0 * 0 - vec0 * 1
  let arrow1 : ℤ × ℤ × ℤ × ℤ × ℤ × ℤ :=
    (toInt (cxq + outx - 2 * arrowWidth * vec0 + (cround (-arrowWidth * out0) : ℚ)),
     toInt (cyq + outy - 2 * arrowWidth * vec1 + (cround (-arrowWidth * out1) : ℚ)),
     toInt (cxq + outx - 2 * arrowWidth * vec0 + (cround (arrowWidth * out0) : ℚ)),
     toInt (cyq + outy - 2 * arrowWidth * vec1 + (cround (arrowWidth * out1) : ℚ)),
     toInt (cxq + outx - arrowWidth * vec0),
     toInt (cyq + outy - arrowWidth * vec1))
  let x3 : ℤ := toInt (cxq + outx - 2 * arrowWidth * vec0)
  let y3 : ℤ := toInt (cyq + outy - 2 * arrowWidth * vec1)
  let arrow2 : ℤ × ℤ × ℤ × ℤ × ℤ × ℤ :=
    (toInt (cxq + outx - 3 * arrowWidth * vec0 + (cround (-arrowWidth * out0) : ℚ)),
     toInt (cyq + outy - 3 * arrowWidth * vec1 + (cround (-arrowWidth * out1) : ℚ)),
     toInt (cxq + outx - 3 * arrowWidth * vec0 + (cround (arrowWidth * out0) : ℚ)),
     toInt (cyq + outy - 3 * arrowWidth * vec1 + (cround (arrowWidth * out1) : ℚ)),
     x3, y3)
  { edgeX := cxq + outx
    edgeY := cyq + outy
    arrows := [arrow1, arrow2]
    returnx := x3
    returny := y3 }

/-- The point `(ex, ey)` lies on the border of the rectangle `[0, w] x [0, h]`. -/
def onBorder (w h : ℤ) (ex ey : ℚ) : Prop :=
  ((ex = 0 ∨ ex = (w : ℚ)) ∧ 0 ≤ ey ∧ ey ≤ (h : ℚ))
    ∨ ((ey = 0 ∨ ey = (h : ℚ)) ∧ 0 ≤ ex ∧ ex ≤ (w : ℚ))

/-- A 10x10 view. -/
def tinyView : View := { view800 with screen_width := 10, screen_height := 10 }

/-! ## Label layout: the force phase of `resolveLabelConflicts` -/

/-- The collision statements that both inner loops of `resolveLabelConflicts`
run on `check_p` (View.cpp 1041-1083 with `label_force`, 1096-1130 with
`plane_force`): the two `continue` tests, then the left, right, top and bottom
collision, each subtracting `force * (edge delta)` from the acceleration of
`check_p`. `p_left` ... `p_bottom` are the locals of that name. -/
def labelCollide (force : ℚ) (screen_uiscale p_left p_right p_top p_bottom : ℤ)
    (check_p : Aircraft) : Aircraft :=
  let check_left : ℤ := check_p.x - 5 * screen_uiscale
  let check_right : ℤ := check_p.x + check_p.w + 5 * screen_uiscale
  let check_top : ℤ := check_p.y - 5 * screen_uiscale
  let check_bottom : ℤ := check_p.y + check_p.h + 5 * screen_uiscale
  if check_left > p_right ∨ check_right < p_left then check_p
  else if check_top > p_bottom ∨ check_bottom < p_top then check_p
  else
    let ddox1 : ℚ :=
      if check_left > p_left ∧ check_left < p_right then
        check_p.ddox - force * ((check_left - p_right : ℤ) : ℚ)
      else check_p.ddox
    let ddox2 : ℚ :=
      if check_right > p_left ∧ check_right < p_right then
        ddox1 - force * ((check_right - p_left : ℤ) : ℚ)
      else ddox1
    let ddoy1 : ℚ :=
      if check_top > p_top ∧ check_top < p_bottom then
        check_p.ddoy - force * ((check_top - p_bottom : ℤ) : ℚ)
      else check_p.ddoy
    let ddoy2 : ℚ :=
      if check_bottom > p_top ∧ check_bottom < p_bottom then
        ddoy1 - force * ((check_bottom - p_top : ℤ) : ℚ)
      else ddoy1
    { check_p with ddox := ddox2, ddoy := ddoy2 }

/-- The head of the turn of `p` in the force loop (View.cpp 995-1034): the
acceleration is reset, the spring term is subtracted when `o_mag > 0`, the
offset is pushed back from the four screen margins, the pressure is reset.
`spring_force` is 0.02 and `spring_length` is 10. -/
def labelSpring (sqrt : ℚ → ℚ) (screen_uiscale : ℤ) (v : View) (p : Aircraft) : Aircraft :=
  let p_left : ℤ := p.x - 10 * screen_uiscale
  let p_right : ℤ := p.x + p.w + 10 * screen_uiscale
  let p_top : ℤ := p.y - 10 * screen_uiscale
  let p_bottom : ℤ := p.y + p.h + 10 * screen_uiscale
  let o_mag : ℚ := sqrt (p.ox * p.ox + p.oy * p.oy)
  let ddox : ℚ := if o_mag > 0 then 0 - p.ox / o_mag * (2 / 100) * (o_mag - 10) else 0
  let ddoy : ℚ := if o_mag > 0 then 0 - p.oy / o_mag * (2 / 100) * (o_mag - 10) else 0
  let ox1 : ℚ :=
    if p_left < 10 * screen_uiscale then p.ox + ((10 * screen_uiscale - p_left : ℤ) : ℚ)
    else p.ox
  let ox2 : ℚ :=
    if p_right > v.screen_width - 10 * screen_uiscale then
      ox1 - ((p_right - (v.screen_width - 10 * screen_uiscale) : ℤ) : ℚ)
    else ox1
  let oy1 : ℚ :=
    if p_top < 10 * screen_uiscale then p.oy + ((10 * screen_uiscale - p_top : ℤ) : ℚ)
    else p.oy
  let oy2 : ℚ :=
    if p_bottom > v.screen_height - 10 * screen_uiscale then
      oy1 - ((p_bottom - (v.screen_height - 10 * screen_uiscale) : ℤ) : ℚ)
    else oy1
  { p with ddox := ddox, ddoy := ddoy, ox := ox2, oy := oy2, pressure := 0 }

/-- The term that the label loop adds to `p->pressure` for `check_p`
(View.cpp 1047): `1.0f` over the squared pixel distance of the two `cx`, `cy`.
The divisor is 0 when the two aircraft are drawn on one pixel; the quotient of
the embedding is then 0, where the `float` division gives infinity. -/
def pressureTerm (p check_p : Aircraft) : ℚ :=
  1 / (((check_p.cx - p.cx) * (check_p.cx - p.cx)
    + (check_p.cy - p.cy) * (check_p.cy - p.cy) : ℤ) : ℚ)

/-- The statement `p->pressure += q`. -/
def Aircraft.addPressure (p : Aircraft) (q : ℚ) : Aircraft :=
  { p with pressure := p.pressure + q }

/-- One round of the label loop (View.cpp 1038-1085): `p` is the aircraft at
position `i` of the list and `check_p` the one at position `j`. -/
def labelCheck (screen_uiscale : ℤ) (i : ℕ) (p_left p_right p_top p_bottom : ℤ)
    (planes : List Aircraft) (j : ℕ) : List Aircraft :=
  match planes[i]?, planes[j]? with
  | some p, some check_p =>
    if check_p.addr ≠ p.addr then
      (planes.set i (p.addPressure (pressureTerm p check_p))).set j
        (labelCollide (1 / 100) screen_uiscale p_left p_right p_top p_bottom check_p)
    else planes
  | _, _ => planes

/-- One round of the icon loop (View.cpp 1094-1133): `check_p` is the aircraft
at position `j` of the list, the aircraft of the turn included. -/
def iconCheck (screen_uiscale : ℤ) (p_left p_right p_top p_bottom : ℤ)
    (planes : List Aircraft) (j : ℕ) : List Aircraft :=
  match planes[j]? with
  | some check_p =>
    planes.set j (labelCollide (1 / 100) screen_uiscale p_left p_right p_top p_bottom check_p)
  | none => planes

/-- The turn of the aircraft at position `i` in the force loop of
`resolveLabelConflicts` (View.cpp 991-1136). -/
def labelTurn (sqrt : ℚ → ℚ) (screen_uiscale : ℤ) (v : View)
    (planes : List Aircraft) (i : ℕ) : List Aircraft :=
  match planes[i]? with
  | none => planes
  | some p =>
    let planes1 := planes.set i (labelSpring sqrt screen_uiscale v p)
    let planes2 := (List.range planes.length).foldl
      (labelCheck screen_uiscale i (p.x - 10 * screen_uiscale)
        (p.x + p.w + 10 * screen_uiscale) (p.y - 10 * screen_uiscale)
        (p.y + p.h + 10 * screen_uiscale)) planes1
    (List.range planes.length).foldl
      (iconCheck screen_uiscale (p.x - 5 * screen_uiscale) (p.x + 5 * screen_uiscale)
        (p.y - 5 * screen_uiscale) (p.y + 5 * screen_uiscale)) planes2

/-- The force loop of `resolveLabelConflicts` (View.cpp 991-1136): one turn
per aircraft, in list order. -/
def labelForces (sqrt : ℚ → ℚ) (screen_uiscale : ℤ) (v : View)
    (planes : List Aircraft) : List Aircraft :=
  (List.range planes.length).foldl (labelTurn sqrt screen_uiscale v) planes

/-- `View::resolveLabelConflicts` (View.cpp 982-1172): the force loop, then the
update loop. -/
def resolveLabelConflicts (sqrt : ℚ → ℚ) (screen_uiscale : ℤ) (v : View)
    (planes : List Aircraft) : List Aircraft :=
  labelUpdateAll (labelForces sqrt screen_uiscale v planes)

/-- The four passes of `resolveLabelConflicts` that `View::draw` runs in one
frame (View.cpp 1466-1468). -/
def relaxLabels (sqrt : ℚ → ℚ) (screen_uiscale : ℤ) (v : View)
    (planes : List Aircraft) : List Aircraft :=
  resolveLabelConflicts sqrt screen_uiscale v
    (resolveLabelConflicts sqrt screen_uiscale v
      (resolveLabelConflicts sqrt screen_uiscale v
        (resolveLabelConflicts sqrt screen_uiscale v planes)))

/-- The area that the label rectangles `(x, y, w, h)` of two aircraft share. -/
def overlapArea (a b : Aircraft) : ℤ :=
  max 0 (min (a.x + a.w) (b.x + b.w) - max a.x b.x)
    * max 0 (min (a.y + a.h) (b.y + b.h) - max a.y b.y)

/-- An aircraft at the pixel (400, 300) with a 40x20 label at its icon. -/
def leftLabel : Aircraft :=
  { northPlane with addr := 1, cx := 400, cy := 300, x := 400, y := 300, w := 40, h := 20 }

/-- An aircraft at the pixel (420, 300) with a 40x20 label at its icon. -/
def rightLabel : Aircraft :=
  { northPlane with addr := 2, cx := 420, cy := 300, x := 420, y := 300, w := 40, h := 20 }

/-- An aircraft at the pixel (400, 300) whose 40x20 label has the offset (12, 0). -/
def offsetLabel : Aircraft :=
  { northPlane with
    addr := 1, cx := 400, cy := 300, x := 412, y := 300, w := 40, h := 20, ox := 12 }

/-- An aircraft at the pixel (420, 300) whose 40x20 label has the offset (20, 0). -/
def shiftedLabel : Aircraft :=
  { northPlane with
    addr := 2, cx := 420, cy := 300, x := 440, y := 300, w := 40, h := 20, ox := 20 }

/-- An aircraft without the acceleration and the pressure: what the two inner
loops of the force phase leave as it is. -/
def Aircraft.rest (p : Aircraft) : Aircraft := { p with ddox := 0, ddoy := 0, pressure := 0 }

/-- A label at rest on its icon, clear of the four screen margins and small:
offset and velocity are zero, the label is at `(cx, cy)`, its padded box keeps
`10 * screen_uiscale` from every screen edge, and width and height are at most
`105 - 40 * screen_uiscale`. -/
def Aircraft.resting (screen_uiscale : ℤ) (v : View) (p : Aircraft) : Prop :=
  p.ox = 0 ∧ p.oy = 0 ∧ p.dox = 0 ∧ p.doy = 0 ∧ p.x = p.cx ∧ p.y = p.cy
  ∧ 0 ≤ p.w ∧ 0 ≤ p.h ∧ p.w + 40 * screen_uiscale ≤ 105 ∧ p.h + 40 * screen_uiscale ≤ 105
  ∧ 10 * screen_uiscale ≤ p.x - 10 * screen_uiscale
  ∧ p.x + p.w + 10 * screen_uiscale ≤ v.screen_width - 10 * screen_uiscale
  ∧ 10 * screen_uiscale ≤ p.y - 10 * screen_uiscale
  ∧ p.y + p.h + 10 * screen_uiscale ≤ v.screen_height - 10 * screen_uiscale

/-- An aircraft at the pixel (100, 100) whose 40x20 label has the offset
(300, 400), of magnitude 500. -/
def pulledLabel : Aircraft :=
  { northPlane with
    addr := 1, cx := 100, cy := 100, x := 400, y := 500, w := 40, h := 20, ox := 300, oy := 400 }

/-- What the pressure of an aircraft is computed from: address and icon pixel. -/
def Aircraft.key (p : Aircraft) : ℕ × ℤ × ℤ := (p.addr, p.cx, p.cy)

/-- The pressure term between two keys: 0 for one address, otherwise 1 over the
squared pixel distance. -/
def pairTerm (k c : ℕ × ℤ × ℤ) : ℚ :=
  if c.1 ≠ k.1 then
    1 / (((c.2.1 - k.2.1) * (c.2.1 - k.2.1) + (c.2.2 - k.2.2) * (c.2.2 - k.2.2) : ℤ) : ℚ)
  else 0

/-- The pressure term of position `j` of a list of keys, 0 past its end. -/
def rowTerm (K : List (ℕ × ℤ × ℤ)) (k : ℕ × ℤ × ℤ) (j : ℕ) : ℚ :=
  match K[j]? with
  | some c => pairTerm k c
  | none => 0

/-- Adding `d` to the entry at position `i` of a list of numbers. -/
def bump (ps : List ℚ) (i : ℕ) (d : ℚ) : List ℚ := ps.set i (ps.getD i 0 + d)

/-- The sum of the inverse squared pixel distances from the icon of `p` to the
icons of the aircraft of `planes` with another address. -/
def pressureSum (p : Aircraft) (planes : List Aircraft) : ℚ :=
  ((planes.filter (fun c => c.addr ≠ p.addr)).map (pressureTerm p)).sum

/-- The inverse squared pixel distance between the label positions `(x, y)` of
two aircraft. -/
def labelTerm (p c : Aircraft) : ℚ :=
  1 / (((c.x - p.x) * (c.x - p.x) + (c.y - p.y) * (c.y - p.y) : ℤ) : ℚ)

/-! ## `anetRead` (anet.c) -/

/-- The loop of `anetRead` (anet.c 249-257). `read n req` is what the `n`-th
call of `read(fd, buf, req)` returns; `totlen` is the local of that name. The
first argument bounds the number of rounds; `none` means the bound was reached
before the function returned. -/
def anetReadLoop (read : ℕ → ℤ → ℤ) (count : ℤ) : ℕ → ℕ → ℤ → Option ℤ
  | 0, _, _ => none
  | fuel + 1, n, totlen =>
    if totlen ≠ count then
      if read n (count - totlen) = 0 then some totlen
      else if read n (count - totlen) = -1 then some (-1)
      else anetReadLoop read count fuel (n + 1) (totlen + read n (count - totlen))
    else some totlen

/-- `anetRead` (anet.c 246-259), with a bound on the number of rounds. -/
def anetRead (read : ℕ → ℤ → ℤ) (count : ℤ) (fuel : ℕ) : Option ℤ :=
  anetReadLoop read count fuel 0 0

/-- The number of bytes accumulated after the first `k` calls of `read`, when
each call asks for the bytes still missing. -/
def accumulated (read : ℕ → ℤ → ℤ) (count : ℤ) : ℕ → ℤ
  | 0 => 0
  | k + 1 => accumulated read count k + read k (count - accumulated read count k)

/-- A `read` that hands out at most three bytes per call and never fails. -/
def threeAtATime (_ : ℕ) (req : ℤ) : ℤ := min 3 req

/-! ## Per-segment culling -/

/-- The pixel endpoints `(x1, y1, x2, y2)` that the segment loop of
`drawLinesRecursive` computes for a segment (View.cpp 682-686). -/
def linePixels (LATLONMULT CENTEROFFSET : ℚ) (cos : ℚ → ℚ) (v : View) (l : Line) :
    ℤ × ℤ × ℤ × ℤ :=
  let d1 := pxFromLonLat LATLONMULT cos v l.start.lon l.start.lat
  let p1 := screenCoords CENTEROFFSET v d1.1 d1.2
  let d2 := pxFromLonLat LATLONMULT cos v l.end_.lon l.end_.lat
  let p2 := screenCoords CENTEROFFSET v d2.1 d2.2
  (p1.1, p1.2, p2.1, p2.2)

/-- Neither `continue` of the segment loop is taken (View.cpp 690-696): an
endpoint is inside the screen and the two pixel endpoints differ. -/
def passesCulling (v : View) (e : ℤ × ℤ × ℤ × ℤ) : Bool :=
  !(outOfBounds v e.1 e.2.1 && outOfBounds v e.2.2.1 e.2.2.2)
    && !(decide (e.1 = e.2.2.1 ∧ e.2.1 = e.2.2.2))

/-- The segments whose loop body `drawLinesRecursive` runs, in order: those of
the nodes the traversal enters. -/
def QuadTree.entered (screen_lat_min screen_lat_max screen_lon_min screen_lon_max : ℚ) :
    QuadTree → List Line
  | QuadTree.null => []
  | QuadTree.node lat_min lat_max lon_min lon_max nw sw ne se lines =>
    if lat_min > screen_lat_max ∨ screen_lat_min > lat_max then []
    else if lon_min > screen_lon_max ∨ screen_lon_min > lon_max then []
    else
      nw.entered screen_lat_min screen_lat_max screen_lon_min screen_lon_max
        ++ sw.entered screen_lat_min screen_lat_max screen_lon_min screen_lon_max
        ++ ne.entered screen_lat_min screen_lat_max screen_lon_min screen_lon_max
        ++ se.entered screen_lat_min screen_lat_max screen_lon_min screen_lon_max
        ++ lines

/-- A segment on the meridian of the centre of `view800`, from latitude 42 to
latitude 38: it crosses the whole screen from above to below. -/
def crossingSeg : Line := { start := { lat := 42, lon := 10 }, end_ := { lat := 38, lon := 10 } }

/-- An aircraft at (lon 10, lat 39.875) with two history samples on the
meridian of the centre of `view800`, latitudes 40 and 39.875, both on screen. -/
def shortTrailPlane : Aircraft :=
  { northPlane with lat := 319 / 8, lonHistory := [10, 10], latHistory := [40, 319 / 8] }

/-! ## The view as a state machine -/

/-- What the constructor `View::View` (View.cpp 1492-1509) leaves: the members
it assigns, as far as the embedding has them; the other members are not
initialised by it and are arbitrary. -/
def Constructed (s : ViewObject) : Prop :=
  s.view.screen_width = 0 ∧ s.view.screen_height = 0 ∧ s.view.maxDist = 25
    ∧ s.view.mapMoved = 1 ∧ s.view.mapRedraw = 1 ∧ s.selectedAircraft = none

/-- The states of the `View` object that a sequence of calls of
`moveCenterRelative`, `moveCenterAbsolute`, `animateCenterAbsolute`,
`registerClick`, `moveMapToTarget`, `zoomMapToTarget`, `drawPlanes` and
`drawGeography` reaches from a constructed object, with any arguments, any
aircraft list and any clock reading at each call. -/
inductive Reachable (LATLONMULT CENTEROFFSET : ℚ) (cos : ℚ → ℚ) (FRAMETIME : ℚ)
    (MODES_ACFLAGS_HEADING_VALID : ℤ) (drawPlaneOffMap : ℤ → ℤ → ℤ × ℤ) : ViewObject → Prop where
  | constructed (s : ViewObject) (h : Constructed s) :
      Reachable LATLONMULT CENTEROFFSET cos FRAMETIME MODES_ACFLAGS_HEADING_VALID
        drawPlaneOffMap s
  | moveRelative (s : ViewObject) (dx dy : ℚ)
      (h : Reachable LATLONMULT CENTEROFFSET cos FRAMETIME MODES_ACFLAGS_HEADING_VALID
        drawPlaneOffMap s) :
      Reachable LATLONMULT CENTEROFFSET cos FRAMETIME MODES_ACFLAGS_HEADING_VALID
        drawPlaneOffMap (moveCenterRelative cos s dx dy)
  | moveAbsolute (s : ViewObject) (x y : ℚ)
      (h : Reachable LATLONMULT CENTEROFFSET cos FRAMETIME MODES_ACFLAGS_HEADING_VALID
        drawPlaneOffMap s) :
      Reachable LATLONMULT CENTEROFFSET cos FRAMETIME MODES_ACFLAGS_HEADING_VALID
        drawPlaneOffMap (moveCenterAbsolute cos s x y)
  | animate (s : ViewObject) (x y : ℚ)
      (h : Reachable LATLONMULT CENTEROFFSET cos FRAMETIME MODES_ACFLAGS_HEADING_VALID
        drawPlaneOffMap s) :
      Reachable LATLONMULT CENTEROFFSET cos FRAMETIME MODES_ACFLAGS_HEADING_VALID
        drawPlaneOffMap (animateCenterAbsolute cos s x y)
  | click (s : ViewObject) (planes : List Aircraft) (tapcount x y : ℤ)
      (h : Reachable LATLONMULT CENTEROFFSET cos FRAMETIME MODES_ACFLAGS_HEADING_VALID
        drawPlaneOffMap s) :
      Reachable LATLONMULT CENTEROFFSET cos FRAMETIME MODES_ACFLAGS_HEADING_VALID
        drawPlaneOffMap (registerClick cos planes s tapcount x y)
  | moveStep (s : ViewObject)
      (h : Reachable LATLONMULT CENTEROFFSET cos FRAMETIME MODES_ACFLAGS_HEADING_VALID
        drawPlaneOffMap s) :
      Reachable LATLONMULT CENTEROFFSET cos FRAMETIME MODES_ACFLAGS_HEADING_VALID
        drawPlaneOffMap { s with view := moveMapToTarget s.view }
  | zoomStep (s : ViewObject)
      (h : Reachable LATLONMULT CENTEROFFSET cos FRAMETIME MODES_ACFLAGS_HEADING_VALID
        drawPlaneOffMap s) :
      Reachable LATLONMULT CENTEROFFSET cos FRAMETIME MODES_ACFLAGS_HEADING_VALID
        drawPlaneOffMap { s with view := zoomMapToTarget s.view }
  | drawnPlanes (s : ViewObject) (planes : List Aircraft)
      (h : Reachable LATLONMULT CENTEROFFSET cos FRAMETIME MODES_ACFLAGS_HEADING_VALID
        drawPlaneOffMap s) :
      Reachable LATLONMULT CENTEROFFSET cos FRAMETIME MODES_ACFLAGS_HEADING_VALID
        drawPlaneOffMap
        { s with
          view := (drawPlanes LATLONMULT CENTEROFFSET cos MODES_ACFLAGS_HEADING_VALID
            drawPlaneOffMap s.view s.selectedAircraft planes).1 }
  | drawnGeography (s : ViewObject) (sinceRedraw : ℚ)
      (h : Reachable LATLONMULT CENTEROFFSET cos FRAMETIME MODES_ACFLAGS_HEADING_VALID
        drawPlaneOffMap s) :
      Reachable LATLONMULT CENTEROFFSET cos FRAMETIME MODES_ACFLAGS_HEADING_VALID
        drawPlaneOffMap
        { s with
          view := (drawGeography LATLONMULT CENTEROFFSET cos FRAMETIME sinceRedraw s.view).1 }

/-- The cache is valid: when `mapMoved` and `mapRedraw` are both clear, the
view recorded for the cache is the live view. -/
def CacheValid (v : View) : Prop :=
  v.mapMoved = 0 → v.mapRedraw = 0 →
    v.currentLon = v.centerLon ∧ v.currentLat = v.centerLat ∧ v.currentMaxDist = v.maxDist

/-- A constructed object: the members the constructor assigns, and zero for the
others. -/
def freshObject : ViewObject :=
  { view :=
      { screen_width := 0, screen_height := 0, maxDist := 25, centerLon := 0, centerLat := 0,
        currentLon := 0, currentLat := 0, currentMaxDist := 0,
        mapTargetLon := 0, mapTargetLat := 0, mapTargetMaxDist := 0,
        mapMoved := 1, mapRedraw := 1, mapAnimating := 0 }
    selectedAircraft := none, clickx := 0, clicky := 0 }

/-- The zoom radius is positive and the radius target is unset (0) or positive. -/
def RadiusOk (v : View) : Prop :=
  0 < v.maxDist ∧ (v.mapTargetMaxDist = 0 ∨ 0 < v.mapTargetMaxDist)

/-! ## Theorems -/

theorem shiftRight_one (w : ℤ) : w >>> (1 : ℕ) = w / 2 := by
  have h := Int.shiftRight_eq_div_pow w 1
  simpa using h

theorem cround_of_nonneg {q : ℚ} (h : 0 ≤ q) : cround q = round q := by
  rw [round_eq, cround, if_pos h]

theorem cround_nonneg {q : ℚ} (h : 0 ≤ q) : 0 ≤ cround q := by
  rw [cround, if_pos h]
  exact Int.floor_nonneg.mpr (by positivity)

theorem scale_factor_eq_max (v : View) :
    scale_factor v = ((max v.screen_width v.screen_height : ℤ) : ℚ) := by
  unfold scale_factor
  split_ifs with h
  · rw [max_eq_left (le_of_lt h)]
  · rw [max_eq_right (not_lt.mp h)]

/-- C1 (code defect). The round trip does not recover the point. In the 800x600
view of radius 25 centred at (lon 10, lat 40), with `LATLONMULT = 111.195` and
`CENTEROFFSET = 0.5`, the point (lon 10, lat 41) goes to the pixel
(400, 300 - 1779) and comes back with latitude `40 - 180 * (25 * 1779 / 380) / (6371 * M_PI)`,
about 38.95: on the other side of the centre and more than 2 degrees from the
original, while one pixel spans less than 0.001 degree. The point
(lon 0, lat 41) comes back with the latitude of the centre. This holds for
every cosine. -/
theorem C1_roundTrip_diverges (cos : ℚ → ℚ) :
    screenCoords (1 / 2) view800
        (pxFromLonLat (111195 / 1000) cos view800 10 41).1
        (pxFromLonLat (111195 / 1000) cos view800 10 41).2 = (400, 300 - 1779)
      ∧ (roundTrip (111195 / 1000) (1 / 2) cos view800 10 41).1
          = 40 - 180 * (25 * 1779 / 380) / (6371 * M_PI)
      ∧ (roundTrip (111195 / 1000) (1 / 2) cos view800 10 41).1 < 40
      ∧ 2 < |(roundTrip (111195 / 1000) (1 / 2) cos view800 10 41).1 - 41|
      ∧ (25 : ℚ) / (800 * (1 / 2)) / (111195 / 1000) < 1 / 1000
      ∧ (roundTrip (111195 / 1000) (1 / 2) cos view800 0 41).1 = 40 := by
  have hpx : pxFromLonLat (111195 / 1000) cos view800 10 41 = (0, 111195 / 1000) := by
    simp [pxFromLonLat, view800]
    norm_num
  have hpx0 : pxFromLonLat (111195 / 1000) cos view800 0 41 = (0, 0) := by
    simp [pxFromLonLat]
  have hsd0 : screenDist view800 0 = 0 := by
    simp only [screenDist, cround, abs_zero, mul_zero, zero_div]
    norm_num
  have hsd : screenDist view800 (111195 / 1000) = 1779 := by
    have habs : |(111195 / 1000 : ℚ)| = 111195 / 1000 := abs_of_pos (by norm_num)
    simp only [screenDist, scale_factor, view800, cround, habs]
    norm_num
  have hsc : screenCoords (1 / 2) view800 0 (111195 / 1000) = (400, 300 - 1779) := by
    simp only [screenCoords, hsd0, hsd, toInt, shiftRight_one]
    norm_num [view800]
    exact_mod_cast Int.ceil_intCast (-1479 : ℤ)
  have hsc0 : screenCoords (1 / 2) view800 0 0 = (400, 300) := by
    simp only [screenCoords, hsd0, toInt, shiftRight_one]
    norm_num [view800]
  have hlat : (roundTrip (111195 / 1000) (1 / 2) cos view800 10 41).1
      = 40 - 180 * (25 * 1779 / 380) / (6371 * M_PI) := by
    simp only [roundTrip, hpx, hsc]
    simp only [latLonFromScreenCoords, scale_factor, view800]
    norm_num
    ring
  have hlat0 : (roundTrip (111195 / 1000) (1 / 2) cos view800 0 41).1 = 40 := by
    simp only [roundTrip, hpx0, hsc0]
    simp only [latLonFromScreenCoords, scale_factor, view800]
    norm_num
  refine ⟨by rw [hpx, hsc], hlat, ?_, ?_, by norm_num, hlat0⟩
  · rw [hlat]; norm_num [M_PI]
  · rw [hlat, abs_sub_comm, lt_abs]; left; norm_num [M_PI]

/-- C2 counterexample. The point (lon 0, lat 41) is not (0,0), yet in the view
centred at (lon 10, lat 40) `pxFromLonLat` short-circuits it to the zero
offset, whatever the cosine, while the formula of the claim gives
`dy = LATLONMULT * (41 - 40)`, which is 111.195 for `LATLONMULT = 111.195`. -/
theorem C2_zero_longitude_short_circuited :
    ((0 : ℚ), (41 : ℚ)) ≠ (0, 0) ∧
    ∀ cos : ℚ → ℚ,
      pxFromLonLat (111195 / 1000) cos view800 0 41 = (0, 0) ∧
      (pxFromLonLat (111195 / 1000) cos view800 0 41).2
        ≠ 111195 / 1000 * (41 - view800.centerLat) := by
  refine ⟨by simp, fun cos => ?_⟩
  have h : pxFromLonLat (111195 / 1000) cos view800 0 41 = (0, 0) := by
    simp [pxFromLonLat]
  refine ⟨h, ?_⟩
  rw [h]
  norm_num [view800]

/-- C2 (amended). For every point whose longitude and latitude are both
non-zero, `pxFromLonLat` returns
`dx = LATLONMULT * (lon - centerLon) * cos(((lat + centerLat)/2) * M_PI / 180)` and
`dy = LATLONMULT * (lat - centerLat)`; every point whose longitude or latitude
is zero is short-circuited to the zero offset. -/
theorem C2_pxFromLonLat_cases (LATLONMULT : ℚ) (cos : ℚ → ℚ) (v : View) (lon lat : ℚ) :
    (lon ≠ 0 ∧ lat ≠ 0 →
      pxFromLonLat LATLONMULT cos v lon lat
        = (LATLONMULT * (lon - v.centerLon) * cos (((lat + v.centerLat) / 2) * M_PI / 180),
           LATLONMULT * (lat - v.centerLat)))
    ∧ (lon = 0 ∨ lat = 0 → pxFromLonLat LATLONMULT cos v lon lat = (0, 0)) := by
  constructor
  · rintro ⟨h1, h2⟩
    simp [pxFromLonLat, h1, h2]
  · intro h
    simp [pxFromLonLat, h]

/-- C2 (amended) at the point (lon 10, lat 41) of the view centred at
(lon 10, lat 40), and at the point (lon 0, lat 41). -/
theorem C2_pxFromLonLat_cases_witness :
    ((10 : ℚ) ≠ 0 ∧ (41 : ℚ) ≠ 0)
    ∧ pxFromLonLat (111195 / 1000) (fun _ => 1) view800 10 41
        = (111195 / 1000 * (10 - view800.centerLon)
            * (fun _ => (1 : ℚ)) (((41 + view800.centerLat) / 2) * M_PI / 180),
           111195 / 1000 * (41 - view800.centerLat))
    ∧ pxFromLonLat (111195 / 1000) (fun _ => 1) view800 0 41 = (0, 0) :=
  have h : (10 : ℚ) ≠ 0 ∧ (41 : ℚ) ≠ 0 := by norm_num
  ⟨h, (C2_pxFromLonLat_cases (111195 / 1000) (fun _ => 1) view800 10 41).1 h,
    (C2_pxFromLonLat_cases (111195 / 1000) (fun _ => 1) view800 0 41).2 (Or.inl rfl)⟩

/-- C3. In a view with `maxDist > 0` (and a non-negative larger screen dimension),
`screenDist d` is `round (0.5 * max(screen_width, screen_height) * |d| / maxDist)`,
is non-negative and even in `d`; `screenCoords` offsets the screen centre on
both axes by that same rounded scaling, in which only the larger screen
dimension occurs. -/
theorem C3_screenDist_scale (CENTEROFFSET : ℚ) (v : View) (d dx dy : ℚ)
    (hmax : 0 < v.maxDist) (hs : 0 ≤ max v.screen_width v.screen_height) :
    screenDist v d
        = round ((1 / 2 : ℚ) * ((max v.screen_width v.screen_height : ℤ) : ℚ) * |d| / v.maxDist)
    ∧ 0 ≤ screenDist v d
    ∧ screenDist v (-d) = screenDist v d
    ∧ screenCoords CENTEROFFSET v dx dy
        = ((v.screen_width >>> (1 : ℕ)) + (if dx > 0 then 1 else -1)
              * round ((1 / 2 : ℚ) * ((max v.screen_width v.screen_height : ℤ) : ℚ)
                  * |dx| / v.maxDist),
           toInt ((v.screen_height : ℚ) * CENTEROFFSET
              + (((if dy > 0 then -1 else 1)
                  * round ((1 / 2 : ℚ) * ((max v.screen_width v.screen_height : ℤ) : ℚ)
                      * |dy| / v.maxDist) : ℤ) : ℚ))) := by
  have hsf : 0 ≤ scale_factor v := by
    rw [scale_factor_eq_max]
    exact_mod_cast hs
  have hnn : ∀ e : ℚ, 0 ≤ scale_factor v * (1 / 2) * |e| / v.maxDist := fun e =>
    div_nonneg (mul_nonneg (mul_nonneg hsf (by norm_num)) (abs_nonneg e)) hmax.le
  have key : ∀ e : ℚ, screenDist v e
      = round ((1 / 2 : ℚ) * ((max v.screen_width v.screen_height : ℤ) : ℚ) * |e| / v.maxDist) := by
    intro e
    rw [screenDist, cround_of_nonneg (hnn e), scale_factor_eq_max, mul_comm (_ : ℚ) (1 / 2)]
  refine ⟨key d, ?_, ?_, ?_⟩
  · exact cround_nonneg (hnn d)
  · simp [screenDist]
  · simp only [screenCoords, key]

/-- C3 at a concrete view: the 800x600 view of radius 25. -/
theorem C3_screenDist_scale_witness :
    (0 < view800.maxDist ∧ 0 ≤ max view800.screen_width view800.screen_height)
    ∧ 0 ≤ screenDist view800 (-7)
    ∧ screenDist view800 (-(-7)) = screenDist view800 (-7) :=
  have h1 : 0 < view800.maxDist := by norm_num [view800]
  have h2 : 0 ≤ max view800.screen_width view800.screen_height := by norm_num [view800]
  ⟨⟨h1, h2⟩, (C3_screenDist_scale (1 / 2) view800 (-7) 1 1 h1 h2).2.1,
    (C3_screenDist_scale (1 / 2) view800 (-7) 1 1 h1 h2).2.2.1⟩

/-- C4 counterexample. In the 800x600 view of radius 25 an offset of exactly
`maxDist` is mapped to 400 pixels, half the longer screen dimension, not to
`min(800, 600) / 2 = 300`. -/
theorem C4_maxDist_is_half_longer_side :
    0 < view800.maxDist
    ∧ screenDist view800 view800.maxDist = 400
    ∧ min view800.screen_width view800.screen_height / 2 = 300 := by
  refine ⟨by norm_num [view800], ?_, by norm_num [view800]⟩
  simp only [screenDist, scale_factor, view800, cround]
  norm_num

/-- C4 (amended). In a view with `maxDist > 0` (and a non-negative larger screen dimension)
an offset of exactly `maxDist` is mapped by `screenDist` to
`round (max(screen_width, screen_height) / 2)` pixels: the zoom radius is the
distance shown by half the longer screen dimension. -/
theorem C4_screenDist_maxDist (v : View)
    (hmax : 0 < v.maxDist) (hs : 0 ≤ max v.screen_width v.screen_height) :
    screenDist v v.maxDist
      = round (((max v.screen_width v.screen_height : ℤ) : ℚ) / 2) := by
  have hsf : 0 ≤ scale_factor v := by
    rw [scale_factor_eq_max]
    exact_mod_cast hs
  have harg : scale_factor v * (1 / 2) * |v.maxDist| / v.maxDist = scale_factor v / 2 := by
    rw [abs_of_pos hmax]
    field_simp
    ring
  rw [screenDist, harg, cround_of_nonneg (by positivity), scale_factor_eq_max]

/-- C4 (amended) at the 800x600 view of radius 25. -/
theorem C4_screenDist_maxDist_witness :
    (0 < view800.maxDist ∧ 0 ≤ max view800.screen_width view800.screen_height)
    ∧ screenDist view800 view800.maxDist
      = round (((max view800.screen_width view800.screen_height : ℤ) : ℚ) / 2) :=
  have h1 : 0 < view800.maxDist := by norm_num [view800]
  have h2 : 0 ≤ max view800.screen_width view800.screen_height := by norm_num [view800]
  ⟨⟨h1, h2⟩, C4_screenDist_maxDist view800 h1 h2⟩

/-! ### Aircraft pass -/

theorem pxFromLonLat_congr (LATLONMULT : ℚ) (cos : ℚ → ℚ) {v w : View}
    (h1 : w.centerLon = v.centerLon) (h2 : w.centerLat = v.centerLat) (lon lat : ℚ) :
    pxFromLonLat LATLONMULT cos w lon lat = pxFromLonLat LATLONMULT cos v lon lat := by
  simp only [pxFromLonLat, h1, h2]

theorem screenCoords_congr (CENTEROFFSET : ℚ) {v w : View}
    (h1 : w.screen_width = v.screen_width) (h2 : w.screen_height = v.screen_height)
    (h3 : w.maxDist = v.maxDist) (dx dy : ℚ) :
    screenCoords CENTEROFFSET w dx dy = screenCoords CENTEROFFSET v dx dy := by
  simp only [screenCoords, screenDist, scale_factor, h1, h2, h3]

theorem drawPlanesFrom_get (LATLONMULT CENTEROFFSET : ℚ) (cos : ℚ → ℚ) (HV : ℤ)
    (f : ℤ → ℤ → ℤ × ℤ) (v : View) (sel : Option ℕ) (planes : List Aircraft) :
    ∀ k i : ℕ, (drawPlanesFrom LATLONMULT CENTEROFFSET cos HV f v sel k planes).get? i
      = (planes.get? i).map
          (fun p => drawPlane LATLONMULT CENTEROFFSET cos HV f v (decide (sel = some (k + i))) p) := by
  induction planes with
  | nil => intro k i; simp [drawPlanesFrom]
  | cons p rest ih =>
    intro k i
    cases i with
    | zero => simp [drawPlanesFrom]
    | succ i =>
      simp only [drawPlanesFrom, List.get?_cons_succ, ih (k + 1) i]
      have : k + 1 + i = k + (i + 1) := by omega
      rw [this]

/-- C5 counterexample. An aircraft at (lon 0, lat 41), which is not (0,0), is
skipped by `drawPlanes` in the view centred at (lon 10, lat 40): no anchor is
computed for it, nothing is drawn and its `cx, cy` stay as they were, for
every cosine, every off-map anchor and every selection. -/
theorem C5_meridian_plane_excluded :
    (meridianPlane.lon, meridianPlane.lat) ≠ (0, 0) ∧
    ∀ (cos : ℚ → ℚ) (f : ℤ → ℤ → ℤ × ℤ) (sel : Option ℕ),
      (drawPlanes (111195 / 1000) (1 / 2) cos 16 f view800 sel [meridianPlane]).2.1
        = [{ plane := meridianPlane, anchor := none, ops := [] }] := by
  refine ⟨by simp [meridianPlane], fun cos f sel => ?_⟩
  simp [drawPlanes, drawPlanesFrom, drawPlane, meridianPlane]

/-- C5 (amended). The loop of `drawPlanes` excludes an aircraft exactly when
its longitude or its latitude is zero: for such an aircraft the iteration
computes no anchor, draws nothing and leaves the aircraft (its `cx, cy`
included) as it was; for every aircraft whose longitude and latitude are both
non-zero it computes the pixel anchor `screenCoords (pxFromLonLat lon lat)`. -/
theorem C5_drawPlanes_excludes_zero_coordinate (LATLONMULT CENTEROFFSET : ℚ) (cos : ℚ → ℚ)
    (HV : ℤ) (f : ℤ → ℤ → ℤ × ℤ) (v : View) (sel : Option ℕ) (planes : List Aircraft)
    (i : ℕ) (p : Aircraft) (hp : planes.get? i = some p) :
    ∃ st : PlaneStep,
      (drawPlanes LATLONMULT CENTEROFFSET cos HV f v sel planes).2.1.get? i = some st
      ∧ (p.lon = 0 ∨ p.lat = 0 → st = { plane := p, anchor := none, ops := [] })
      ∧ (p.lon ≠ 0 ∧ p.lat ≠ 0 →
          st.anchor = some (screenCoords CENTEROFFSET v
            (pxFromLonLat LATLONMULT cos v p.lon p.lat).1
            (pxFromLonLat LATLONMULT cos v p.lon p.lat).2)) := by
  obtain ⟨v1, hv1, h1, h2, h3, h4, h5⟩ : ∃ v1 : View,
      (drawPlanes LATLONMULT CENTEROFFSET cos HV f v sel planes).2.1
        = drawPlanesFrom LATLONMULT CENTEROFFSET cos HV f v1 sel 0 planes
      ∧ v1.centerLon = v.centerLon ∧ v1.centerLat = v.centerLat
      ∧ v1.screen_width = v.screen_width ∧ v1.screen_height = v.screen_height
      ∧ v1.maxDist = v.maxDist := by
    unfold drawPlanes
    cases sel.bind planes.get? with
    | none => exact ⟨v, rfl, rfl, rfl, rfl, rfl, rfl⟩
    | some s => exact ⟨_, rfl, rfl, rfl, rfl, rfl, rfl⟩
  refine ⟨drawPlane LATLONMULT CENTEROFFSET cos HV f v1 (decide (sel = some (0 + i))) p, ?_, ?_, ?_⟩
  · rw [hv1, drawPlanesFrom_get, hp]
    rfl
  · intro h
    have : ¬ (p.lon ≠ 0 ∧ p.lat ≠ 0) := by
      rcases h with h | h <;> simp [h]
    simp only [drawPlane, if_neg this]
  · intro h
    rw [← pxFromLonLat_congr LATLONMULT cos h1 h2, ← screenCoords_congr CENTEROFFSET h3 h4 h5]
    simp only [drawPlane, if_pos h]
    split_ifs <;> rfl

/-- C5 (amended) at a list of two aircraft: the one on the prime meridian is
second in the list. -/
theorem C5_drawPlanes_excludes_zero_coordinate_witness :
    [northPlane, meridianPlane].get? 1 = some meridianPlane
    ∧ ∃ st : PlaneStep,
      (drawPlanes (111195 / 1000) (1 / 2) (fun _ => 1) 16 (fun x y => (x, y)) view800 none
          [northPlane, meridianPlane]).2.1.get? 1 = some st
      ∧ (meridianPlane.lon = 0 ∨ meridianPlane.lat = 0 →
          st = { plane := meridianPlane, anchor := none, ops := [] })
      ∧ (meridianPlane.lon ≠ 0 ∧ meridianPlane.lat ≠ 0 →
          st.anchor = some (screenCoords (1 / 2) view800
            (pxFromLonLat (111195 / 1000) (fun _ => 1) view800
              meridianPlane.lon meridianPlane.lat).1
            (pxFromLonLat (111195 / 1000) (fun _ => 1) view800
              meridianPlane.lon meridianPlane.lat).2)) :=
  ⟨rfl, C5_drawPlanes_excludes_zero_coordinate (111195 / 1000) (1 / 2) (fun _ => 1) 16
    (fun x y => (x, y)) view800 none [northPlane, meridianPlane] 1 meridianPlane rfl⟩

/-! ### Quadtree traversal -/

theorem drawLine_count (LATLONMULT CENTEROFFSET : ℚ) (cos : ℚ → ℚ) (v : View)
    (r : LineRender) (l : Line) :
    (drawLine LATLONMULT CENTEROFFSET cos v r l).lineCount = r.lineCount + 1
    ∧ (drawLine LATLONMULT CENTEROFFSET cos v r l).visited = r.visited ++ [l] := by
  unfold drawLine
  simp only
  split_ifs <;> exact ⟨rfl, rfl⟩

theorem foldl_drawLine (LATLONMULT CENTEROFFSET : ℚ) (cos : ℚ → ℚ) (v : View)
    (lines : List Line) :
    ∀ r : LineRender,
      (lines.foldl (drawLine LATLONMULT CENTEROFFSET cos v) r).lineCount
          = r.lineCount + lines.length
      ∧ (lines.foldl (drawLine LATLONMULT CENTEROFFSET cos v) r).visited
          = r.visited ++ lines := by
  induction lines with
  | nil => intro r; simp
  | cons l rest ih =>
    intro r
    obtain ⟨h1, h2⟩ := drawLine_count LATLONMULT CENTEROFFSET cos v r l
    obtain ⟨h3, h4⟩ := ih (drawLine LATLONMULT CENTEROFFSET cos v r l)
    simp only [List.foldl_cons, h3, h4, h1, h2, List.length_cons, List.append_assoc,
      List.singleton_append]
    constructor
    · push_cast; ring
    · trivial

theorem boxMeets_of_within {la lA lo lO a b c d e f g h : ℚ}
    (hw : a ≤ la ∧ lA ≤ b ∧ c ≤ lo ∧ lO ≤ d) (hm : boxMeets la lA lo lO e f g h) :
    boxMeets a b c d e f g h := by
  obtain ⟨w1, w2, w3, w4⟩ := hw
  obtain ⟨⟨m1, m2⟩, m3, m4⟩ := hm
  exact ⟨⟨le_trans w1 m1, le_trans m2 w2⟩, le_trans w3 m3, le_trans m4 w4⟩

theorem segmentsMeeting_eq_nil (e f g h : ℚ) (t : QuadTree) :
    ∀ a b c d : ℚ, t.within a b c d → t.childrenInside → ¬ boxMeets a b c d e f g h →
      t.segmentsMeeting e f g h = [] := by
  induction t with
  | null => intro a b c d _ _ _; rfl
  | node la lA lo lO nw sw ne se lines ih1 ih2 ih3 ih4 =>
    intro a b c d hw hc hn
    have hn2 : ¬ boxMeets la lA lo lO e f g h := fun hm => hn (boxMeets_of_within hw hm)
    obtain ⟨⟨w1, c1⟩, ⟨w2, c2⟩, ⟨w3, c3⟩, ⟨w4, c4⟩⟩ := hc
    simp only [QuadTree.segmentsMeeting, ih1 _ _ _ _ w1 c1 hn2, ih2 _ _ _ _ w2 c2 hn2,
      ih3 _ _ _ _ w3 c3 hn2, ih4 _ _ _ _ w4 c4 hn2, if_neg hn2, List.append_nil]

theorem drawLinesRecursive_meeting (LATLONMULT CENTEROFFSET : ℚ) (cos : ℚ → ℚ) (v : View)
    (e f g h : ℚ) (t : QuadTree) :
    t.childrenInside → ∀ r : LineRender,
      (drawLinesRecursive LATLONMULT CENTEROFFSET cos v e f g h t r).lineCount
          = r.lineCount + (t.segmentsMeeting e f g h).length
      ∧ (drawLinesRecursive LATLONMULT CENTEROFFSET cos v e f g h t r).visited
          = r.visited ++ t.segmentsMeeting e f g h := by
  induction t with
  | null => intro _ r; simp [drawLinesRecursive, QuadTree.segmentsMeeting]
  | node la lA lo lO nw sw ne se lines ih1 ih2 ih3 ih4 =>
    intro hc r
    have hc' := hc
    obtain ⟨⟨w1, c1⟩, ⟨w2, c2⟩, ⟨w3, c3⟩, ⟨w4, c4⟩⟩ := hc'
    by_cases hm : boxMeets la lA lo lO e f g h
    · have hlat : ¬ (la > f ∨ e > lA) := by
        obtain ⟨⟨m1, m2⟩, _⟩ := hm
        rintro (h' | h')
        · exact absurd m1 (not_le.mpr h')
        · exact absurd m2 (not_le.mpr h')
      have hlon : ¬ (lo > h ∨ g > lO) := by
        obtain ⟨_, m3, m4⟩ := hm
        rintro (h' | h')
        · exact absurd m3 (not_le.mpr h')
        · exact absurd m4 (not_le.mpr h')
      simp only [drawLinesRecursive, if_neg hlat, if_neg hlon, QuadTree.segmentsMeeting,
        if_pos hm]
      obtain ⟨a1, b1⟩ := ih1 c1 r
      obtain ⟨a2, b2⟩ := ih2 c2 (drawLinesRecursive LATLONMULT CENTEROFFSET cos v e f g h nw r)
      obtain ⟨a3, b3⟩ := ih3 c3 (drawLinesRecursive LATLONMULT CENTEROFFSET cos v e f g h sw
        (drawLinesRecursive LATLONMULT CENTEROFFSET cos v e f g h nw r))
      obtain ⟨a4, b4⟩ := ih4 c4 (drawLinesRecursive LATLONMULT CENTEROFFSET cos v e f g h ne
        (drawLinesRecursive LATLONMULT CENTEROFFSET cos v e f g h sw
          (drawLinesRecursive LATLONMULT CENTEROFFSET cos v e f g h nw r)))
      obtain ⟨a5, b5⟩ := foldl_drawLine LATLONMULT CENTEROFFSET cos v lines
        (drawLinesRecursive LATLONMULT CENTEROFFSET cos v e f g h se
          (drawLinesRecursive LATLONMULT CENTEROFFSET cos v e f g h ne
            (drawLinesRecursive LATLONMULT CENTEROFFSET cos v e f g h sw
              (drawLinesRecursive LATLONMULT CENTEROFFSET cos v e f g h nw r))))
      rw [a5, b5, a4, b4, a3, b3, a2, b2, a1, b1]
      simp only [List.length_append, List.append_assoc]
      constructor
      · push_cast; ring
      · trivial
    · have hnil : (QuadTree.node la lA lo lO nw sw ne se lines).segmentsMeeting e f g h = [] := by
        simp only [QuadTree.segmentsMeeting, segmentsMeeting_eq_nil e f g h nw _ _ _ _ w1 c1 hm,
          segmentsMeeting_eq_nil e f g h sw _ _ _ _ w2 c2 hm,
          segmentsMeeting_eq_nil e f g h ne _ _ _ _ w3 c3 hm,
          segmentsMeeting_eq_nil e f g h se _ _ _ _ w4 c4 hm, if_neg hm, List.append_nil]
      have hret : drawLinesRecursive LATLONMULT CENTEROFFSET cos v e f g h
          (QuadTree.node la lA lo lO nw sw ne se lines) r = r := by
        unfold drawLinesRecursive
        by_cases hlat : la > f ∨ e > lA
        · rw [if_pos hlat]
        · rw [if_neg hlat]
          by_cases hlon : lo > h ∨ g > lO
          · rw [if_pos hlon]
          · exfalso
            apply hm
            simp only [not_or, not_lt] at hlat hlon
            exact ⟨⟨hlat.1, hlat.2⟩, hlon.1, hlon.2⟩
      rw [hret, hnil]
      simp

theorem segmentsMeeting_eq_segments (e f g h : ℚ) (t : QuadTree) :
    t.within e f g h → t.childrenInside → t.boxesOrdered →
      t.segmentsMeeting e f g h = t.segments := by
  induction t with
  | null => intro _ _ _; rfl
  | node la lA lo lO nw sw ne se lines ih1 ih2 ih3 ih4 =>
    intro hw hc ho
    obtain ⟨q1, q2, q3, q4⟩ := hw
    obtain ⟨⟨w1, c1⟩, ⟨w2, c2⟩, ⟨w3, c3⟩, ⟨w4, c4⟩⟩ := hc
    obtain ⟨⟨o1, o2⟩, b1, b2, b3, b4⟩ := ho
    have hm : boxMeets la lA lo lO e f g h :=
      ⟨⟨le_trans o1 q2, le_trans q1 o1⟩, le_trans o2 q4, le_trans q3 o2⟩
    have sub : ∀ t : QuadTree, t.within la lA lo lO → t.within e f g h := by
      intro t ht
      cases t with
      | null => trivial
      | node a b c d _ _ _ _ _ =>
        obtain ⟨t1, t2, t3, t4⟩ := ht
        exact ⟨le_trans q1 t1, le_trans t2 q2, le_trans q3 t3, le_trans t4 q4⟩
    simp only [QuadTree.segmentsMeeting, QuadTree.segments, if_pos hm,
      ih1 (sub nw w1) c1 b1, ih2 (sub sw w2) c2 b2, ih3 (sub ne w3) c3 b3, ih4 (sub se w4) c4 b4]

theorem smallMap_childrenInside : smallMap.childrenInside := by
  simp only [smallMap, QuadTree.leaf, QuadTree.childrenInside, QuadTree.within]
  norm_num

theorem smallMap_boxesOrdered : smallMap.boxesOrdered := by
  simp only [smallMap, QuadTree.leaf, QuadTree.boxesOrdered]
  norm_num

/-- C6. For a quadtree whose nodes carry bounding boxes (minimum not above
maximum), each child's box inside its parent's, and a query box that contains
the root's box, `drawLinesRecursive` runs its loop body for every segment of
the tree exactly once: `lineCount` grows by the number of segments and the
visited segments are the tree's segments, `QuadTree.segments`, each as often
as it is stored. -/
theorem C6_full_box_visits_every_segment (LATLONMULT CENTEROFFSET : ℚ) (cos : ℚ → ℚ) (v : View)
    (screen_lat_min screen_lat_max screen_lon_min screen_lon_max : ℚ)
    (t : QuadTree) (r : LineRender)
    (hc : t.childrenInside) (ho : t.boxesOrdered)
    (hq : t.within screen_lat_min screen_lat_max screen_lon_min screen_lon_max) :
    (drawLinesRecursive LATLONMULT CENTEROFFSET cos v
        screen_lat_min screen_lat_max screen_lon_min screen_lon_max t r).lineCount
      = r.lineCount + t.segments.length
    ∧ (drawLinesRecursive LATLONMULT CENTEROFFSET cos v
        screen_lat_min screen_lat_max screen_lon_min screen_lon_max t r).visited
      = r.visited ++ t.segments
    ∧ ((drawLinesRecursive LATLONMULT CENTEROFFSET cos v
        screen_lat_min screen_lat_max screen_lon_min screen_lon_max t LineRender.empty).visited
        : Multiset Line) = (t.segments : Multiset Line) := by
  have h := drawLinesRecursive_meeting LATLONMULT CENTEROFFSET cos v
    screen_lat_min screen_lat_max screen_lon_min screen_lon_max t hc
  have hs := segmentsMeeting_eq_segments
    screen_lat_min screen_lat_max screen_lon_min screen_lon_max t hq hc ho
  rw [hs] at h
  refine ⟨(h r).1, (h r).2, ?_⟩
  rw [(h LineRender.empty).2]
  simp [LineRender.empty]

/-- C6 on the two-level map `smallMap`, with the query box `[30, 50] x [0, 20]`. -/
theorem C6_full_box_visits_every_segment_witness :
    (smallMap.childrenInside ∧ smallMap.boxesOrdered ∧ smallMap.within 30 50 0 20)
    ∧ (drawLinesRecursive (111195 / 1000) (1 / 2) (fun _ => 1) view800 30 50 0 20
        smallMap LineRender.empty).visited = [] ++ smallMap.segments :=
  have hw : smallMap.within 30 50 0 20 := by
    simp only [smallMap, QuadTree.within]
    norm_num
  ⟨⟨smallMap_childrenInside, smallMap_boxesOrdered, hw⟩,
    (C6_full_box_visits_every_segment (111195 / 1000) (1 / 2) (fun _ => 1) view800 30 50 0 20
      smallMap LineRender.empty smallMap_childrenInside smallMap_boxesOrdered hw).2.1⟩

/-- C7. For a quadtree with each child's bounding box inside its parent's and
any query box, `drawLinesRecursive` runs its loop body for exactly the segments
stored in the nodes whose box meets the query box on both axes
(`QuadTree.segmentsMeeting`), none of them omitted; and called on a node whose
box misses the query on either axis it returns at once, so nothing of that
node's subtree is visited. -/
theorem C7_sub_box_visits_meeting_nodes (LATLONMULT CENTEROFFSET : ℚ) (cos : ℚ → ℚ) (v : View)
    (screen_lat_min screen_lat_max screen_lon_min screen_lon_max : ℚ)
    (t : QuadTree) (r : LineRender) (hc : t.childrenInside) :
    (drawLinesRecursive LATLONMULT CENTEROFFSET cos v
        screen_lat_min screen_lat_max screen_lon_min screen_lon_max t r).visited
      = r.visited ++ t.segmentsMeeting screen_lat_min screen_lat_max screen_lon_min screen_lon_max
    ∧ (drawLinesRecursive LATLONMULT CENTEROFFSET cos v
        screen_lat_min screen_lat_max screen_lon_min screen_lon_max t r).lineCount
      = r.lineCount
        + (t.segmentsMeeting screen_lat_min screen_lat_max screen_lon_min screen_lon_max).length
    ∧ ∀ (lat_min lat_max lon_min lon_max : ℚ) (nw sw ne se : QuadTree) (lines : List Line)
        (r0 : LineRender),
        ¬ boxMeets lat_min lat_max lon_min lon_max
            screen_lat_min screen_lat_max screen_lon_min screen_lon_max →
        drawLinesRecursive LATLONMULT CENTEROFFSET cos v
          screen_lat_min screen_lat_max screen_lon_min screen_lon_max
          (QuadTree.node lat_min lat_max lon_min lon_max nw sw ne se lines) r0 = r0 := by
  have h := drawLinesRecursive_meeting LATLONMULT CENTEROFFSET cos v
    screen_lat_min screen_lat_max screen_lon_min screen_lon_max t hc r
  refine ⟨h.2, h.1, ?_⟩
  intro la lA lo lO nw sw ne se lines r0 hm
  unfold drawLinesRecursive
  by_cases hlat : la > screen_lat_max ∨ screen_lat_min > lA
  · rw [if_pos hlat]
  · rw [if_neg hlat]
    by_cases hlon : lo > screen_lon_max ∨ screen_lon_min > lO
    · rw [if_pos hlon]
    · exfalso
      apply hm
      simp only [not_or, not_lt] at hlat hlon
      exact ⟨⟨hlat.1, hlat.2⟩, hlon.1, hlon.2⟩

/-- C7 on the two-level map `smallMap`, with the query box `[41, 43] x [7, 9]`,
which meets the root and its NW child and misses its SE child. -/
theorem C7_sub_box_visits_meeting_nodes_witness :
    smallMap.childrenInside
    ∧ smallMap.segmentsMeeting 41 43 7 9 = [segA, segC]
    ∧ (drawLinesRecursive (111195 / 1000) (1 / 2) (fun _ => 1) view800 41 43 7 9
        smallMap LineRender.empty).visited = [] ++ smallMap.segmentsMeeting 41 43 7 9 :=
  have hs : smallMap.segmentsMeeting 41 43 7 9 = [segA, segC] := by
    simp only [smallMap, QuadTree.leaf, QuadTree.segmentsMeeting, boxMeets]
    norm_num
  ⟨smallMap_childrenInside, hs,
    (C7_sub_box_visits_meeting_nodes (111195 / 1000) (1 / 2) (fun _ => 1) view800 41 43 7 9
      smallMap LineRender.empty smallMap_childrenInside).1⟩

/-! ### Animation -/

/-- C8. One call of `zoomMapToTarget`: with a target set and more than 0.0001
away, `maxDist` moves a tenth of the way to the target, the target stays and
`mapAnimating`, `mapMoved` are set; with a target set and at most 0.0001 away
only the target is cleared; with no target nothing changes. -/
theorem C8_zoomMapToTarget_step (v : View) :
    (v.mapTargetMaxDist ≠ 0 ∧ |v.mapTargetMaxDist - v.maxDist| > 1 / 10000 →
      zoomMapToTarget v =
        { v with
          maxDist := v.maxDist + 1 / 10 * (v.mapTargetMaxDist - v.maxDist)
          mapAnimating := 1
          mapMoved := 1 }
      ∧ (zoomMapToTarget v).mapTargetMaxDist = v.mapTargetMaxDist)
    ∧ (v.mapTargetMaxDist ≠ 0 ∧ |v.mapTargetMaxDist - v.maxDist| ≤ 1 / 10000 →
      zoomMapToTarget v = { v with mapTargetMaxDist := 0 }
      ∧ (zoomMapToTarget v).maxDist = v.maxDist
      ∧ (zoomMapToTarget v).mapAnimating = v.mapAnimating
      ∧ (zoomMapToTarget v).mapMoved = v.mapMoved)
    ∧ (v.mapTargetMaxDist = 0 → zoomMapToTarget v = v) := by
  refine ⟨?_, ?_, ?_⟩
  · rintro ⟨h1, h2⟩
    simp only [zoomMapToTarget, if_pos h1, if_pos h2, and_self]
  · rintro ⟨h1, h2⟩
    simp only [zoomMapToTarget, if_pos h1, if_neg (not_lt.mpr h2), and_self]
  · intro h
    simp [zoomMapToTarget, h]

/-- C8 at the view `animView` (radius 25, target radius 5): one call moves the
radius to 23 and keeps the target. -/
theorem C8_zoomMapToTarget_step_witness :
    (animView.mapTargetMaxDist ≠ 0
      ∧ |animView.mapTargetMaxDist - animView.maxDist| > 1 / 10000)
    ∧ (zoomMapToTarget animView).maxDist = 23
    ∧ (zoomMapToTarget animView).mapTargetMaxDist = animView.mapTargetMaxDist :=
  have h : animView.mapTargetMaxDist ≠ 0
      ∧ |animView.mapTargetMaxDist - animView.maxDist| > 1 / 10000 := by
    norm_num [animView, view800]
  ⟨h, by rw [((C8_zoomMapToTarget_step animView).1 h).1]; norm_num [animView, view800],
    ((C8_zoomMapToTarget_step animView).1 h).2⟩

theorem log_steps_suffice (d : ℚ) (hd : 1 / 10000 < d) :
    (9 / 10 : ℚ) ^ ⌈Real.log ((d : ℝ) / (1 / 10000)) / (-Real.log (9 / 10))⌉₊ * d
      ≤ 1 / 10000 := by
  set N : ℕ := ⌈Real.log ((d : ℝ) / (1 / 10000)) / (-Real.log (9 / 10))⌉₊ with hN
  have hdR : (1 / 10000 : ℝ) < (d : ℝ) := by
    have h : ((1 / 10000 : ℚ) : ℝ) < ((d : ℚ) : ℝ) := Rat.cast_lt.mpr hd
    push_cast at h
    exact h
  have hl : 0 < -Real.log (9 / 10) := by
    have := Real.log_neg (by norm_num : (0 : ℝ) < 9 / 10) (by norm_num)
    linarith
  have h0 : Real.log ((d : ℝ) / (1 / 10000)) / (-Real.log (9 / 10)) ≤ (N : ℝ) := Nat.le_ceil _
  have h1 : Real.log ((d : ℝ) / (1 / 10000)) ≤ (N : ℝ) * (-Real.log (9 / 10)) :=
    (div_le_iff₀ hl).mp h0
  have h2 : (N : ℝ) * (-Real.log (9 / 10)) = Real.log ((10 / 9 : ℝ) ^ N) := by
    rw [Real.log_pow, ← Real.log_inv]
    norm_num
  rw [h2] at h1
  have hpos : (0 : ℝ) < (d : ℝ) / (1 / 10000) := by positivity
  have h3 : (d : ℝ) / (1 / 10000) ≤ (10 / 9 : ℝ) ^ N :=
    (Real.log_le_log_iff hpos (by positivity)).mp h1
  have h4 : ((9 / 10 : ℝ) ^ N) * (d : ℝ) ≤ 1 / 10000 := by
    have h5 : (d : ℝ) ≤ (10 / 9 : ℝ) ^ N * (1 / 10000) := by
      rw [div_le_iff₀ (by norm_num)] at h3
      exact h3
    have h6 : ((9 / 10 : ℝ) ^ N) * ((10 / 9 : ℝ) ^ N) = 1 := by
      rw [← mul_pow]
      norm_num
    calc ((9 / 10 : ℝ) ^ N) * (d : ℝ)
        ≤ ((9 / 10 : ℝ) ^ N) * ((10 / 9 : ℝ) ^ N * (1 / 10000)) :=
          mul_le_mul_of_nonneg_left h5 (by positivity)
      _ = 1 / 10000 := by rw [← mul_assoc, h6, one_mul]
  have h7 : (((9 / 10 : ℚ) ^ N * d : ℚ) : ℝ) ≤ ((1 / 10000 : ℚ) : ℝ) := by
    push_cast
    exact h4
  exact Rat.cast_le.mp h7

theorem first_step_within (d : ℚ) :
    ∃ k : ℕ, k ≤ ⌈Real.log ((d : ℝ) / (1 / 10000)) / (-Real.log (9 / 10))⌉₊
      ∧ (9 / 10 : ℚ) ^ k * d ≤ 1 / 10000
      ∧ ∀ i < k, 1 / 10000 < (9 / 10 : ℚ) ^ i * d := by
  have hex : ∃ n : ℕ, (9 / 10 : ℚ) ^ n * d ≤ 1 / 10000 := by
    by_cases hd : d ≤ 1 / 10000
    · exact ⟨0, by simpa using hd⟩
    · exact ⟨_, log_steps_suffice d (not_le.mp hd)⟩
  refine ⟨Nat.find hex, ?_, Nat.find_spec hex, fun i hi => not_le.mp (Nat.find_min hex hi)⟩
  by_cases hd : d ≤ 1 / 10000
  · have : Nat.find hex = 0 := by
      rw [Nat.find_eq_zero]
      simpa using hd
    rw [this]
    exact Nat.zero_le _
  · exact Nat.find_min' hex (log_steps_suffice d (not_le.mp hd))

theorem zoom_frames (v : View) (hT : v.mapTargetMaxDist ≠ 0) :
    ∀ j : ℕ, (∀ i < j, 1 / 10000 < (9 / 10 : ℚ) ^ i * |v.mapTargetMaxDist - v.maxDist|) →
      (frames zoomMapToTarget j v).mapTargetMaxDist = v.mapTargetMaxDist
      ∧ v.mapTargetMaxDist - (frames zoomMapToTarget j v).maxDist
          = (9 / 10 : ℚ) ^ j * (v.mapTargetMaxDist - v.maxDist) := by
  intro j
  induction j with
  | zero => intro _; simp [frames]
  | succ j ih =>
    intro h
    obtain ⟨h1, h2⟩ := ih (fun i hi => h i (Nat.lt_succ_of_lt hi))
    have hfar : |(frames zoomMapToTarget j v).mapTargetMaxDist
        - (frames zoomMapToTarget j v).maxDist| > 1 / 10000 := by
      rw [h1, h2, abs_mul, abs_of_nonneg (by positivity : (0 : ℚ) ≤ (9 / 10) ^ j)]
      exact h j (Nat.lt_succ_self j)
    have hT' : (frames zoomMapToTarget j v).mapTargetMaxDist ≠ 0 := by rw [h1]; exact hT
    simp only [frames, zoomMapToTarget, if_pos hT', if_pos hfar]
    refine ⟨h1, ?_⟩
    rw [h1]
    have : v.mapTargetMaxDist - ((frames zoomMapToTarget j v).maxDist
        + 1 / 10 * (v.mapTargetMaxDist - (frames zoomMapToTarget j v).maxDist))
        = 9 / 10 * (v.mapTargetMaxDist - (frames zoomMapToTarget j v).maxDist) := by ring
    rw [this, h2, pow_succ]
    ring

theorem move_frames (v : View) (hT : v.mapTargetLon ≠ 0 ∧ v.mapTargetLat ≠ 0) :
    ∀ j : ℕ, (∀ i < j, 1 / 10000 < (9 / 10 : ℚ) ^ i
        * max |v.mapTargetLon - v.centerLon| |v.mapTargetLat - v.centerLat|) →
      (frames moveMapToTarget j v).mapTargetLon = v.mapTargetLon
      ∧ (frames moveMapToTarget j v).mapTargetLat = v.mapTargetLat
      ∧ v.mapTargetLon - (frames moveMapToTarget j v).centerLon
          = (9 / 10 : ℚ) ^ j * (v.mapTargetLon - v.centerLon)
      ∧ v.mapTargetLat - (frames moveMapToTarget j v).centerLat
          = (9 / 10 : ℚ) ^ j * (v.mapTargetLat - v.centerLat) := by
  intro j
  induction j with
  | zero => intro _; simp [frames]
  | succ j ih =>
    intro h
    obtain ⟨h1, h2, h3, h4⟩ := ih (fun i hi => h i (Nat.lt_succ_of_lt hi))
    have hp : (0 : ℚ) ≤ (9 / 10) ^ j := by positivity
    have hfar : |(frames moveMapToTarget j v).mapTargetLon
          - (frames moveMapToTarget j v).centerLon| > 1 / 10000
        ∨ |(frames moveMapToTarget j v).mapTargetLat
          - (frames moveMapToTarget j v).centerLat| > 1 / 10000 := by
      rw [h1, h2, h3, h4, abs_mul, abs_mul, abs_of_nonneg hp]
      have hj := h j (Nat.lt_succ_self j)
      rw [mul_max_of_nonneg _ _ hp, lt_max_iff] at hj
      exact hj
    have hT' : (frames moveMapToTarget j v).mapTargetLon ≠ 0
        ∧ (frames moveMapToTarget j v).mapTargetLat ≠ 0 := by rw [h1, h2]; exact hT
    simp only [frames, moveMapToTarget, if_pos hT', if_pos hfar]
    refine ⟨h1, h2, ?_, ?_⟩
    · rw [h1]
      have : v.mapTargetLon - ((frames moveMapToTarget j v).centerLon
          + 1 / 10 * (v.mapTargetLon - (frames moveMapToTarget j v).centerLon))
          = 9 / 10 * (v.mapTargetLon - (frames moveMapToTarget j v).centerLon) := by ring
      rw [this, h3, pow_succ]
      ring
    · rw [h2]
      have : v.mapTargetLat - ((frames moveMapToTarget j v).centerLat
          + 1 / 10 * (v.mapTargetLat - (frames moveMapToTarget j v).centerLat))
          = 9 / 10 * (v.mapTargetLat - (frames moveMapToTarget j v).centerLat) := by ring
      rw [this, h4, pow_succ]
      ring

/-- C9 counterexample. With the target centre (lon 0, lat 41) pending in the
view centred at (lon 10, lat 40), a target that differs from the centre,
`moveMapToTarget` never moves the view: after any number of calls the view is
the same and the centre latitude is never within 0.0001 of the target. -/
theorem C9_meridian_target_never_reached :
    (meridianTargetView.mapTargetLon, meridianTargetView.mapTargetLat)
        ≠ (meridianTargetView.centerLon, meridianTargetView.centerLat)
    ∧ (∀ n : ℕ, frames moveMapToTarget n meridianTargetView = meridianTargetView)
    ∧ ¬ ∃ n : ℕ, |(frames moveMapToTarget n meridianTargetView).centerLat
        - meridianTargetView.mapTargetLat| ≤ 1 / 10000 := by
  have hstep : moveMapToTarget meridianTargetView = meridianTargetView := by
    simp [moveMapToTarget, meridianTargetView]
  have hall : ∀ n : ℕ, frames moveMapToTarget n meridianTargetView = meridianTargetView := by
    intro n
    induction n with
    | zero => rfl
    | succ n ih => rw [frames, ih, hstep]
  refine ⟨by simp [meridianTargetView, view800], hall, ?_⟩
  rintro ⟨n, hn⟩
  rw [hall n] at hn
  norm_num [meridianTargetView, view800] at hn

/-- C9 (amended). In exact arithmetic, for a non-zero target radius `T`
(respectively a target centre with non-zero longitude and non-zero latitude)
at distance `d` from the live value, there is a step count
`k ≤ ⌈ln(d / 0.0001) / -ln(0.9)⌉` such that through the first `k` calls of
`zoomMapToTarget` (respectively `moveMapToTarget`) the target stays and the
remaining offset after `j` calls is `0.9 ^ j` times the initial one, after `k`
calls the live value is within 0.0001 of the target, and call `k + 1` clears
the target and changes nothing else. For the centre, `d` is the larger of the
longitude and latitude distances. -/
theorem C9_animation_converges (v : View) :
    (v.mapTargetMaxDist ≠ 0 →
      ∃ k : ℕ,
        k ≤ ⌈Real.log (((|v.mapTargetMaxDist - v.maxDist| : ℚ) : ℝ) / (1 / 10000))
              / (-Real.log (9 / 10))⌉₊
        ∧ (∀ j ≤ k,
            (frames zoomMapToTarget j v).mapTargetMaxDist = v.mapTargetMaxDist
            ∧ v.mapTargetMaxDist - (frames zoomMapToTarget j v).maxDist
                = (9 / 10 : ℚ) ^ j * (v.mapTargetMaxDist - v.maxDist))
        ∧ |v.mapTargetMaxDist - (frames zoomMapToTarget k v).maxDist| ≤ 1 / 10000
        ∧ frames zoomMapToTarget (k + 1) v
            = { frames zoomMapToTarget k v with mapTargetMaxDist := 0 })
    ∧ (v.mapTargetLon ≠ 0 ∧ v.mapTargetLat ≠ 0 →
      ∃ k : ℕ,
        k ≤ ⌈Real.log (((max |v.mapTargetLon - v.centerLon|
                |v.mapTargetLat - v.centerLat| : ℚ) : ℝ) / (1 / 10000))
              / (-Real.log (9 / 10))⌉₊
        ∧ (∀ j ≤ k,
            (frames moveMapToTarget j v).mapTargetLon = v.mapTargetLon
            ∧ (frames moveMapToTarget j v).mapTargetLat = v.mapTargetLat
            ∧ v.mapTargetLon - (frames moveMapToTarget j v).centerLon
                = (9 / 10 : ℚ) ^ j * (v.mapTargetLon - v.centerLon)
            ∧ v.mapTargetLat - (frames moveMapToTarget j v).centerLat
                = (9 / 10 : ℚ) ^ j * (v.mapTargetLat - v.centerLat))
        ∧ |v.mapTargetLon - (frames moveMapToTarget k v).centerLon| ≤ 1 / 10000
        ∧ |v.mapTargetLat - (frames moveMapToTarget k v).centerLat| ≤ 1 / 10000
        ∧ frames moveMapToTarget (k + 1) v
            = { frames moveMapToTarget k v with mapTargetLon := 0, mapTargetLat := 0 }) := by
  constructor
  · intro hT
    obtain ⟨k, hk, hin, hout⟩ := first_step_within |v.mapTargetMaxDist - v.maxDist|
    have hfr := fun j (hj : j ≤ k) =>
      zoom_frames v hT j (fun i hi => hout i (lt_of_lt_of_le hi hj))
    obtain ⟨h1, h2⟩ := hfr k le_rfl
    have hp : (0 : ℚ) ≤ (9 / 10) ^ k := by positivity
    have hnear : |v.mapTargetMaxDist - (frames zoomMapToTarget k v).maxDist| ≤ 1 / 10000 := by
      rw [h2, abs_mul, abs_of_nonneg hp]
      exact hin
    refine ⟨k, hk, hfr, hnear, ?_⟩
    have hT' : (frames zoomMapToTarget k v).mapTargetMaxDist ≠ 0 := by rw [h1]; exact hT
    have hnear' : ¬ |(frames zoomMapToTarget k v).mapTargetMaxDist
        - (frames zoomMapToTarget k v).maxDist| > 1 / 10000 := by
      rw [h1]
      exact not_lt.mpr hnear
    simp only [frames, zoomMapToTarget, if_pos hT', if_neg hnear']
  · intro hT
    obtain ⟨k, hk, hin, hout⟩ := first_step_within
      (max |v.mapTargetLon - v.centerLon| |v.mapTargetLat - v.centerLat|)
    have hfr := fun j (hj : j ≤ k) =>
      move_frames v hT j (fun i hi => hout i (lt_of_lt_of_le hi hj))
    obtain ⟨h1, h2, h3, h4⟩ := hfr k le_rfl
    have hp : (0 : ℚ) ≤ (9 / 10) ^ k := by positivity
    rw [mul_max_of_nonneg _ _ hp, max_le_iff] at hin
    have hnear1 : |v.mapTargetLon - (frames moveMapToTarget k v).centerLon| ≤ 1 / 10000 := by
      rw [h3, abs_mul, abs_of_nonneg hp]
      exact hin.1
    have hnear2 : |v.mapTargetLat - (frames moveMapToTarget k v).centerLat| ≤ 1 / 10000 := by
      rw [h4, abs_mul, abs_of_nonneg hp]
      exact hin.2
    refine ⟨k, hk, hfr, hnear1, hnear2, ?_⟩
    have hT' : (frames moveMapToTarget k v).mapTargetLon ≠ 0
        ∧ (frames moveMapToTarget k v).mapTargetLat ≠ 0 := by rw [h1, h2]; exact hT
    have hnear' : ¬ (|(frames moveMapToTarget k v).mapTargetLon
          - (frames moveMapToTarget k v).centerLon| > 1 / 10000
        ∨ |(frames moveMapToTarget k v).mapTargetLat
          - (frames moveMapToTarget k v).centerLat| > 1 / 10000) := by
      rw [h1, h2, not_or]
      exact ⟨not_lt.mpr hnear1, not_lt.mpr hnear2⟩
    simp only [frames, moveMapToTarget, if_pos hT', if_neg hnear']

/-- C9 (amended) at the view `animView`: target radius 5 from radius 25, target
centre (lon 11, lat 41) from the centre (lon 10, lat 40). -/
theorem C9_animation_converges_witness :
    (animView.mapTargetMaxDist ≠ 0 ∧ animView.mapTargetLon ≠ 0 ∧ animView.mapTargetLat ≠ 0)
    ∧ (∃ k : ℕ, |animView.mapTargetMaxDist - (frames zoomMapToTarget k animView).maxDist|
          ≤ 1 / 10000
        ∧ (frames zoomMapToTarget (k + 1) animView).mapTargetMaxDist = 0)
    ∧ (∃ k : ℕ, |animView.mapTargetLon - (frames moveMapToTarget k animView).centerLon|
          ≤ 1 / 10000
        ∧ (frames moveMapToTarget (k + 1) animView).mapTargetLon = 0) :=
  have h1 : animView.mapTargetMaxDist ≠ 0 := by norm_num [animView]
  have h2 : animView.mapTargetLon ≠ 0 ∧ animView.mapTargetLat ≠ 0 := by norm_num [animView]
  ⟨⟨h1, h2.1, h2.2⟩,
    (let ⟨k, _, _, hn, hc⟩ := (C9_animation_converges animView).1 h1
     ⟨k, hn, by rw [hc]⟩),
    (let ⟨k, _, _, hn, _, hc⟩ := (C9_animation_converges animView).2 h2
     ⟨k, hn, by rw [hc]⟩)⟩

/-! ### Map cache -/

theorem drawGeography_of_due (LATLONMULT CENTEROFFSET : ℚ) (cos : ℚ → ℚ)
    (FRAMETIME sinceRedraw : ℚ) (v : View) (h : redrawDue FRAMETIME sinceRedraw v) :
    drawGeography LATLONMULT CENTEROFFSET cos FRAMETIME sinceRedraw v
      = ({ v with
            mapMoved := 0
            mapRedraw := 0
            mapAnimating := 0
            currentLon := v.centerLon
            currentLat := v.centerLat
            currentMaxDist := v.maxDist },
          [GeoOp.renderCache 0 0 v.screen_width v.screen_height, GeoOp.copyCache none]) := by
  simp [drawGeography, h]

theorem drawGeography_of_not_due (LATLONMULT CENTEROFFSET : ℚ) (cos : ℚ → ℚ)
    (FRAMETIME sinceRedraw : ℚ) (v : View) (h : ¬ redrawDue FRAMETIME sinceRedraw v)
    (a b c d : ℤ) :
    GeoOp.renderCache a b c d
      ∉ (drawGeography LATLONMULT CENTEROFFSET cos FRAMETIME sinceRedraw v).2 := by
  simp only [drawGeography, h, decide_False, Bool.false_eq_true, if_false]
  split_ifs <;> simp

/-- C10. A call of `drawGeography` regenerates the map cache exactly when
(`mapRedraw` is set and `mapMoved` is clear) or (`mapAnimating` is set and more
than `8 * FRAMETIME` ms have passed since the last redraw). After a
regeneration the call returns with `mapMoved`, `mapRedraw` and `mapAnimating`
clear and with `currentLon, currentLat, currentMaxDist` equal to the live
`centerLon, centerLat, maxDist`, which the call does not change. -/
theorem C10_drawGeography_regenerates (LATLONMULT CENTEROFFSET : ℚ) (cos : ℚ → ℚ)
    (FRAMETIME sinceRedraw : ℚ) (v : View) :
    ((∃ a b c d : ℤ, GeoOp.renderCache a b c d
          ∈ (drawGeography LATLONMULT CENTEROFFSET cos FRAMETIME sinceRedraw v).2)
      ↔ ((v.mapRedraw ≠ 0 ∧ v.mapMoved = 0)
          ∨ (v.mapAnimating ≠ 0 ∧ sinceRedraw > 8 * FRAMETIME)))
    ∧ (((v.mapRedraw ≠ 0 ∧ v.mapMoved = 0)
          ∨ (v.mapAnimating ≠ 0 ∧ sinceRedraw > 8 * FRAMETIME)) →
        (drawGeography LATLONMULT CENTEROFFSET cos FRAMETIME sinceRedraw v).2
            = [GeoOp.renderCache 0 0 v.screen_width v.screen_height, GeoOp.copyCache none]
        ∧ (drawGeography LATLONMULT CENTEROFFSET cos FRAMETIME sinceRedraw v).1.mapMoved = 0
        ∧ (drawGeography LATLONMULT CENTEROFFSET cos FRAMETIME sinceRedraw v).1.mapRedraw = 0
        ∧ (drawGeography LATLONMULT CENTEROFFSET cos FRAMETIME sinceRedraw v).1.mapAnimating = 0
        ∧ (drawGeography LATLONMULT CENTEROFFSET cos FRAMETIME sinceRedraw v).1.currentLon
            = (drawGeography LATLONMULT CENTEROFFSET cos FRAMETIME sinceRedraw v).1.centerLon
        ∧ (drawGeography LATLONMULT CENTEROFFSET cos FRAMETIME sinceRedraw v).1.currentLat
            = (drawGeography LATLONMULT CENTEROFFSET cos FRAMETIME sinceRedraw v).1.centerLat
        ∧ (drawGeography LATLONMULT CENTEROFFSET cos FRAMETIME sinceRedraw v).1.currentMaxDist
            = (drawGeography LATLONMULT CENTEROFFSET cos FRAMETIME sinceRedraw v).1.maxDist
        ∧ (drawGeography LATLONMULT CENTEROFFSET cos FRAMETIME sinceRedraw v).1.centerLon
            = v.centerLon
        ∧ (drawGeography LATLONMULT CENTEROFFSET cos FRAMETIME sinceRedraw v).1.centerLat
            = v.centerLat
        ∧ (drawGeography LATLONMULT CENTEROFFSET cos FRAMETIME sinceRedraw v).1.maxDist
            = v.maxDist) := by
  have hiff : redrawDue FRAMETIME sinceRedraw v
      ↔ ((v.mapRedraw ≠ 0 ∧ v.mapMoved = 0)
          ∨ (v.mapAnimating ≠ 0 ∧ sinceRedraw > 8 * FRAMETIME)) := by
    simp [redrawDue]
  constructor
  · rw [← hiff]
    constructor
    · rintro ⟨a, b, c, d, hmem⟩
      by_contra hn
      exact drawGeography_of_not_due LATLONMULT CENTEROFFSET cos FRAMETIME sinceRedraw v hn
        a b c d hmem
    · intro h
      rw [drawGeography_of_due LATLONMULT CENTEROFFSET cos FRAMETIME sinceRedraw v h]
      exact ⟨0, 0, v.screen_width, v.screen_height, by simp⟩
  · intro h
    rw [drawGeography_of_due LATLONMULT CENTEROFFSET cos FRAMETIME sinceRedraw v (hiff.mpr h)]
    simp

/-- C10 at the view `dirtyView` (`mapRedraw` set, `mapMoved` clear), with
`FRAMETIME = 33` and 10 ms since the last redraw: the cache is regenerated and
recorded at the live view. -/
theorem C10_drawGeography_regenerates_witness :
    (dirtyView.mapRedraw ≠ 0 ∧ dirtyView.mapMoved = 0)
    ∧ (drawGeography (111195 / 1000) (1 / 2) (fun _ => 1) 33 10 dirtyView).2
        = [GeoOp.renderCache 0 0 dirtyView.screen_width dirtyView.screen_height,
            GeoOp.copyCache none]
    ∧ (drawGeography (111195 / 1000) (1 / 2) (fun _ => 1) 33 10 dirtyView).1.mapRedraw = 0 :=
  have h : dirtyView.mapRedraw ≠ 0 ∧ dirtyView.mapMoved = 0 := by
    norm_num [dirtyView, view800]
  ⟨h, ((C10_drawGeography_regenerates (111195 / 1000) (1 / 2) (fun _ => 1) 33 10 dirtyView).2
        (Or.inl h)).1,
    ((C10_drawGeography_regenerates (111195 / 1000) (1 / 2) (fun _ => 1) 33 10 dirtyView).2
        (Or.inl h)).2.2.1⟩

/-! ### Colours -/

theorem lerp_factor_eq (factor : ℚ) :
    (if (if factor > 1 then 1 else factor) < 0 then 0 else (if factor > 1 then 1 else factor))
      = max 0 (min 1 factor) := by
  by_cases h1 : factor > 1
  · rw [if_pos h1, if_neg (by norm_num), min_eq_left h1.le, max_eq_right (by norm_num)]
  · rw [if_neg h1, min_eq_right (not_lt.mp h1)]
    by_cases h0 : factor < 0
    · rw [if_pos h0, max_eq_left h0.le]
    · rw [if_neg h0, max_eq_right (not_lt.mp h0)]

theorem toUInt8_between {lo hi : ℕ} {q : ℚ} (h1 : (lo : ℚ) ≤ q) (h2 : q ≤ (hi : ℚ))
    (hhi : hi < 256) : lo ≤ toUInt8 q ∧ toUInt8 q ≤ hi := by
  have hq : (0 : ℚ) ≤ q := le_trans (Nat.cast_nonneg lo) h1
  have hlo : (lo : ℤ) ≤ ⌊q⌋ := Int.le_floor.mpr (by exact_mod_cast h1)
  have hup : ⌊q⌋ ≤ (hi : ℤ) := by
    have h3 : ((⌊q⌋ : ℤ) : ℚ) ≤ ((hi : ℤ) : ℚ) := le_trans (Int.floor_le q) (by exact_mod_cast h2)
    exact_mod_cast h3
  have h0 : (0 : ℤ) ≤ ⌊q⌋ := le_trans (Int.natCast_nonneg lo) hlo
  have hmod : ⌊q⌋ % 256 = ⌊q⌋ := Int.emod_eq_of_lt h0 (by omega)
  simp only [toUInt8, toInt, if_pos hq, hmod]
  omega

theorem toUInt8_natCast {n : ℕ} (h : n < 256) : toUInt8 (n : ℚ) = n := by
  have := toUInt8_between (le_refl (n : ℚ)) (le_refl (n : ℚ)) h
  omega

theorem toUInt8_within_one {lo hi : ℕ} {q : ℚ} (h0 : 0 ≤ q) (h1 : (lo : ℚ) - 1 < q)
    (h2 : q < (hi : ℚ) + 1) (hhi : hi < 256) : lo ≤ toUInt8 q + 1 ∧ toUInt8 q ≤ hi := by
  have hfl0 : (0 : ℤ) ≤ ⌊q⌋ := Int.floor_nonneg.mpr h0
  have hlo : (lo : ℤ) - 1 ≤ ⌊q⌋ := Int.le_floor.mpr (by push_cast; exact h1.le)
  have hup : ⌊q⌋ < (hi : ℤ) + 1 := Int.floor_lt.mpr (by push_cast; exact h2)
  have hmod : ⌊q⌋ % 256 = ⌊q⌋ := Int.emod_eq_of_lt hfl0 (by omega)
  simp only [toUInt8, toInt, if_pos h0, hmod]
  omega

theorem lerp_between (a b : ℕ) {f : ℚ} (h0 : 0 ≤ f) (h1 : f ≤ 1) :
    ((min a b : ℕ) : ℚ) ≤ (1 - f) * (a : ℚ) + f * (b : ℚ)
    ∧ (1 - f) * (a : ℚ) + f * (b : ℚ) ≤ ((max a b : ℕ) : ℚ) := by
  have hf : 0 ≤ 1 - f := by linarith
  have ha1 : ((min a b : ℕ) : ℚ) ≤ (a : ℚ) := by exact_mod_cast min_le_left a b
  have hb1 : ((min a b : ℕ) : ℚ) ≤ (b : ℚ) := by exact_mod_cast min_le_right a b
  have ha2 : (a : ℚ) ≤ ((max a b : ℕ) : ℚ) := by exact_mod_cast le_max_left a b
  have hb2 : (b : ℚ) ≤ ((max a b : ℕ) : ℚ) := by exact_mod_cast le_max_right a b
  constructor
  · nlinarith [mul_le_mul_of_nonneg_left ha1 hf, mul_le_mul_of_nonneg_left hb1 h0]
  · nlinarith [mul_le_mul_of_nonneg_left ha2 hf, mul_le_mul_of_nonneg_left hb2 h0]

theorem lerp_channel (a b : ℕ) (ha : a < 256) (hb : b < 256) (factor : ℚ) :
    min a b ≤ toUInt8 ((1 - max 0 (min 1 factor)) * (a : ℚ) + max 0 (min 1 factor) * (b : ℚ))
    ∧ toUInt8 ((1 - max 0 (min 1 factor)) * (a : ℚ) + max 0 (min 1 factor) * (b : ℚ))
        ≤ max a b := by
  have h0 : (0 : ℚ) ≤ max 0 (min 1 factor) := le_max_left _ _
  have h1 : max 0 (min 1 factor) ≤ (1 : ℚ) := max_le (by norm_num) (min_le_left _ _)
  obtain ⟨l, u⟩ := lerp_between a b h0 h1
  exact toUInt8_between l u (max_lt ha hb)

/-! #### Rounding -/

theorem roundHalfEven_near (q : ℚ) : |(roundHalfEven q : ℚ) - q| ≤ 1 / 2 := by
  have h1 := Int.floor_le q
  have h2 := Int.lt_floor_add_one q
  unfold roundHalfEven
  split_ifs <;> push_cast <;> rw [abs_le] <;> constructor <;> linarith

theorem roundHalfEven_intCast (m : ℤ) : roundHalfEven (m : ℚ) = m := by
  unfold roundHalfEven
  rw [Int.floor_intCast, sub_self, if_pos (by norm_num)]

theorem roundHalfEven_down {q : ℚ} (n : ℤ) (h1 : (n : ℚ) ≤ q) (h2 : q - (n : ℚ) < 1 / 2) :
    roundHalfEven q = n := by
  have hf : ⌊q⌋ = n := Int.floor_eq_iff.mpr ⟨h1, by linarith⟩
  unfold roundHalfEven
  rw [hf, if_pos h2]

theorem roundHalfEven_up {q : ℚ} (n : ℤ) (h1 : 1 / 2 < q - (n : ℚ)) (h2 : q < (n : ℚ) + 1) :
    roundHalfEven q = n + 1 := by
  have hf : ⌊q⌋ = n := Int.floor_eq_iff.mpr ⟨by linarith, h2⟩
  unfold roundHalfEven
  rw [hf, if_neg (not_lt.mpr h1.le), if_pos h1]

theorem roundHalfEven_tie {q : ℚ} (n : ℤ) (h1 : q - (n : ℚ) = 1 / 2) (h2 : n % 2 = 0) :
    roundHalfEven q = n := by
  have hf : ⌊q⌋ = n := Int.floor_eq_iff.mpr ⟨by linarith, by linarith⟩
  unfold roundHalfEven
  rw [hf, if_neg (by rw [h1]; exact lt_irrefl _), if_neg (by rw [h1]; exact lt_irrefl _),
    if_pos h2]

theorem log_eq_of_between {x : ℚ} (e : ℤ) (h1 : (2 : ℚ) ^ e ≤ |x|)
    (h2 : |x| < (2 : ℚ) ^ (e + 1)) : Int.log 2 |x| = e := by
  have hpos : (0 : ℚ) < |x| := lt_of_lt_of_le (zpow_pos (by norm_num) e) h1
  have a1 : e ≤ Int.log 2 |x| :=
    (Int.zpow_le_iff_le_log (by norm_num) hpos).mp (by exact_mod_cast h1)
  have a2 : Int.log 2 |x| < e + 1 :=
    (Int.lt_zpow_iff_log_lt (by norm_num) hpos).mp (by exact_mod_cast h2)
  omega

theorem roundF32_eq {x : ℚ} (e : ℤ) (h1 : (2 : ℚ) ^ e ≤ |x|) (h2 : |x| < (2 : ℚ) ^ (e + 1)) :
    roundF32 x = (roundHalfEven (x / (2 : ℚ) ^ (e - 23)) : ℚ) * (2 : ℚ) ^ (e - 23) := by
  have hpos : (0 : ℚ) < |x| := lt_of_lt_of_le (zpow_pos (by norm_num) e) h1
  have hx : x ≠ 0 := abs_pos.mp hpos
  unfold roundF32
  rw [if_neg hx, log_eq_of_between e h1 h2]

theorem roundF32_rounds : Rounds roundF32 := by
  constructor
  · intro x
    by_cases hx : x = 0
    · subst hx
      simp [roundF32]
    · have hpos : (0 : ℚ) < |x| := abs_pos.mpr hx
      have hu : (0 : ℚ) < (2 : ℚ) ^ (Int.log 2 |x| - 23) := zpow_pos (by norm_num) _
      have hlog : ((2 : ℕ) : ℚ) ^ Int.log 2 |x| ≤ |x| := Int.zpow_log_le_self (by norm_num) hpos
      have hsplit : (2 : ℚ) ^ Int.log 2 |x| = (2 : ℚ) ^ (Int.log 2 |x| - 23) * 2 ^ 23 := by
        rw [zpow_sub₀ (by norm_num : (2 : ℚ) ≠ 0)]
        norm_num
      have hnear := roundHalfEven_near (x / (2 : ℚ) ^ (Int.log 2 |x| - 23))
      have hrw : roundF32 x - x
          = ((roundHalfEven (x / (2 : ℚ) ^ (Int.log 2 |x| - 23)) : ℚ)
              - x / (2 : ℚ) ^ (Int.log 2 |x| - 23)) * (2 : ℚ) ^ (Int.log 2 |x| - 23) := by
        unfold roundF32
        rw [if_neg hx]
        field_simp
      rw [hrw, abs_mul, abs_of_pos hu]
      have hlog2 : (2 : ℚ) ^ (Int.log 2 |x| - 23) * 2 ^ 23 ≤ |x| := by
        rw [← hsplit]; exact_mod_cast hlog
      have step : |(roundHalfEven (x / (2 : ℚ) ^ (Int.log 2 |x| - 23)) : ℚ)
              - x / (2 : ℚ) ^ (Int.log 2 |x| - 23)| * (2 : ℚ) ^ (Int.log 2 |x| - 23)
            ≤ 1 / 2 * (2 : ℚ) ^ (Int.log 2 |x| - 23) :=
        mul_le_mul_of_nonneg_right hnear hu.le
      refine le_trans step ?_
      rw [le_div_iff₀ (by norm_num)]
      have e24 : ((2 : ℚ) ^ 24) = 2 * 2 ^ 23 := by norm_num
      rw [e24]
      linarith
  · intro n hn
    rcases Nat.eq_zero_or_pos n with h0 | h0
    · subst h0
      simp [roundF32]
    · have hx : ((n : ℚ)) ≠ 0 := by exact_mod_cast h0.ne.symm
      have habs : |(n : ℚ)| = (n : ℚ) := abs_of_nonneg (Nat.cast_nonneg n)
      have hpos : (0 : ℚ) < (n : ℚ) := by exact_mod_cast h0
      have hn24 : (n : ℚ) < ((2 : ℕ) : ℚ) ^ (24 : ℤ) := by
        rw [show ((2 : ℕ) : ℚ) ^ (24 : ℤ) = 2 ^ (24 : ℕ) from by norm_num]
        exact_mod_cast hn
      have hlt : Int.log 2 (n : ℚ) < 24 :=
        (Int.lt_zpow_iff_log_lt (by norm_num) hpos).mp hn24
      obtain ⟨k, hk⟩ : ∃ k : ℕ, Int.log 2 (n : ℚ) - 23 = -(k : ℤ) :=
        ⟨(23 - Int.log 2 (n : ℚ)).toNat, by omega⟩
      unfold roundF32
      rw [if_neg hx, habs, hk, zpow_neg, zpow_natCast, div_inv_eq_mul]
      have hint : (n : ℚ) * 2 ^ k = (((n * 2 ^ k : ℕ) : ℤ) : ℚ) := by push_cast; ring
      rw [hint, roundHalfEven_intCast]
      push_cast
      field_simp

theorem rounds_id : Rounds (fun x : ℚ => x) := by
  constructor
  · intro x
    simp only [sub_self, abs_zero]
    positivity
  · intro n _
    rfl

theorem rounds_bounds {fl : ℚ → ℚ} (hfl : Rounds fl) {x : ℚ} (hx : 0 ≤ x) :
    x * (1 - 1 / 2 ^ 24) ≤ fl x ∧ fl x ≤ x * (1 + 1 / 2 ^ 24) := by
  have h := hfl.1 x
  rw [abs_of_nonneg hx, abs_le] at h
  constructor <;> linarith [h.1, h.2]

theorem rounds_zero {fl : ℚ → ℚ} (hfl : Rounds fl) : fl 0 = 0 := by
  have h := hfl.2 0 (by norm_num)
  simpa using h

theorem rounds_byte {fl : ℚ → ℚ} (hfl : Rounds fl) {n : ℕ} (h : n < 256) :
    fl (n : ℚ) = (n : ℚ) := hfl.2 n (by omega)

theorem chain_upper {E t p1 p2 v f a b M : ℚ} (hE : 1 ≤ E) (hf0 : 0 ≤ f)
    (ha : 0 ≤ a) (hb : 0 ≤ b) (ht : t ≤ (1 - f) * E) (hp1 : p1 ≤ t * a * E)
    (hp2 : p2 ≤ f * b * E) (hv : v ≤ (p1 + p2) * E) (hM : (1 - f) * a + f * b ≤ M) :
    v ≤ M * E ^ 3 := by
  have hE0 : 0 ≤ E := le_trans (by norm_num) hE
  have q1 : p1 ≤ (1 - f) * a * E * E := by
    have : t * a * E ≤ (1 - f) * E * a * E := by gcongr
    calc p1 ≤ t * a * E := hp1
      _ ≤ (1 - f) * E * a * E := this
      _ = (1 - f) * a * E * E := by ring
  have q2 : p2 ≤ f * b * E * E := by
    have h0 : 0 ≤ f * b * E := by positivity
    calc p2 ≤ f * b * E := hp2
      _ = f * b * E * 1 := by ring
      _ ≤ f * b * E * E := by gcongr
  have q3 : p1 + p2 ≤ M * (E * E) := by
    have : ((1 - f) * a + f * b) * (E * E) ≤ M * (E * E) := by gcongr
    calc p1 + p2 ≤ (1 - f) * a * E * E + f * b * E * E := add_le_add q1 q2
      _ = ((1 - f) * a + f * b) * (E * E) := by ring
      _ ≤ M * (E * E) := this
  calc v ≤ (p1 + p2) * E := hv
    _ ≤ M * (E * E) * E := by gcongr
    _ = M * E ^ 3 := by ring

theorem chain_lower {D t p1 p2 v f a b m : ℚ} (hD0 : 0 ≤ D) (hD1 : D ≤ 1) (hf0 : 0 ≤ f)
    (ha : 0 ≤ a) (hb : 0 ≤ b) (ht : (1 - f) * D ≤ t) (hp1 : t * a * D ≤ p1)
    (hp2 : f * b * D ≤ p2) (hv : (p1 + p2) * D ≤ v) (hm : m ≤ (1 - f) * a + f * b) :
    m * D ^ 3 ≤ v := by
  have q1 : (1 - f) * a * D * D ≤ p1 := by
    have : (1 - f) * D * a * D ≤ t * a * D := by gcongr
    calc (1 - f) * a * D * D = (1 - f) * D * a * D := by ring
      _ ≤ t * a * D := this
      _ ≤ p1 := hp1
  have q2 : f * b * D * D ≤ p2 := by
    have h0 : 0 ≤ f * b * D := by positivity
    calc f * b * D * D ≤ f * b * D * 1 := by gcongr
      _ = f * b * D := by ring
      _ ≤ p2 := hp2
  have q3 : m * (D * D) ≤ p1 + p2 := by
    have : m * (D * D) ≤ ((1 - f) * a + f * b) * (D * D) := by gcongr
    calc m * (D * D) ≤ ((1 - f) * a + f * b) * (D * D) := this
      _ = (1 - f) * a * D * D + f * b * D * D := by ring
      _ ≤ p1 + p2 := add_le_add q1 q2
  calc m * D ^ 3 = m * (D * D) * D := by ring
    _ ≤ (p1 + p2) * D := by gcongr
    _ ≤ v := hv

theorem lerp_rounded_between {fl : ℚ → ℚ} (hfl : Rounds fl) (a b : ℕ) (ha : a < 256)
    (hb : b < 256) {f : ℚ} (h0 : 0 ≤ f) (h1 : f ≤ 1) :
    0 ≤ fl (fl (fl (1 - f) * (a : ℚ)) + fl (f * (b : ℚ)))
    ∧ ((min a b : ℕ) : ℚ) - 1 < fl (fl (fl (1 - f) * (a : ℚ)) + fl (f * (b : ℚ)))
    ∧ fl (fl (fl (1 - f) * (a : ℚ)) + fl (f * (b : ℚ))) < ((max a b : ℕ) : ℚ) + 1 := by
  have hD0 : (0 : ℚ) ≤ 1 - 1 / 2 ^ 24 := by norm_num
  have hD1 : (1 : ℚ) - 1 / 2 ^ 24 ≤ 1 := by norm_num
  have hE : (1 : ℚ) ≤ 1 + 1 / 2 ^ 24 := by norm_num
  have ha0 : (0 : ℚ) ≤ (a : ℚ) := Nat.cast_nonneg a
  have hb0 : (0 : ℚ) ≤ (b : ℚ) := Nat.cast_nonneg b
  have hf : (0 : ℚ) ≤ 1 - f := by linarith
  obtain ⟨t1, t2⟩ := rounds_bounds hfl hf
  have ht0 : 0 ≤ fl (1 - f) := le_trans (mul_nonneg hf hD0) t1
  have hta : 0 ≤ fl (1 - f) * (a : ℚ) := mul_nonneg ht0 ha0
  obtain ⟨p1, p2⟩ := rounds_bounds hfl hta
  have hp0 : 0 ≤ fl (fl (1 - f) * (a : ℚ)) := le_trans (mul_nonneg hta hD0) p1
  have hfb : 0 ≤ f * (b : ℚ) := mul_nonneg h0 hb0
  obtain ⟨r1, r2⟩ := rounds_bounds hfl hfb
  have hr0 : 0 ≤ fl (f * (b : ℚ)) := le_trans (mul_nonneg hfb hD0) r1
  have hs0 : 0 ≤ fl (fl (1 - f) * (a : ℚ)) + fl (f * (b : ℚ)) := add_nonneg hp0 hr0
  obtain ⟨v1, v2⟩ := rounds_bounds hfl hs0
  obtain ⟨l, u⟩ := lerp_between a b h0 h1
  have up := chain_upper hE h0 ha0 hb0 t2 p2 r2 v2 u
  have lo := chain_lower hD0 hD1 h0 ha0 hb0 t1 p1 r1 v1 l
  have hMle : ((max a b : ℕ) : ℚ) ≤ 255 := by
    have : max a b ≤ 255 := by omega
    exact_mod_cast this
  have hmle : ((min a b : ℕ) : ℚ) ≤ 255 := by
    have : min a b ≤ 255 := by omega
    exact_mod_cast this
  have hM0 : (0 : ℚ) ≤ ((max a b : ℕ) : ℚ) := Nat.cast_nonneg _
  have hm0 : (0 : ℚ) ≤ ((min a b : ℕ) : ℚ) := Nat.cast_nonneg _
  have hE3 : ((1 : ℚ) + 1 / 2 ^ 24) ^ 3 - 1 < 1 / 256 := by norm_num
  have hE3' : (0 : ℚ) ≤ ((1 : ℚ) + 1 / 2 ^ 24) ^ 3 - 1 := by norm_num
  have hD3 : (1 : ℚ) - (1 - 1 / 2 ^ 24) ^ 3 < 1 / 256 := by norm_num
  have hD3' : (0 : ℚ) ≤ (1 : ℚ) - (1 - 1 / 2 ^ 24) ^ 3 := by norm_num
  refine ⟨le_trans (mul_nonneg hs0 hD0) v1, ?_, ?_⟩
  · have : ((min a b : ℕ) : ℚ) * (1 - (1 - 1 / 2 ^ 24) ^ 3) ≤ 255 * (1 / 256) :=
      mul_le_mul hmle hD3.le hD3' (by norm_num)
    linarith
  · have : ((max a b : ℕ) : ℚ) * (((1 : ℚ) + 1 / 2 ^ 24) ^ 3 - 1) ≤ 255 * (1 / 256) :=
      mul_le_mul hMle hE3.le hE3' (by norm_num)
    linarith

theorem lerp_rounded_channel {fl : ℚ → ℚ} (hfl : Rounds fl) (a b : ℕ) (ha : a < 256)
    (hb : b < 256) (factor : ℚ) :
    min a b ≤ toUInt8 (fl (fl (fl (1 - max 0 (min 1 factor)) * (a : ℚ))
        + fl (max 0 (min 1 factor) * (b : ℚ)))) + 1
    ∧ toUInt8 (fl (fl (fl (1 - max 0 (min 1 factor)) * (a : ℚ))
        + fl (max 0 (min 1 factor) * (b : ℚ)))) ≤ max a b := by
  have h0 : (0 : ℚ) ≤ max 0 (min 1 factor) := le_max_left _ _
  have h1 : max 0 (min 1 factor) ≤ (1 : ℚ) := max_le (by norm_num) (min_le_left _ _)
  obtain ⟨n, l, u⟩ := lerp_rounded_between hfl a b ha hb h0 h1
  exact toUInt8_within_one n l u (max_lt ha hb)

theorem lerpColor_clamp_eq (fl : ℚ → ℚ) (aColor bColor : SDL_Color) (t : ℚ) :
    lerpColor fl aColor bColor t =
      { r := toUInt8 (fl (fl (fl (1 - max 0 (min 1 t)) * (aColor.r : ℚ))
              + fl (max 0 (min 1 t) * (bColor.r : ℚ))))
        g := toUInt8 (fl (fl (fl (1 - max 0 (min 1 t)) * (aColor.g : ℚ))
              + fl (max 0 (min 1 t) * (bColor.g : ℚ))))
        b := toUInt8 (fl (fl (fl (1 - max 0 (min 1 t)) * (aColor.b : ℚ))
              + fl (max 0 (min 1 t) * (bColor.b : ℚ)))) } := by
  simp only [lerpColor, lerp_factor_eq]

theorem lerpColor_of_nonpos {fl : ℚ → ℚ} (hfl : Rounds fl) (aColor bColor : SDL_Color)
    (factor : ℚ) (ha : aColor.valid) (h : factor ≤ 0) :
    lerpColor fl aColor bColor factor = aColor := by
  obtain ⟨ar, ag, ab⟩ := ha
  have hf : max 0 (min 1 factor) = 0 := by
    rw [min_eq_right (le_trans h (by norm_num)), max_eq_left h]
  have h1 : fl 1 = 1 := by simpa using hfl.2 1 (by norm_num)
  rw [lerpColor_clamp_eq, hf]
  simp only [sub_zero, h1, one_mul, zero_mul, rounds_zero hfl, add_zero,
    rounds_byte hfl ar, rounds_byte hfl ag, rounds_byte hfl ab,
    toUInt8_natCast ar, toUInt8_natCast ag, toUInt8_natCast ab]

theorem lerpColor_of_one_le {fl : ℚ → ℚ} (hfl : Rounds fl) (aColor bColor : SDL_Color)
    (factor : ℚ) (hb : bColor.valid) (h : 1 ≤ factor) :
    lerpColor fl aColor bColor factor = bColor := by
  obtain ⟨br, bg, bb⟩ := hb
  have hf : max 0 (min 1 factor) = 1 := by
    rw [min_eq_left h, max_eq_right (by norm_num)]
  rw [lerpColor_clamp_eq, hf]
  simp only [sub_self, rounds_zero hfl, one_mul, zero_mul, zero_add,
    rounds_byte hfl br, rounds_byte hfl bg, rounds_byte hfl bb,
    toUInt8_natCast br, toUInt8_natCast bg, toUInt8_natCast bb]

/-- C15 counterexample. In single precision the blend of the colour (3, 3, 3)
with itself by the factor 13421773/134217728 (the `float` nearest to 0.1) is
(2, 2, 2): every output channel is below both corresponding input channels,
which are equal. `roundF32` meets `Rounds`, and in exact arithmetic the same
blend is (3, 3, 3). -/
theorem C15_single_precision_below_both :
    Rounds roundF32
    ∧ lerpColor roundF32 { r := 3, g := 3, b := 3 } { r := 3, g := 3, b := 3 }
        (13421773 / 134217728) = { r := 2, g := 2, b := 2 }
    ∧ lerpColor (fun x => x) { r := 3, g := 3, b := 3 } { r := 3, g := 3, b := 3 }
        (13421773 / 134217728) = { r := 3, g := 3, b := 3 } := by
  have hf : max (0 : ℚ) (min 1 (13421773 / 134217728)) = 13421773 / 134217728 := by
    rw [min_eq_right (by norm_num), max_eq_right (by norm_num)]
  have e1 : (1 : ℚ) - 13421773 / 134217728 = 120795955 / 134217728 := by norm_num
  have h1 : roundF32 (120795955 / 134217728) = 7549747 / 8388608 := by
    rw [roundF32_eq (-1) (by rw [abs_of_pos (by norm_num)]; norm_num)
      (by rw [abs_of_pos (by norm_num)]; norm_num),
      roundHalfEven_down 15099494 (by norm_num) (by norm_num)]
    norm_num
  have e2 : (7549747 / 8388608 : ℚ) * ((3 : ℕ) : ℚ) = 22649241 / 8388608 := by norm_num
  have h2 : roundF32 (22649241 / 8388608) = 2831155 / 1048576 := by
    rw [roundF32_eq 1 (by rw [abs_of_pos (by norm_num)]; norm_num)
      (by rw [abs_of_pos (by norm_num)]; norm_num),
      roundHalfEven_tie 11324620 (by norm_num) (by norm_num)]
    norm_num
  have e3 : (13421773 / 134217728 : ℚ) * ((3 : ℕ) : ℚ) = 40265319 / 134217728 := by norm_num
  have h3 : roundF32 (40265319 / 134217728) = 5033165 / 16777216 := by
    rw [roundF32_eq (-2) (by rw [abs_of_pos (by norm_num)]; norm_num)
      (by rw [abs_of_pos (by norm_num)]; norm_num),
      roundHalfEven_up 10066329 (by norm_num) (by norm_num)]
    norm_num
  have e4 : (2831155 / 1048576 : ℚ) + 5033165 / 16777216 = 50331645 / 16777216 := by norm_num
  have h4 : roundF32 (50331645 / 16777216) = 12582911 / 4194304 := by
    rw [roundF32_eq 1 (by rw [abs_of_pos (by norm_num)]; norm_num)
      (by rw [abs_of_pos (by norm_num)]; norm_num),
      roundHalfEven_down 12582911 (by norm_num) (by norm_num)]
    norm_num
  have h5 : toUInt8 (12582911 / 4194304 : ℚ) = 2 := by
    have h := @toUInt8_within_one 3 2 (12582911 / 4194304)
      (by norm_num) (by norm_num) (by norm_num) (by norm_num)
    omega
  have e5 : (120795955 / 134217728 : ℚ) * ((3 : ℕ) : ℚ) + 40265319 / 134217728 = ((3 : ℕ) : ℚ) := by
    norm_num
  refine ⟨roundF32_rounds, ?_, ?_⟩
  · rw [lerpColor_clamp_eq]
    simp only [hf, e1, h1, e2, h2, e3, h3, e4, h4, h5]
  · rw [lerpColor_clamp_eq]
    simp only [hf, e1, e3, e5, toUInt8_natCast (by norm_num : 3 < 256)]

/-- C15 (amended). For valid colours (channels below 256) and every rounding of
the `float` operations with a relative error of at most `2^-24` that is exact
on the natural numbers below `2^24`, `lerpColor` depends on its factor only
through the factor clamped to [0,1]; every factor at least 1 gives the R, G, B
of `bColor`, every factor at most 0 those of `aColor`; and for every factor
each output channel is at most the larger and at least the smaller less one of
the corresponding channels of `aColor` and `bColor`. In exact arithmetic it
lies between the two. -/
theorem C15_lerpColor_within_one (fl : ℚ → ℚ) (aColor bColor : SDL_Color) (factor : ℚ)
    (hfl : Rounds fl) (ha : aColor.valid) (hb : bColor.valid) :
    lerpColor fl aColor bColor factor = lerpColor fl aColor bColor (max 0 (min 1 factor))
    ∧ (1 ≤ factor → lerpColor fl aColor bColor factor = bColor)
    ∧ (factor ≤ 0 → lerpColor fl aColor bColor factor = aColor)
    ∧ (min aColor.r bColor.r ≤ (lerpColor fl aColor bColor factor).r + 1
        ∧ (lerpColor fl aColor bColor factor).r ≤ max aColor.r bColor.r)
    ∧ (min aColor.g bColor.g ≤ (lerpColor fl aColor bColor factor).g + 1
        ∧ (lerpColor fl aColor bColor factor).g ≤ max aColor.g bColor.g)
    ∧ (min aColor.b bColor.b ≤ (lerpColor fl aColor bColor factor).b + 1
        ∧ (lerpColor fl aColor bColor factor).b ≤ max aColor.b bColor.b)
    ∧ (min aColor.r bColor.r ≤ (lerpColor (fun x => x) aColor bColor factor).r
        ∧ min aColor.g bColor.g ≤ (lerpColor (fun x => x) aColor bColor factor).g
        ∧ min aColor.b bColor.b ≤ (lerpColor (fun x => x) aColor bColor factor).b) := by
  have hidem : max 0 (min 1 (max 0 (min 1 factor))) = max 0 (min 1 factor) := by
    have h0 : (0 : ℚ) ≤ max 0 (min 1 factor) := le_max_left _ _
    have h1 : max 0 (min 1 factor) ≤ (1 : ℚ) := max_le (by norm_num) (min_le_left _ _)
    rw [min_eq_right h1, max_eq_right h0]
  refine ⟨?_, fun h => lerpColor_of_one_le hfl aColor bColor factor hb h,
    fun h => lerpColor_of_nonpos hfl aColor bColor factor ha h, ?_, ?_, ?_, ?_, ?_, ?_⟩
  · rw [lerpColor_clamp_eq fl aColor bColor factor,
      lerpColor_clamp_eq fl aColor bColor (max 0 (min 1 factor)), hidem]
  · rw [lerpColor_clamp_eq]; exact lerp_rounded_channel hfl _ _ ha.1 hb.1 factor
  · rw [lerpColor_clamp_eq]; exact lerp_rounded_channel hfl _ _ ha.2.1 hb.2.1 factor
  · rw [lerpColor_clamp_eq]; exact lerp_rounded_channel hfl _ _ ha.2.2 hb.2.2 factor
  · rw [lerpColor_clamp_eq]; exact (lerp_channel _ _ ha.1 hb.1 factor).1
  · rw [lerpColor_clamp_eq]; exact (lerp_channel _ _ ha.2.1 hb.2.1 factor).1
  · rw [lerpColor_clamp_eq]; exact (lerp_channel _ _ ha.2.2 hb.2.2 factor).1

/-- C15 (amended) in single precision at the plane colour and the gone colour
of `sampleStyle`, factor 3. -/
theorem C15_lerpColor_within_one_witness :
    (Rounds roundF32 ∧ sampleStyle.planeColor.valid ∧ sampleStyle.planeGoneColor.valid)
    ∧ lerpColor roundF32 sampleStyle.planeColor sampleStyle.planeGoneColor 3
        = sampleStyle.planeGoneColor :=
  have h1 : sampleStyle.planeColor.valid := by decide
  have h2 : sampleStyle.planeGoneColor.valid := by decide
  ⟨⟨roundF32_rounds, h1, h2⟩,
    (C15_lerpColor_within_one roundF32 sampleStyle.planeColor sampleStyle.planeGoneColor 3
      roundF32_rounds h1 h2).2.1 (by norm_num)⟩

/-- C16. With a colour table of 128 rows, `signalToColor` returns a colour for
every `int` signal: the grey (96, 96, 96) for a negative signal, and for a
non-negative signal the row of the table at index `min(signal, 127)`; the index
it reads at is between 0 and 127. -/
theorem C16_signalToColor_total (parula : List (ℕ × ℕ × ℕ)) (signal : ℤ)
    (hlen : parula.length = 128) :
    (signalToColor parula signal).isSome
    ∧ (signal < 0 → signalToColor parula signal = some { r := 96, g := 96, b := 96 })
    ∧ (0 ≤ signal →
        signalIndex signal = min signal 127
        ∧ 0 ≤ signalIndex signal ∧ signalIndex signal ≤ 127
        ∧ ∃ e : ℕ × ℕ × ℕ, parula.get? (min signal 127).toNat = some e
            ∧ signalToColor parula signal = some (setColor e.1 e.2.1 e.2.2)) := by
  have hneg : signal < 0 → signalToColor parula signal = some { r := 96, g := 96, b := 96 } := by
    intro h
    have hi : signalIndex signal = signal := by
      rw [signalIndex, if_neg (by omega)]
    rw [signalToColor, hi, if_pos h]
    rfl
  have hpos : 0 ≤ signal →
      signalIndex signal = min signal 127
      ∧ 0 ≤ signalIndex signal ∧ signalIndex signal ≤ 127
      ∧ ∃ e : ℕ × ℕ × ℕ, parula.get? (min signal 127).toNat = some e
          ∧ signalToColor parula signal = some (setColor e.1 e.2.1 e.2.2) := by
    intro h
    have hi : signalIndex signal = min signal 127 := by
      unfold signalIndex
      split_ifs with h1
      · rw [min_eq_right h1.le]
      · rw [min_eq_left (not_lt.mp h1)]
    have h0 : 0 ≤ min signal 127 := le_min h (by norm_num)
    have h127 : min signal 127 ≤ 127 := min_le_right _ _
    refine ⟨hi, hi ▸ h0, hi ▸ h127, ?_⟩
    obtain ⟨i, hiN⟩ := Int.eq_ofNat_of_zero_le h0
    have hlt : i < parula.length := by omega
    refine ⟨parula.get ⟨i, hlt⟩, ?_, ?_⟩
    · rw [hiN, Int.toNat_ofNat, List.get?_eq_get hlt]
    · rw [signalToColor, hi, if_neg (not_lt.mpr h0), hiN]
      simp only [Int.ofNat_eq_coe]
      rw [List.get?_eq_get hlt]
      rfl
  refine ⟨?_, hneg, hpos⟩
  rcases lt_or_le signal 0 with h | h
  · rw [hneg h]; rfl
  · obtain ⟨_, _, _, e, _, he⟩ := hpos h
    rw [he]; rfl

/-- C16 at the table `rampTable` and the signal 300, which reads row 127. -/
theorem C16_signalToColor_total_witness :
    rampTable.length = 128
    ∧ (signalToColor rampTable 300).isSome
    ∧ signalIndex 300 = min 300 127 :=
  have h : rampTable.length = 128 := by simp [rampTable]
  ⟨h, (C16_signalToColor_total rampTable 300 h).1,
    ((C16_signalToColor_total rampTable 300 h).2.2 (by norm_num)).1⟩

/-- C17 counterexample. Two aircraft that are not selected, were seen just now
and differ only in signal level (average 10 and average 100) get the same
colour from `drawPlanes`, the plain `style.planeColor` (236, 192, 68), while
the signal ramp gives them two different colours. -/
theorem C17_colour_ignores_signal :
    signalAverage weakPlane = 10 ∧ signalAverage strongPlane = 100
    ∧ planeColorOf roundF32 sampleStyle 30 false weakPlane = { r := 236, g := 192, b := 68 }
    ∧ planeColorOf roundF32 sampleStyle 30 false strongPlane
        = { r := 236, g := 192, b := 68 }
    ∧ signalToColor rampTable (signalAverage weakPlane) = some { r := 20, g := 20, b := 235 }
    ∧ signalToColor rampTable (signalAverage strongPlane)
        = some { r := 200, g := 200, b := 55 } := by
  have hv1 : sampleStyle.planeColor.valid := by decide
  have hc : ∀ p : Aircraft, p.seen_s = 0 →
      planeColorOf roundF32 sampleStyle 30 false p = { r := 236, g := 192, b := 68 } := by
    intro p hp
    have h := lerpColor_of_nonpos roundF32_rounds sampleStyle.planeColor
      sampleStyle.planeGoneColor (p.seen_s / 30) hv1 (by rw [hp]; norm_num)
    simp only [planeColorOf, h]
    rfl
  refine ⟨by decide, by decide, hc _ rfl, hc _ rfl, by decide, by decide⟩

/-- C17 (amended). The colour `drawPlanes` gives an aircraft is
`style.selectedColor` for the selected aircraft, whatever its age and signal,
and for every other aircraft the fixed `style.planeColor` blended linearly in
R, G, B toward `style.planeGoneColor` by the factor
(seconds since last seen) / `DISPLAY_ACTIVE` clamped to [0,1]; the signal
level of the aircraft does not enter. -/
theorem C17_planeColor_blend (fl : ℚ → ℚ) (style : Style) (DISPLAY_ACTIVE : ℚ)
    (p : Aircraft) :
    planeColorOf fl style DISPLAY_ACTIVE true p = style.selectedColor
    ∧ planeColorOf fl style DISPLAY_ACTIVE false p =
        { r := toUInt8 (fl (fl (fl (1 - max 0 (min 1 (p.seen_s / DISPLAY_ACTIVE)))
                  * (style.planeColor.r : ℚ))
              + fl (max 0 (min 1 (p.seen_s / DISPLAY_ACTIVE)) * (style.planeGoneColor.r : ℚ))))
          g := toUInt8 (fl (fl (fl (1 - max 0 (min 1 (p.seen_s / DISPLAY_ACTIVE)))
                  * (style.planeColor.g : ℚ))
              + fl (max 0 (min 1 (p.seen_s / DISPLAY_ACTIVE)) * (style.planeGoneColor.g : ℚ))))
          b := toUInt8 (fl (fl (fl (1 - max 0 (min 1 (p.seen_s / DISPLAY_ACTIVE)))
                  * (style.planeColor.b : ℚ))
              + fl (max 0 (min 1 (p.seen_s / DISPLAY_ACTIVE))
                  * (style.planeGoneColor.b : ℚ)))) }
    ∧ ∀ (selected : Bool) (levels : List ℕ),
        planeColorOf fl style DISPLAY_ACTIVE selected { p with signalLevel := levels }
          = planeColorOf fl style DISPLAY_ACTIVE selected p := by
  refine ⟨by simp [planeColorOf], ?_, fun selected levels => rfl⟩
  simp only [planeColorOf, lerpColor, lerp_factor_eq]
  rfl

/-! ### Pan, tap and selection -/

/-- C11. Both pan operations, `moveCenterRelative` and `moveCenterAbsolute`,
for any arguments set `mapMoved`, clear the centre target
(`mapTargetLon = mapTargetLat = 0`) and leave `maxDist`, `mapTargetMaxDist` and
the selected aircraft as they were. -/
theorem C11_pan_marks_dirty (cos : ℚ → ℚ) (s : ViewObject) (a b : ℚ) :
    ((moveCenterRelative cos s a b).view.mapMoved = 1
      ∧ (moveCenterRelative cos s a b).view.mapTargetLon = 0
      ∧ (moveCenterRelative cos s a b).view.mapTargetLat = 0
      ∧ (moveCenterRelative cos s a b).view.maxDist = s.view.maxDist
      ∧ (moveCenterRelative cos s a b).view.mapTargetMaxDist = s.view.mapTargetMaxDist
      ∧ (moveCenterRelative cos s a b).selectedAircraft = s.selectedAircraft)
    ∧ ((moveCenterAbsolute cos s a b).view.mapMoved = 1
      ∧ (moveCenterAbsolute cos s a b).view.mapTargetLon = 0
      ∧ (moveCenterAbsolute cos s a b).view.mapTargetLat = 0
      ∧ (moveCenterAbsolute cos s a b).view.maxDist = s.view.maxDist
      ∧ (moveCenterAbsolute cos s a b).view.mapTargetMaxDist = s.view.mapTargetMaxDist
      ∧ (moveCenterAbsolute cos s a b).selectedAircraft = s.selectedAircraft) := by
  refine ⟨⟨rfl, rfl, rfl, rfl, rfl, rfl⟩, ⟨rfl, rfl, rfl, rfl, rfl, rfl⟩⟩

theorem get?_append_singleton {pre : List Aircraft} {p r : Aircraft} {k : ℕ}
    (h : (pre ++ [p]).get? k = some r) :
    (k < pre.length ∧ pre.get? k = some r) ∨ (k = pre.length ∧ r = p) := by
  rcases lt_trichotomy k pre.length with hk | hk | hk
  · left
    refine ⟨hk, ?_⟩
    rw [← h, List.get?_eq_getElem?, List.get?_eq_getElem?, List.getElem?_append_left hk]
  · right
    refine ⟨hk, ?_⟩
    rw [hk, List.get?_eq_getElem?, List.getElem?_append_right (le_refl _)] at h
    simpa using h.symm
  · exfalso
    rw [List.get?_eq_getElem?, List.getElem?_append_right hk.le] at h
    have : k - pre.length ≠ 0 := by omega
    cases hn : k - pre.length with
    | zero => exact this hn
    | succ n => rw [hn] at h; simp at h

theorem get?_append_of_get? {pre : List Aircraft} {p r : Aircraft} {k : ℕ}
    (h : pre.get? k = some r) : (pre ++ [p]).get? k = some r := by
  have hk : k < pre.length := by
    by_contra hn
    rw [List.get?_eq_none.mpr (not_lt.mp hn)] at h
    exact Option.noConfusion h
  rw [← h, List.get?_eq_getElem?, List.get?_eq_getElem?, List.getElem?_append_left hk]

theorem mem_of_get? {pre : List Aircraft} {r : Aircraft} {k : ℕ}
    (h : pre.get? k = some r) : r ∈ pre := List.get?_mem h

theorem selectStep_nearest (x y : ℤ) (hx : x ≠ 0) (hy : y ≠ 0) (pre : List Aircraft)
    (p : Aircraft) (selection : Option (ℕ × Aircraft))
    (h : NearestWithin x y pre selection) :
    NearestWithin x y (pre ++ [p]) (selectStep x y selection pre.length p) := by
  have hlast : (pre ++ [p]).get? pre.length = some p := by
    rw [List.get?_eq_getElem?, List.getElem?_append_right (le_refl _)]
    simp
  unfold selectStep
  rw [if_pos ⟨hx, hy⟩]
  by_cases hd : tapDist x y p < 900
  · rw [if_pos hd]
    cases selection with
    | none =>
      refine ⟨hlast, hd, ?_, ?_⟩
      · intro k r hk
        rcases get?_append_singleton hk with ⟨_, hk'⟩ | ⟨_, rfl⟩
        · have := h r (mem_of_get? hk')
          omega
        · exact le_refl _
      · intro k r hlt hk
        rcases get?_append_singleton hk with ⟨_, hk'⟩ | ⟨hk', _⟩
        · have := h r (mem_of_get? hk')
          omega
        · omega
    | some jq =>
      obtain ⟨j, q⟩ := jq
      obtain ⟨hq, hq900, hmin, hfirst⟩ := h
      have hj : j < pre.length := by
        by_contra hn
        rw [List.get?_eq_none.mpr (not_lt.mp hn)] at hq
        exact Option.noConfusion hq
      by_cases hlt : tapDist x y p < tapDist x y q
      · simp only [if_pos hlt]
        refine ⟨hlast, hd, ?_, ?_⟩
        · intro k r hk
          rcases get?_append_singleton hk with ⟨_, hk'⟩ | ⟨_, rfl⟩
          · have := hmin k r hk'
            omega
          · exact le_refl _
        · intro k r hkl hk
          rcases get?_append_singleton hk with ⟨_, hk'⟩ | ⟨hk', _⟩
          · have := hmin k r hk'
            omega
          · omega
      · simp only [if_neg hlt]
        refine ⟨get?_append_of_get? hq, hq900, ?_, ?_⟩
        · intro k r hk
          rcases get?_append_singleton hk with ⟨_, hk'⟩ | ⟨_, rfl⟩
          · exact hmin k r hk'
          · omega
        · intro k r hkl hk
          rcases get?_append_singleton hk with ⟨_, hk'⟩ | ⟨hk', _⟩
          · exact hfirst k r hkl hk'
          · omega
  · rw [if_neg hd]
    cases selection with
    | none =>
      intro r hr
      rcases List.mem_append.mp hr with hr | hr
      · exact h r hr
      · rw [List.mem_singleton.mp hr]
        exact hd
    | some jq =>
      obtain ⟨j, q⟩ := jq
      obtain ⟨hq, hq900, hmin, hfirst⟩ := h
      refine ⟨get?_append_of_get? hq, hq900, ?_, ?_⟩
      · intro k r hk
        rcases get?_append_singleton hk with ⟨_, hk'⟩ | ⟨_, rfl⟩
        · exact hmin k r hk'
        · omega
      · intro k r hkl hk
        rcases get?_append_singleton hk with ⟨_, hk'⟩ | ⟨hk', _⟩
        · exact hfirst k r hkl hk'
        · have hj : j < pre.length := by
            by_contra hn
            rw [List.get?_eq_none.mpr (not_lt.mp hn)] at hq
            exact Option.noConfusion hq
          omega

theorem selectLoop_nearest (x y : ℤ) (hx : x ≠ 0) (hy : y ≠ 0) (rest : List Aircraft) :
    ∀ (pre : List Aircraft) (selection : Option (ℕ × Aircraft)),
      NearestWithin x y pre selection →
      NearestWithin x y (pre ++ rest) (selectLoop x y pre.length rest selection) := by
  induction rest with
  | nil => intro pre selection h; simpa [selectLoop] using h
  | cons p rest ih =>
    intro pre selection h
    have h1 := ih (pre ++ [p]) _ (selectStep_nearest x y hx hy pre p selection h)
    simp only [List.length_append, List.length_singleton, List.append_assoc,
      List.singleton_append] at h1
    exact h1

theorem selectLoop_of_zero (x y : ℤ) (hz : x = 0 ∨ y = 0) (rest : List Aircraft) :
    ∀ (i : ℕ) (selection : Option (ℕ × Aircraft)),
      selectLoop x y i rest selection = selection := by
  have hn : ¬ (x ≠ 0 ∧ y ≠ 0) := by
    rcases hz with h | h <;> simp [h]
  induction rest with
  | nil => intro i selection; rfl
  | cons p rest ih =>
    intro i selection
    rw [selectLoop, ih]
    unfold selectStep
    rw [if_neg hn]

/-- C12 counterexample. With one aircraft drawn at the pixel (3, 5), a single
tap at the pixel (0, 5) is at squared distance 9 from its anchor, inside the
radius, and yet leaves the selection empty. -/
theorem C12_tap_in_first_column_selects_nothing :
    tapDist 0 5 cornerPlane = 9
    ∧ ∀ cos : ℚ → ℚ,
        (registerClick cos [cornerPlane] object800 1 0 5).selectedAircraft = none := by
  refine ⟨by decide, fun cos => ?_⟩
  simp [registerClick, selectLoop, selectStep]

/-- C12 (amended). For every aircraft list and every tap pixel `(x, y)` with
`x` and `y` both non-zero, `registerClick(1, x, y)` selects an aircraft whose
anchor is at squared pixel distance below 900 from the tap, with no anchor of
the list nearer and every earlier aircraft of the list strictly farther; the
selection becomes empty exactly when no anchor is within the radius. For a tap
with `x = 0` or `y = 0` the selection becomes empty. -/
theorem C12_single_tap_selects_nearest (cos : ℚ → ℚ) (planes : List Aircraft)
    (s : ViewObject) (x y : ℤ) :
    (x ≠ 0 ∧ y ≠ 0 →
      (∀ i : ℕ, (registerClick cos planes s 1 x y).selectedAircraft = some i →
        ∃ p : Aircraft, planes.get? i = some p ∧ tapDist x y p < 900
          ∧ (∀ (j : ℕ) (q : Aircraft), planes.get? j = some q → tapDist x y p ≤ tapDist x y q)
          ∧ (∀ (j : ℕ) (q : Aircraft), j < i → planes.get? j = some q →
              tapDist x y p < tapDist x y q))
      ∧ ((registerClick cos planes s 1 x y).selectedAircraft = none ↔
          ∀ q ∈ planes, 900 ≤ tapDist x y q))
    ∧ (x = 0 ∨ y = 0 → (registerClick cos planes s 1 x y).selectedAircraft = none) := by
  have hsel : (registerClick cos planes s 1 x y).selectedAircraft
      = (selectLoop x y 0 planes none).map Prod.fst := by
    simp [registerClick]
  constructor
  · rintro ⟨hx, hy⟩
    have hinv : NearestWithin x y planes (selectLoop x y 0 planes none) := by
      have h0 : NearestWithin x y [] none := by
        intro q hq
        cases hq
      simpa using selectLoop_nearest x y hx hy planes [] none h0
    rw [hsel]
    cases hres : selectLoop x y 0 planes none with
    | none =>
      rw [hres] at hinv
      refine ⟨fun i hi => by simp at hi, ?_⟩
      simp only [Option.map_none', true_iff]
      intro q hq
      exact not_lt.mp (hinv q hq)
    | some ip =>
      obtain ⟨i, p⟩ := ip
      rw [hres] at hinv
      obtain ⟨h1, h2, h3, h4⟩ := hinv
      constructor
      · intro k hk
        simp only [Option.map_some', Option.some.injEq] at hk
        subst hk
        exact ⟨p, h1, h2, h3, h4⟩
      · simp only [Option.map_some', false_iff, reduceCtorEq]
        intro hall
        have := hall p (mem_of_get? h1)
        omega
  · intro hz
    rw [hsel, selectLoop_of_zero x y hz]
    rfl

/-- C12 (amended) at the tap (400, 300) with aircraft drawn at (410, 300) and
(400, 320): the first of the list is selected. -/
theorem C12_single_tap_selects_nearest_witness :
    ((400 : ℤ) ≠ 0 ∧ (300 : ℤ) ≠ 0)
    ∧ (registerClick (fun _ => 1) [nearPlane, farPlane] object800 1 400 300).selectedAircraft
        = some 0
    ∧ ∃ p : Aircraft, [nearPlane, farPlane].get? 0 = some p ∧ tapDist 400 300 p < 900 :=
  have h : (400 : ℤ) ≠ 0 ∧ (300 : ℤ) ≠ 0 := by decide
  have hs : (registerClick (fun _ => 1) [nearPlane, farPlane] object800 1 400 300).selectedAircraft
      = some 0 := by
    simp [registerClick, selectLoop, selectStep, tapDist, nearPlane, farPlane]
  ⟨h, hs,
    (let ⟨p, h1, h2, _⟩ := ((C12_single_tap_selects_nearest (fun _ => 1) [nearPlane, farPlane]
        object800 400 300).1 h).1 0 hs
     ⟨p, h1, h2⟩)⟩

/-- C13 (code defect). A double tap at the pixel (400, 490) of the 800x600 view
of radius 25 centred at (lon 10, lat 40) sets the target centre to longitude 10
and latitude `40 - 12.5 * (1/6371) * (180/M_PI)`; projected under the same view
(`LATLONMULT = 111.195`, `CENTEROFFSET = 0.5`) that point is displayed at the
pixel (400, 500), ten pixels below the tap, for every cosine. The selection
stays as it was. -/
theorem C13_double_tap_target_off_pixel (cos : ℚ → ℚ) :
    (registerClick cos [] object800 2 400 490).view.mapTargetLon = 10
    ∧ (registerClick cos [] object800 2 400 490).view.mapTargetLat
        = 40 - 25 / 2 * (1 / 6371) * (180 / M_PI)
    ∧ (registerClick cos [] object800 2 400 490).selectedAircraft = object800.selectedAircraft
    ∧ screenCoords (1 / 2) view800
        (pxFromLonLat (111195 / 1000) cos view800
          (registerClick cos [] object800 2 400 490).view.mapTargetLon
          (registerClick cos [] object800 2 400 490).view.mapTargetLat).1
        (pxFromLonLat (111195 / 1000) cos view800
          (registerClick cos [] object800 2 400 490).view.mapTargetLon
          (registerClick cos [] object800 2 400 490).view.mapTargetLat).2 = (400, 500) := by
  have hlon : (registerClick cos [] object800 2 400 490).view.mapTargetLon = 10 := by
    simp [registerClick, animateCenterAbsolute, centerAbsoluteOffset, object800, view800,
      Int.tdiv]
  have hlat : (registerClick cos [] object800 2 400 490).view.mapTargetLat
      = 40 - 25 / 2 * (1 / 6371) * (180 / M_PI) := by
    simp only [registerClick, animateCenterAbsolute, centerAbsoluteOffset, object800, view800,
      scale_factor]
    norm_num [Int.tdiv]
  refine ⟨hlon, hlat, rfl, ?_⟩
  rw [hlon, hlat]
  have hpx : pxFromLonLat (111195 / 1000) cos view800 10
      (40 - 25 / 2 * (1 / 6371) * (180 / M_PI))
      = (0, 111195 / 1000 * (-(25 / 2 * (1 / 6371) * (180 / M_PI)))) := by
    have hne : (40 : ℚ) - 25 / 2 * (1 / 6371) * (180 / M_PI) ≠ 0 := by
      norm_num [M_PI]
    simp only [pxFromLonLat, view800]
    rw [if_neg (not_or.mpr ⟨by norm_num, hne⟩)]
    norm_num
  have hsd0 : screenDist view800 0 = 0 := by
    simp only [screenDist, cround, abs_zero, mul_zero, zero_div]
    norm_num
  have hsd : screenDist view800 (111195 / 1000 * (-(25 / 2 * (1 / 6371) * (180 / M_PI))))
      = 200 := by
    have habs : |(111195 / 1000 * (-(25 / 2 * (1 / 6371) * (180 / M_PI))) : ℚ)|
        = 111195 / 1000 * (25 / 2 * (1 / 6371) * (180 / M_PI)) := by
      rw [abs_of_neg (by norm_num [M_PI])]
      ring
    simp only [screenDist, scale_factor, view800, cround, habs]
    norm_num [M_PI]
  rw [hpx]
  simp only [screenCoords, hsd0, hsd, toInt, shiftRight_one]
  norm_num [view800, M_PI]

/-! ### Trails -/

/-- C18 (code defect). In the 800x600 view centred at (lon 10, lat 40)
(`LATLONMULT = 111.195`, `CENTEROFFSET = 0.5`), for the aircraft `trailPlane`
with `n = 4` history samples, the oldest pair (rank 0) lies above the screen
and is skipped; the pair of rank 1 is drawn with alpha 0 where its rank calls
for `floor(255 * clamp(1/4, 0, 0.5)) = 63`, and the pair of rank 2 with alpha
63 where its rank calls for 127: `idx` is not decremented for a skipped pair. -/
theorem C18_trail_alpha_lags_after_skip (cos : ℚ → ℚ) :
    drawTrails (111195 / 1000) (1 / 2) cos view800 0 0 800 600 [trailPlane]
      = [{ prevX := 400, prevY := -1479, currentX := 400, currentY := 300, colorVal := 0 },
         { prevX := 400, prevY := 300, currentX := 400, currentY := 522, colorVal := 63 }]
    ∧ rankAlpha 1 4 = 63 ∧ rankAlpha 2 4 = 127 := by
  have hp : ∀ lat : ℚ, lat ≠ 0 →
      pxFromLonLat (111195 / 1000) cos view800 10 lat = (0, 111195 / 1000 * (lat - 40)) := by
    intro lat h
    simp [pxFromLonLat, view800, h]
  have hsd0 : screenDist view800 0 = 0 := by
    simp only [screenDist, cround, abs_zero, mul_zero, zero_div]
    norm_num
  have hsd : ∀ (d : ℚ) (n : ℤ), 0 ≤ d → (n : ℚ) ≤ 16 * d + 1 / 2 → 16 * d + 1 / 2 < (n : ℚ) + 1 →
      screenDist view800 d = n ∧ screenDist view800 (-d) = n := by
    intro d n h0 h1 h2
    have harg : scale_factor view800 * (1 / 2) * |d| / view800.maxDist = 16 * d := by
      rw [abs_of_nonneg h0]
      norm_num [scale_factor, view800]
      ring
    have hnn : (0 : ℚ) ≤ 16 * d := by positivity
    have hval : screenDist view800 d = n := by
      rw [screenDist, harg, cround, if_pos hnn, Int.floor_eq_iff]
      exact ⟨h1, h2⟩
    refine ⟨hval, ?_⟩
    rw [← hval]
    simp [screenDist]
  have hsc : ∀ (dy : ℚ) (n : ℤ), screenDist view800 dy = n →
      screenCoords (1 / 2) view800 0 dy = (400, 300 + (if dy > 0 then -1 else 1) * n) := by
    intro dy n hn
    have h300 : ((600 : ℤ) : ℚ) * (1 / 2) = ((300 : ℤ) : ℚ) := by norm_num
    have hto : ∀ k : ℤ, toInt ((k : ℤ) : ℚ) = k := by
      intro k
      unfold toInt
      split_ifs <;> simp
    unfold screenCoords
    rw [hsd0, hn]
    simp only [shiftRight_one, view800]
    rw [h300, ← Int.cast_add, hto]
    norm_num
  have e42 := hp 42 (by norm_num)
  have e41 := hp 41 (by norm_num)
  have e40 := hp 40 (by norm_num)
  have e39 := hp (319 / 8) (by norm_num)
  have s42 := hsc _ _ (hsd (111195 / 1000 * (42 - 40)) 3558 (by norm_num) (by norm_num)
    (by norm_num)).1
  have s41 := hsc _ _ (hsd (111195 / 1000 * (41 - 40)) 1779 (by norm_num) (by norm_num)
    (by norm_num)).1
  have s40 := hsc (111195 / 1000 * (40 - 40)) 0 (by norm_num [hsd0])
  have s39 : screenCoords (1 / 2) view800 0 (111195 / 1000 * (319 / 8 - 40)) = (400, 522) := by
    have h := hsc _ _ (hsd (111195 / 1000 * (1 / 8)) 222 (by norm_num) (by norm_num)
      (by norm_num)).2
    have hneg : (111195 / 1000 * (319 / 8 - 40) : ℚ) = -(111195 / 1000 * (1 / 8)) := by norm_num
    rw [hneg, h]
    norm_num
  rw [if_pos (by norm_num)] at s42 s41
  rw [if_neg (by norm_num)] at s40
  refine ⟨?_, ?_, ?_⟩
  · simp only [drawTrails, trailPlane, northPlane, List.zip_cons_cons, List.zip_nil_right,
      trailSegments, e42, e41, e40, e39, s42, s41, s40, s39]
    norm_num [outOfBoundsRect, clamp, toUInt8, toInt]
    rfl
  · norm_num [rankAlpha, clamp, toUInt8, toInt]
    rfl
  · norm_num [rankAlpha, clamp, toUInt8, toInt]
    rfl

/-! ### Label layout -/

theorem clamp_magnitude (u : ℚ) :
    (if |u| > 10 then sign u * 10 else u) = max (-10) (min 10 u) := by
  by_cases h : |u| > 10
  · rw [if_pos h]
    rcases lt_abs.mp h with h1 | h1
    · have : sign u = 1 := by
        unfold sign
        rw [if_pos (by linarith), if_neg (by linarith)]
        norm_num
      rw [this, min_eq_left h1.le, max_eq_right (by norm_num)]
      norm_num
    · have h2 : u < -10 := by linarith
      have : sign u = -1 := by
        unfold sign
        rw [if_neg (by linarith), if_pos (by linarith)]
        norm_num
      rw [this, min_eq_right (by linarith), max_eq_left h2.le]
      norm_num
  · rw [if_neg h]
    have h1 := abs_le.mp (not_lt.mp h)
    rw [min_eq_right h1.2, max_eq_right h1.1]

theorem settle_range (u : ℚ) : settle u = 0 ∨ (1 ≤ |settle u| ∧ |settle u| ≤ 10) := by
  unfold settle
  by_cases h : |max (-10) (min 10 u)| < 1
  · left
    rw [if_pos h]
  · right
    rw [if_neg h]
    refine ⟨not_lt.mp h, abs_le.mpr ⟨le_max_left _ _, max_le (by norm_num) (min_le_left _ _)⟩⟩

theorem labelUpdate_velocity (p : Aircraft) :
    (labelUpdate p).dox = settle (95 / 100 * (p.dox + p.ddox))
    ∧ (labelUpdate p).doy = settle (95 / 100 * (p.doy + p.ddoy)) := by
  simp only [labelUpdate, settle, clamp_magnitude, mul_comm (95 / 100 : ℚ)]
  exact ⟨trivial, trivial⟩

/-- C20. The update phase of `resolveLabelConflicts` sets each velocity
component of every aircraft to `settle (0.95 * (old velocity + acceleration))`,
where `settle` clamps the magnitude to at most 10 and then replaces a magnitude
below 1 by 0; so each component ends as 0 or with magnitude in [1, 10]. The
offset is advanced by the new velocity, and the label position is
`x = cx + round(ox)`, `y = cy + round(oy)` with the new offset (C `round`),
the anchor staying as it was. -/
theorem C20_label_velocity_update (planes : List Aircraft) (p : Aircraft) (hp : p ∈ planes) :
    labelUpdate p ∈ labelUpdateAll planes
    ∧ (labelUpdate p).dox = settle (95 / 100 * (p.dox + p.ddox))
    ∧ (labelUpdate p).doy = settle (95 / 100 * (p.doy + p.ddoy))
    ∧ ((labelUpdate p).dox = 0 ∨ (1 ≤ |(labelUpdate p).dox| ∧ |(labelUpdate p).dox| ≤ 10))
    ∧ ((labelUpdate p).doy = 0 ∨ (1 ≤ |(labelUpdate p).doy| ∧ |(labelUpdate p).doy| ≤ 10))
    ∧ (labelUpdate p).ox = p.ox + (labelUpdate p).dox
    ∧ (labelUpdate p).oy = p.oy + (labelUpdate p).doy
    ∧ (labelUpdate p).cx = p.cx ∧ (labelUpdate p).cy = p.cy
    ∧ (labelUpdate p).x = (labelUpdate p).cx + cround (labelUpdate p).ox
    ∧ (labelUpdate p).y = (labelUpdate p).cy + cround (labelUpdate p).oy := by
  obtain ⟨hx, hy⟩ := labelUpdate_velocity p
  refine ⟨List.mem_map_of_mem _ hp, hx, hy, ?_, ?_, rfl, rfl, rfl, rfl, rfl, rfl⟩
  · rw [hx]; exact settle_range _
  · rw [hy]; exact settle_range _

/-- C20 at the aircraft `labelPlane`: the x velocity 0.95 * (9 + 4) = 12.35 is
clamped to 10, the y velocity 0.95 * 0.7 = 0.665 is replaced by 0, and the
label lands at (400 + 22, 300 - 3). -/
theorem C20_label_velocity_update_witness :
    labelPlane ∈ [labelPlane]
    ∧ (labelUpdate labelPlane).dox = 10 ∧ (labelUpdate labelPlane).doy = 0
    ∧ (labelUpdate labelPlane).x = 422 ∧ (labelUpdate labelPlane).y = 297 := by
  have h := C20_label_velocity_update [labelPlane] labelPlane (List.mem_singleton.mpr rfl)
  obtain ⟨_, hdx, hdy, _, _, hox, hoy, hcx, hcy, hx, hy⟩ := h
  have e1 : (labelUpdate labelPlane).dox = 10 := by
    rw [hdx]
    norm_num [settle, labelPlane, northPlane]
  have e2 : (labelUpdate labelPlane).doy = 0 := by
    rw [hdy]
    norm_num [settle, labelPlane, northPlane]
    rw [abs_of_pos (by norm_num)]
    norm_num
  refine ⟨List.mem_singleton.mpr rfl, e1, e2, ?_, ?_⟩
  · rw [hx, hox, e1, hcx]
    norm_num [labelPlane, northPlane, cround]
  · rw [hy, hoy, e2, hcy]
    have hc : ⌈(-(7 / 2) : ℚ)⌉ = -3 := by
      rw [Int.ceil_eq_iff]
      norm_num
    norm_num [labelPlane, northPlane, cround, hc]

/-! ### Label text -/

theorem decimalLength_nonneg (n : ℤ) : 0 ≤ decimalLength n := by
  unfold decimalLength
  split_ifs <;> positivity

theorem one_lt_altChars (metric : Bool) (p : Aircraft) : 1 < altChars metric p := by
  have h1 := decimalLength_nonneg (toInt ((p.altitude : ℚ) / (32828 / 10000)))
  have h2 := decimalLength_nonneg p.altitude
  unfold altChars
  split_ifs <;> omega

theorem one_lt_speedChars (metric : Bool) (p : Aircraft) : 1 < speedChars metric p := by
  have h1 := decimalLength_nonneg (toInt ((p.speed : ℚ) * (1852 / 1000)))
  have h2 := decimalLength_nonneg p.speed
  unfold speedChars
  split_ifs <;> omega

theorem ite_lt_eq_max (a b : ℤ) : (if decide (a < b) = true then b else a) = max a b := by
  simp only [decide_eq_true_eq]
  split_ifs with h
  · rw [max_eq_right h.le]
  · rw [max_eq_left (not_lt.mp h)]

theorem drawPlaneText_low (mapFontWidth mapFontHeight : ℤ) (metric : Bool) (v : View)
    (p : Aircraft) (h : p.pressure * (v.screen_width : ℚ) < 1) :
    (drawPlaneText mapFontWidth mapFontHeight metric v p).texts
      = (if 0 < p.flight.length then
          [{ line := LabelLine.flight, x := p.x, y := p.y, chars := flightChars p },
           { line := LabelLine.altitude, x := p.x, y := p.y + 1 * mapFontHeight,
             chars := altChars metric p },
           { line := LabelLine.speed, x := p.x, y := p.y + (1 + 1) * mapFontHeight,
             chars := speedChars metric p }]
        else
          [{ line := LabelLine.altitude, x := p.x, y := p.y + 0 * mapFontHeight,
             chars := altChars metric p },
           { line := LabelLine.speed, x := p.x, y := p.y + (0 + 1) * mapFontHeight,
             chars := speedChars metric p }])
    ∧ (drawPlaneText mapFontWidth mapFontHeight metric v p).plane.w
        = max (max (flightChars p) (altChars metric p)) (speedChars metric p) * mapFontWidth
    ∧ (drawPlaneText mapFontWidth mapFontHeight metric v p).plane.h
        = (if 0 < p.flight.length then 3 else 2) * mapFontHeight := by
  have h2 : p.pressure * (v.screen_width : ℚ) < 2 := by linarith
  have h1 : p.pressure * (v.screen_width : ℚ) < 1 / 2 * 2 := by linarith
  have ha := one_lt_altChars metric p
  have hs := one_lt_speedChars metric p
  by_cases hf : 0 < p.flight.length
  · have hfc : 1 < flightChars p := by unfold flightChars; omega
    simp only [drawPlaneText, h1, h2, ha, hs, hf, hfc, decide_True, Bool.true_and, if_true,
      gt_iff_lt, Bool.and_self, ite_lt_eq_max]
    refine ⟨by simp, trivial, by norm_num⟩
  · have hfc : ¬ 1 < flightChars p := by unfold flightChars; omega
    simp only [drawPlaneText, h1, h2, ha, hs, hf, hfc, decide_True, decide_False, Bool.true_and,
      Bool.and_false, if_true, if_false, gt_iff_lt, Bool.and_self, Bool.false_eq_true,
      ite_lt_eq_max]
    refine ⟨by simp, trivial, by norm_num⟩

theorem drawPlaneText_mid (mapFontWidth mapFontHeight : ℤ) (metric : Bool) (v : View)
    (p : Aircraft) (h1 : 1 ≤ p.pressure * (v.screen_width : ℚ))
    (h2 : p.pressure * (v.screen_width : ℚ) < 2) :
    (drawPlaneText mapFontWidth mapFontHeight metric v p).texts
      = (if 0 < p.flight.length then
          [{ line := LabelLine.flight, x := p.x, y := p.y, chars := flightChars p }] else [])
    ∧ (drawPlaneText mapFontWidth mapFontHeight metric v p).plane.w
        = flightChars p * mapFontWidth
    ∧ (drawPlaneText mapFontWidth mapFontHeight metric v p).plane.h
        = (if 0 < p.flight.length then 1 else 0) * mapFontHeight := by
  have h1' : ¬ p.pressure * (v.screen_width : ℚ) < 1 / 2 * 2 := by
    rw [not_lt]; linarith
  by_cases hf : 0 < p.flight.length
  · have hfc : 1 < flightChars p := by unfold flightChars; omega
    simp only [drawPlaneText, h1', h2, hf, hfc, decide_True, decide_False, Bool.true_and,
      Bool.false_and, if_true, if_false, gt_iff_lt, Bool.and_self, Bool.false_eq_true]
    exact ⟨trivial, trivial, trivial⟩
  · have hfc : ¬ 1 < flightChars p := by unfold flightChars; omega
    simp only [drawPlaneText, h1', h2, hf, hfc, decide_True, decide_False, Bool.true_and,
      Bool.false_and, Bool.and_false, if_true, if_false, gt_iff_lt, Bool.and_self,
      Bool.false_eq_true]
    exact ⟨trivial, trivial, trivial⟩

theorem drawPlaneText_high (mapFontWidth mapFontHeight : ℤ) (metric : Bool) (v : View)
    (p : Aircraft) (h2 : 2 ≤ p.pressure * (v.screen_width : ℚ)) :
    (drawPlaneText mapFontWidth mapFontHeight metric v p).texts = []
    ∧ (drawPlaneText mapFontWidth mapFontHeight metric v p).plane.w = 0
    ∧ (drawPlaneText mapFontWidth mapFontHeight metric v p).plane.h = 0 := by
  have h1' : ¬ p.pressure * (v.screen_width : ℚ) < 1 / 2 * 2 := by
    rw [not_lt]; linarith
  have h2' : ¬ p.pressure * (v.screen_width : ℚ) < 2 := not_lt.mpr h2
  simp only [drawPlaneText, h1', h2', decide_False, Bool.false_and, if_false,
    Bool.false_eq_true, zero_mul]
  exact ⟨trivial, trivial, trivial⟩

theorem drawPlaneText_shows (mapFontWidth mapFontHeight : ℤ) (metric : Bool) (v : View)
    (p : Aircraft) :
    ((drawPlaneText mapFontWidth mapFontHeight metric v p).shows LabelLine.speed
        ↔ p.pressure * (v.screen_width : ℚ) < 1)
    ∧ ((drawPlaneText mapFontWidth mapFontHeight metric v p).shows LabelLine.altitude
        ↔ p.pressure * (v.screen_width : ℚ) < 1)
    ∧ ((drawPlaneText mapFontWidth mapFontHeight metric v p).shows LabelLine.flight
        ↔ (p.pressure * (v.screen_width : ℚ) < 2 ∧ 0 < p.flight.length)) := by
  rcases lt_or_le (p.pressure * (v.screen_width : ℚ)) 1 with h1 | h1
  · have h2 : p.pressure * (v.screen_width : ℚ) < 2 := by linarith
    obtain ⟨ht, _, _⟩ := drawPlaneText_low mapFontWidth mapFontHeight metric v p h1
    by_cases hf : 0 < p.flight.length
    · simp [PlaneText.shows, ht, hf, h1, h2]
    · simp [PlaneText.shows, ht, hf, h1, h2]
  · rcases lt_or_le (p.pressure * (v.screen_width : ℚ)) 2 with h2 | h2
    · obtain ⟨ht, _, _⟩ := drawPlaneText_mid mapFontWidth mapFontHeight metric v p h1 h2
      by_cases hf : 0 < p.flight.length
      · simp [PlaneText.shows, ht, hf, not_lt.mpr h1, h2]
      · simp [PlaneText.shows, ht, hf, not_lt.mpr h1, h2]
    · obtain ⟨ht, _, _⟩ := drawPlaneText_high mapFontWidth mapFontHeight metric v p h2
      simp [PlaneText.shows, ht, not_lt.mpr h1, not_lt.mpr h2]

/-- C19 counterexample. No font size, unit setting, view or aircraft makes
`drawPlaneText` draw the altitude line without the speed line: the two lines
share one test, `pressure * screen_width < 1`, so there is no pressure range
that shows identifier and altitude without speed. -/
theorem C19_no_altitude_without_speed :
    ¬ ∃ (mapFontWidth mapFontHeight : ℤ) (metric : Bool) (v : View) (p : Aircraft),
        (drawPlaneText mapFontWidth mapFontHeight metric v p).shows LabelLine.altitude
        ∧ ¬ (drawPlaneText mapFontWidth mapFontHeight metric v p).shows LabelLine.speed := by
  rintro ⟨fw, fh, metric, v, p, ha, hs⟩
  obtain ⟨h1, h2, _⟩ := drawPlaneText_shows fw fh metric v p
  exact hs (h1.mpr (h2.mp ha))

/-- C19 (amended). Label detail degrades in two steps as `pressure * screen_width`
rises: below 1 the altitude and the speed line are both drawn, from 1 on
neither is; the identifier line is drawn exactly when the value is below 2 and
the identifier is non-empty. So speed and altitude are drawn together, whenever
altitude is drawn a non-empty identifier is drawn, and between 1 and 2 the
identifier is shown alone. The recorded height is
`h = (number of drawn lines) * mapFontHeight`, and when a line is drawn the
recorded width is `w = (largest character count of a drawn line) * mapFontWidth`. -/
theorem C19_label_detail_two_steps (mapFontWidth mapFontHeight : ℤ) (metric : Bool) (v : View)
    (p : Aircraft) :
    ((drawPlaneText mapFontWidth mapFontHeight metric v p).shows LabelLine.speed
        ↔ p.pressure * (v.screen_width : ℚ) < 1)
    ∧ ((drawPlaneText mapFontWidth mapFontHeight metric v p).shows LabelLine.altitude
        ↔ p.pressure * (v.screen_width : ℚ) < 1)
    ∧ ((drawPlaneText mapFontWidth mapFontHeight metric v p).shows LabelLine.flight
        ↔ (p.pressure * (v.screen_width : ℚ) < 2 ∧ 0 < p.flight.length))
    ∧ (1 ≤ p.pressure * (v.screen_width : ℚ) → p.pressure * (v.screen_width : ℚ) < 2 →
        0 < p.flight.length →
        (drawPlaneText mapFontWidth mapFontHeight metric v p).texts
          = [{ line := LabelLine.flight, x := p.x, y := p.y, chars := flightChars p }])
    ∧ (drawPlaneText mapFontWidth mapFontHeight metric v p).plane.h
        = ((drawPlaneText mapFontWidth mapFontHeight metric v p).texts.length : ℤ)
            * mapFontHeight
    ∧ ((drawPlaneText mapFontWidth mapFontHeight metric v p).texts ≠ [] →
        (drawPlaneText mapFontWidth mapFontHeight metric v p).plane.w
          = (drawPlaneText mapFontWidth mapFontHeight metric v p).longest * mapFontWidth) := by
  obtain ⟨s1, s2, s3⟩ := drawPlaneText_shows mapFontWidth mapFontHeight metric v p
  refine ⟨s1, s2, s3, ?_, ?_, ?_⟩
  · intro h1 h2 hf
    rw [(drawPlaneText_mid mapFontWidth mapFontHeight metric v p h1 h2).1, if_pos hf]
  · rcases lt_or_le (p.pressure * (v.screen_width : ℚ)) 1 with h1 | h1
    · obtain ⟨ht, _, hh⟩ := drawPlaneText_low mapFontWidth mapFontHeight metric v p h1
      rw [ht, hh]
      split_ifs <;> simp
    · rcases lt_or_le (p.pressure * (v.screen_width : ℚ)) 2 with h2 | h2
      · obtain ⟨ht, _, hh⟩ := drawPlaneText_mid mapFontWidth mapFontHeight metric v p h1 h2
        rw [ht, hh]
        split_ifs <;> simp
      · obtain ⟨ht, _, hh⟩ := drawPlaneText_high mapFontWidth mapFontHeight metric v p h2
        rw [ht, hh]
        simp
  · have ha := one_lt_altChars metric p
    have hs := one_lt_speedChars metric p
    rcases lt_or_le (p.pressure * (v.screen_width : ℚ)) 1 with h1 | h1
    · obtain ⟨ht, hw, _⟩ := drawPlaneText_low mapFontWidth mapFontHeight metric v p h1
      intro _
      rw [hw, PlaneText.longest, ht]
      congr 1
      by_cases hf : 0 < p.flight.length
      · have hfc : 1 < flightChars p := by unfold flightChars; omega
        simp only [if_pos hf, List.map_cons, List.map_nil, List.foldr_cons, List.foldr_nil]
        rw [max_eq_left (by omega : (0 : ℤ) ≤ speedChars metric p), max_assoc]
      · have hfc : flightChars p = 1 := by unfold flightChars; omega
        simp only [if_neg hf, List.map_cons, List.map_nil, List.foldr_cons, List.foldr_nil]
        rw [max_eq_left (by omega : (0 : ℤ) ≤ speedChars metric p), hfc,
          max_eq_right (by omega : (1 : ℤ) ≤ altChars metric p)]
    · rcases lt_or_le (p.pressure * (v.screen_width : ℚ)) 2 with h2 | h2
      · obtain ⟨ht, hw, _⟩ := drawPlaneText_mid mapFontWidth mapFontHeight metric v p h1 h2
        intro hne
        rw [hw, PlaneText.longest, ht]
        by_cases hf : 0 < p.flight.length
        · have hfc : 1 < flightChars p := by unfold flightChars; omega
          simp only [if_pos hf, List.map_cons, List.map_nil, List.foldr_cons, List.foldr_nil]
          rw [max_eq_left (by omega : (0 : ℤ) ≤ flightChars p)]
        · rw [ht, if_neg hf] at hne
          exact absurd rfl hne
      · obtain ⟨ht, _, _⟩ := drawPlaneText_high mapFontWidth mapFontHeight metric v p h2
        intro hne
        exact absurd ht hne

/-! ### Off-screen indicator -/

theorem anchor_pull {c o t d : ℚ} (hd : 0 < d) (hdc : d < c) (ho : |o| ≤ c) (ht : |t| ≤ 1)
    (hsign : (0 ≤ o ∧ 0 ≤ t) ∨ (o ≤ 0 ∧ t ≤ 0)) (hstrict : o = c → 0 < t) :
    0 ≤ c + o - d * t ∧ c + o - d * t < 2 * c := by
  obtain ⟨ho1, ho2⟩ := abs_le.mp ho
  obtain ⟨ht1, ht2⟩ := abs_le.mp ht
  rcases hsign with ⟨h1, h2⟩ | ⟨h1, h2⟩
  · have hdt : d * t ≤ d := by nlinarith
    have hdt0 : 0 ≤ d * t := by positivity
    constructor
    · linarith
    · rcases lt_or_eq_of_le ho2 with h | h
      · linarith
      · have h3 := hstrict h
        have h4 : 0 < d * t := by positivity
        linarith
  · have hdt : -d ≤ d * t := by nlinarith
    have hdt0 : d * t ≤ 0 := by nlinarith
    constructor <;> linarith

theorem toInt_range {q : ℚ} {n : ℤ} (h0 : 0 ≤ q) (h1 : q < (n : ℚ)) :
    0 ≤ toInt q ∧ toInt q < n := by
  rw [toInt, if_pos h0]
  exact ⟨Int.floor_nonneg.mpr h0, Int.floor_lt.mpr h1⟩

theorem unit_component {X m : ℚ} (hm : 0 < m) (h : |X| ≤ m) :
    |X / m| ≤ 1 ∧ (0 ≤ X → 0 ≤ X / m) ∧ (X ≤ 0 → X / m ≤ 0) ∧ (0 < X → 0 < X / m) := by
  refine ⟨?_, fun h0 => div_nonneg h0 hm.le, fun h0 => div_nonpos_of_nonpos_of_nonneg h0 hm.le,
    fun h0 => div_pos h0 hm⟩
  rw [abs_div, abs_of_pos hm, div_le_one hm]
  exact h

theorem side_offset {A B X Y : ℚ} (hA : 0 < A) (hB : 0 < B) (hX : X ≠ 0)
    (h : |X| > |Y| * A / B) :
    |A * (if X > 0 then 1 else -1) * Y / X| < B
    ∧ (0 ≤ Y → 0 ≤ A * (if X > 0 then 1 else -1) * Y / X)
    ∧ (Y ≤ 0 → A * (if X > 0 then 1 else -1) * Y / X ≤ 0) := by
  have hXa : 0 < |X| := abs_pos.mpr hX
  have ho : A * (if X > 0 then 1 else -1) * Y / X = A * Y / |X| := by
    rcases lt_or_gt_of_ne hX with hneg | hpos
    · rw [if_neg (not_lt.mpr hneg.le), abs_of_neg hneg, div_neg]
      ring
    · rw [if_pos hpos, abs_of_pos hpos]
      ring
  rw [ho]
  refine ⟨?_, fun h0 => div_nonneg (mul_nonneg hA.le h0) hXa.le,
    fun h0 => div_nonpos_of_nonpos_of_nonneg (mul_nonpos_of_nonneg_of_nonpos hA.le h0) hXa.le⟩
  rw [abs_div, abs_abs, abs_mul, abs_of_pos hA, div_lt_iff₀ hXa]
  rw [gt_iff_lt, div_lt_iff₀ hB] at h
  linarith

theorem updown_offset {A B X Y : ℚ} (hB : 0 < B) (hY : Y ≠ 0)
    (h : ¬ |X| > |Y| * A / B) :
    |2 * B * (if Y > 0 then 1 - 1 / 2 else -(1 / 2)) * X / Y| ≤ A
    ∧ (0 ≤ X → 0 ≤ 2 * B * (if Y > 0 then 1 - 1 / 2 else -(1 / 2)) * X / Y)
    ∧ (X ≤ 0 → 2 * B * (if Y > 0 then 1 - 1 / 2 else -(1 / 2)) * X / Y ≤ 0) := by
  have hYa : 0 < |Y| := abs_pos.mpr hY
  have ho : 2 * B * (if Y > 0 then 1 - 1 / 2 else -(1 / 2)) * X / Y = B * X / |Y| := by
    rcases lt_or_gt_of_ne hY with hneg | hpos
    · rw [if_neg (not_lt.mpr hneg.le), abs_of_neg hneg, div_neg]
      ring
    · rw [if_pos hpos, abs_of_pos hpos]
      ring
  rw [ho]
  refine ⟨?_, fun h0 => div_nonneg (mul_nonneg hB.le h0) hYa.le,
    fun h0 => div_nonpos_of_nonpos_of_nonneg (mul_nonpos_of_nonneg_of_nonpos hB.le h0) hYa.le⟩
  rw [abs_div, abs_abs, abs_mul, abs_of_pos hB, div_le_iff₀ hYa]
  rw [gt_iff_lt, not_lt, le_div_iff₀ hB] at h
  linarith

theorem offMap_even (CENTEROFFSET : ℚ) (v : View) (x y a b : ℤ) (hCO : CENTEROFFSET = 1 / 2)
    (hw : v.screen_width = 2 * a) (hh : v.screen_height = 2 * b) :
    ((v.screen_width >>> (1 : ℕ) : ℤ) : ℚ) = (a : ℚ)
    ∧ (v.screen_height : ℚ) * CENTEROFFSET = (b : ℚ)
    ∧ offMapInx v x = (x : ℚ) - (a : ℚ)
    ∧ offMapIny CENTEROFFSET v y = (y : ℚ) - (b : ℚ)
    ∧ (offMapSides CENTEROFFSET v x y
        ↔ |(x : ℚ) - (a : ℚ)| > |(y : ℚ) - (b : ℚ)| * (a : ℚ) / (b : ℚ)) := by
  have h1 : v.screen_width >>> (1 : ℕ) = a := by
    rw [shiftRight_one, hw]
    omega
  have h2 : v.screen_height >>> (1 : ℕ) = b := by
    rw [shiftRight_one, hh]
    omega
  have h3 : (v.screen_height : ℚ) * CENTEROFFSET = (b : ℚ) := by
    rw [hCO, hh]
    push_cast
    ring
  have h4 : offMapInx v x = (x : ℚ) - (a : ℚ) := by
    rw [offMapInx, h1]
    push_cast
    ring
  have h5 : offMapIny CENTEROFFSET v y = (y : ℚ) - (b : ℚ) := by
    rw [offMapIny, h3]
  refine ⟨by rw [h1], h3, h4, h5, ?_⟩
  rw [offMapSides, h4, h1, h2, h3]
  push_cast
  exact Iff.rfl

/-- C14 (amended). With `CENTEROFFSET = 0.5`, a screen of even width and height
that both exceed `24 * screen_uiscale`, `screen_uiscale >= 1`, and a square
root that returns at least `|inx|` and `|iny|` for `inx * inx + iny * iny`: for
every pixel anchor `(x, y)` that `outOfBounds` reports as outside the viewport,
the edge point `((screen_width>>1) + outx, screen_height * CENTEROFFSET + outy)`
of `drawPlaneOffMap` lies on the border of the rectangle
`[0, screen_width] x [0, screen_height]`, and the anchor it returns is inside
the viewport (`outOfBounds` reports it as inside). -/
theorem C14_offMap_anchor_inside (CENTEROFFSET : ℚ) (sqrt : ℚ → ℚ) (screen_uiscale : ℤ) (v : View)
    (x y a b : ℤ) (hCO : CENTEROFFSET = 1 / 2)
    (hw : v.screen_width = 2 * a) (hh : v.screen_height = 2 * b)
    (hu : 0 < screen_uiscale) (ha : 12 * screen_uiscale < a) (hb : 12 * screen_uiscale < b)
    (hout : outOfBounds v x y = true)
    (hm : |offMapInx v x| ≤ offMapInmag CENTEROFFSET sqrt v x y
      ∧ |offMapIny CENTEROFFSET v y| ≤ offMapInmag CENTEROFFSET sqrt v x y) :
    onBorder v.screen_width v.screen_height
        (drawPlaneOffMap CENTEROFFSET sqrt screen_uiscale v x y).edgeX
        (drawPlaneOffMap CENTEROFFSET sqrt screen_uiscale v x y).edgeY
    ∧ outOfBounds v (drawPlaneOffMap CENTEROFFSET sqrt screen_uiscale v x y).returnx
        (drawPlaneOffMap CENTEROFFSET sqrt screen_uiscale v x y).returny = false := by
  obtain ⟨e1, e2, e3, e4, e5⟩ := offMap_even CENTEROFFSET v x y a b hCO hw hh
  obtain ⟨hm1, hm2⟩ := hm
  -- the sizes
  have hA : (0 : ℚ) < (a : ℚ) := by exact_mod_cast (by omega : 0 < a)
  have hB : (0 : ℚ) < (b : ℚ) := by exact_mod_cast (by omega : 0 < b)
  have hd : (0 : ℚ) < 2 * (6 * (screen_uiscale : ℚ)) := by
    have : (0 : ℚ) < (screen_uiscale : ℚ) := by exact_mod_cast hu
    linarith
  have hdA : 2 * (6 * (screen_uiscale : ℚ)) < (a : ℚ) := by
    have : ((12 * screen_uiscale : ℤ) : ℚ) < (a : ℚ) := by exact_mod_cast ha
    push_cast at this
    linarith
  have hdB : 2 * (6 * (screen_uiscale : ℚ)) < (b : ℚ) := by
    have : ((12 * screen_uiscale : ℤ) : ℚ) < (b : ℚ) := by exact_mod_cast hb
    push_cast at this
    linarith
  have hW : ((v.screen_width : ℤ) : ℚ) = 2 * (a : ℚ) := by rw [hw]; push_cast; ring
  have hH : ((v.screen_height : ℤ) : ℚ) = 2 * (b : ℚ) := by rw [hh]; push_cast; ring
  -- the anchor is not the screen centre
  have hne : (x : ℚ) - (a : ℚ) ≠ 0 ∨ (y : ℚ) - (b : ℚ) ≠ 0 := by
    by_contra hcon
    rw [not_or, not_not, not_not] at hcon
    have hx : x = a := by
      have := hcon.1
      have h2 : (x : ℚ) = (a : ℚ) := by linarith
      exact_mod_cast h2
    have hy : y = b := by
      have := hcon.2
      have h2 : (y : ℚ) = (b : ℚ) := by linarith
      exact_mod_cast h2
    simp only [outOfBounds, outOfBoundsRect, decide_eq_true_eq, hw, hh, hx, hy] at hout
    omega
  rw [e3] at hm1
  rw [e4] at hm2
  have hmpos : 0 < offMapInmag CENTEROFFSET sqrt v x y := by
    rcases hne with h | h
    · exact lt_of_lt_of_le (abs_pos.mpr h) hm1
    · exact lt_of_lt_of_le (abs_pos.mpr h) hm2
  obtain ⟨tx1, tx2, tx3, tx4⟩ := unit_component hmpos hm1
  obtain ⟨ty1, ty2, ty3, ty4⟩ := unit_component hmpos hm2
  -- the fields
  have hex : (drawPlaneOffMap CENTEROFFSET sqrt screen_uiscale v x y).edgeX
      = (a : ℚ) + offMapOutx CENTEROFFSET v x y := by
    rw [← e1]; rfl
  have hey : (drawPlaneOffMap CENTEROFFSET sqrt screen_uiscale v x y).edgeY
      = (b : ℚ) + offMapOuty CENTEROFFSET v x y := by
    rw [← e2]; rfl
  have hrx : (drawPlaneOffMap CENTEROFFSET sqrt screen_uiscale v x y).returnx
      = toInt ((a : ℚ) + offMapOutx CENTEROFFSET v x y
          - 2 * (6 * (screen_uiscale : ℚ))
            * (((x : ℚ) - (a : ℚ)) / offMapInmag CENTEROFFSET sqrt v x y)) := by
    rw [← e3, ← e1]; rfl
  have hry : (drawPlaneOffMap CENTEROFFSET sqrt screen_uiscale v x y).returny
      = toInt ((b : ℚ) + offMapOuty CENTEROFFSET v x y
          - 2 * (6 * (screen_uiscale : ℚ))
            * (((y : ℚ) - (b : ℚ)) / offMapInmag CENTEROFFSET sqrt v x y)) := by
    rw [← e4, ← e2]; rfl
  -- it is enough to bound the edge offsets
  suffices hkey :
      (|offMapOutx CENTEROFFSET v x y| ≤ (a : ℚ) ∧ |offMapOuty CENTEROFFSET v x y| ≤ (b : ℚ))
      ∧ ((|offMapOutx CENTEROFFSET v x y| = (a : ℚ)) ∨ (|offMapOuty CENTEROFFSET v x y| = (b : ℚ)))
      ∧ ((0 ≤ offMapOutx CENTEROFFSET v x y ∧ 0 ≤ (x : ℚ) - (a : ℚ))
          ∨ (offMapOutx CENTEROFFSET v x y ≤ 0 ∧ (x : ℚ) - (a : ℚ) ≤ 0))
      ∧ ((0 ≤ offMapOuty CENTEROFFSET v x y ∧ 0 ≤ (y : ℚ) - (b : ℚ))
          ∨ (offMapOuty CENTEROFFSET v x y ≤ 0 ∧ (y : ℚ) - (b : ℚ) ≤ 0))
      ∧ (offMapOutx CENTEROFFSET v x y = (a : ℚ) → 0 < (x : ℚ) - (a : ℚ))
      ∧ (offMapOuty CENTEROFFSET v x y = (b : ℚ) → 0 < (y : ℚ) - (b : ℚ)) by
    obtain ⟨⟨bx, by'⟩, hedge, sx, sy, stx, sty⟩ := hkey
    have px := anchor_pull hd hdA bx tx1
      (sx.imp (fun h => ⟨h.1, tx2 h.2⟩) (fun h => ⟨h.1, tx3 h.2⟩)) (fun h => tx4 (stx h))
    have py := anchor_pull hd hdB by' ty1
      (sy.imp (fun h => ⟨h.1, ty2 h.2⟩) (fun h => ⟨h.1, ty3 h.2⟩)) (fun h => ty4 (sty h))
    constructor
    · rw [hex, hey, onBorder, hW, hH]
      obtain ⟨bx1, bx2⟩ := abs_le.mp bx
      obtain ⟨by1, by2⟩ := abs_le.mp by'
      rcases hedge with h | h
      · left
        refine ⟨?_, by linarith, by linarith⟩
        rcases abs_eq hA.le |>.mp h with h' | h'
        · right; rw [h']; ring
        · left; rw [h']; ring
      · right
        refine ⟨?_, by linarith, by linarith⟩
        rcases abs_eq hB.le |>.mp h with h' | h'
        · right; rw [h']; ring
        · left; rw [h']; ring
    · have rx := toInt_range (n := v.screen_width) px.1 (by rw [hW]; exact px.2)
      have ry := toInt_range (n := v.screen_height) py.1 (by rw [hH]; exact py.2)
      rw [← hrx] at rx
      rw [← hry] at ry
      simp only [outOfBounds, outOfBoundsRect, decide_eq_false_iff_not]
      omega
  -- the two branches of the test
  by_cases hs : offMapSides CENTEROFFSET v x y
  · have hs' := e5.mp hs
    have hX : (x : ℚ) - (a : ℚ) ≠ 0 := by
      intro h0
      rw [h0, abs_zero] at hs'
      have : 0 ≤ |(y : ℚ) - (b : ℚ)| * (a : ℚ) / (b : ℚ) := by positivity
      linarith
    have hox : offMapOutx CENTEROFFSET v x y
        = (a : ℚ) * (if (x : ℚ) - (a : ℚ) > 0 then 1 else -1) := by
      rw [offMapOutx, if_pos hs, e1, e3]
    have hoy : offMapOuty CENTEROFFSET v x y
        = (a : ℚ) * (if (x : ℚ) - (a : ℚ) > 0 then 1 else -1) * ((y : ℚ) - (b : ℚ))
            / ((x : ℚ) - (a : ℚ)) := by
      rw [offMapOuty, if_pos hs, hox, e3, e4]
    obtain ⟨s1, s2, s3⟩ := side_offset hA hB hX hs'
    rw [← hoy] at s1 s2 s3
    rcases lt_or_gt_of_ne hX with hneg | hpos
    · have hox' : offMapOutx CENTEROFFSET v x y = -(a : ℚ) := by
        rw [hox, if_neg (not_lt.mpr hneg.le)]; ring
      refine ⟨⟨by rw [hox', abs_neg, abs_of_pos hA], s1.le⟩, Or.inl (by rw [hox', abs_neg, abs_of_pos hA]),
        Or.inr ⟨by rw [hox']; linarith, hneg.le⟩, ?_, ?_, ?_⟩
      · rcases le_total 0 ((y : ℚ) - (b : ℚ)) with h | h
        · exact Or.inl ⟨s2 h, h⟩
        · exact Or.inr ⟨s3 h, h⟩
      · intro h; rw [hox'] at h; linarith
      · intro h; rw [h, abs_of_pos hB] at s1; exact absurd s1 (lt_irrefl _)
    · have hox' : offMapOutx CENTEROFFSET v x y = (a : ℚ) := by
        rw [hox, if_pos hpos]; ring
      refine ⟨⟨by rw [hox', abs_of_pos hA], s1.le⟩, Or.inl (by rw [hox', abs_of_pos hA]),
        Or.inl ⟨by rw [hox']; exact hA.le, hpos.le⟩, ?_, ?_, ?_⟩
      · rcases le_total 0 ((y : ℚ) - (b : ℚ)) with h | h
        · exact Or.inl ⟨s2 h, h⟩
        · exact Or.inr ⟨s3 h, h⟩
      · intro _; exact hpos
      · intro h; rw [h, abs_of_pos hB] at s1; exact absurd s1 (lt_irrefl _)
  · have hs' : ¬ |(x : ℚ) - (a : ℚ)| > |(y : ℚ) - (b : ℚ)| * (a : ℚ) / (b : ℚ) :=
      fun h => hs (e5.mpr h)
    have hY : (y : ℚ) - (b : ℚ) ≠ 0 := by
      intro h0
      rw [h0, abs_zero, zero_mul, zero_div, gt_iff_lt, not_lt] at hs'
      have hx0 : (x : ℚ) - (a : ℚ) = 0 := abs_eq_zero.mp (le_antisymm hs' (abs_nonneg _))
      rcases hne with h | h
      · exact h hx0
      · exact h h0
    have hoy : offMapOuty CENTEROFFSET v x y
        = 2 * (b : ℚ) * (if (y : ℚ) - (b : ℚ) > 0 then 1 - 1 / 2 else -(1 / 2)) := by
      rw [offMapOuty, if_neg hs, e4, hH, hCO]
    have hox : offMapOutx CENTEROFFSET v x y
        = 2 * (b : ℚ) * (if (y : ℚ) - (b : ℚ) > 0 then 1 - 1 / 2 else -(1 / 2))
            * ((x : ℚ) - (a : ℚ)) / ((y : ℚ) - (b : ℚ)) := by
      rw [offMapOutx, if_neg hs, e3, e4, hH, hCO]
    obtain ⟨s1, s2, s3⟩ := updown_offset (A := (a : ℚ)) hB hY hs'
    rw [← hox] at s1 s2 s3
    have sxs : (0 ≤ offMapOutx CENTEROFFSET v x y ∧ 0 ≤ (x : ℚ) - (a : ℚ))
        ∨ (offMapOutx CENTEROFFSET v x y ≤ 0 ∧ (x : ℚ) - (a : ℚ) ≤ 0) := by
      rcases le_total 0 ((x : ℚ) - (a : ℚ)) with h | h
      · exact Or.inl ⟨s2 h, h⟩
      · exact Or.inr ⟨s3 h, h⟩
    have stx : offMapOutx CENTEROFFSET v x y = (a : ℚ) → 0 < (x : ℚ) - (a : ℚ) := by
      intro h
      by_contra hn
      have := s3 (not_lt.mp hn)
      linarith
    rcases lt_or_gt_of_ne hY with hneg | hpos
    · have hoy' : offMapOuty CENTEROFFSET v x y = -(b : ℚ) := by
        rw [hoy, if_neg (not_lt.mpr hneg.le)]; ring
      refine ⟨⟨s1, by rw [hoy', abs_neg, abs_of_pos hB]⟩,
        Or.inr (by rw [hoy', abs_neg, abs_of_pos hB]), sxs,
        Or.inr ⟨by rw [hoy']; linarith, hneg.le⟩, stx, ?_⟩
      intro h; rw [hoy'] at h; linarith
    · have hoy' : offMapOuty CENTEROFFSET v x y = (b : ℚ) := by
        rw [hoy, if_pos hpos]; ring
      refine ⟨⟨s1, by rw [hoy', abs_of_pos hB]⟩, Or.inr (by rw [hoy', abs_of_pos hB]), sxs,
        Or.inl ⟨by rw [hoy']; exact hB.le, hpos.le⟩, stx, fun _ => hpos⟩

/-- C14 counterexample. On a 10x10 screen (`CENTEROFFSET = 0.5`,
`screen_uiscale = 1`) the pixel (15, 5) is outside the viewport, and with
`sqrt(100) = 10` the anchor that `drawPlaneOffMap` returns for it is (-2, 5),
outside the viewport as well. -/
theorem C14_tiny_screen_anchor_outside :
    (0 < tinyView.screen_width ∧ 0 < tinyView.screen_height
      ∧ outOfBounds tinyView 15 5 = true)
    ∧ ∀ sqrt : ℚ → ℚ, sqrt 100 = 10 →
        (drawPlaneOffMap (1 / 2) sqrt 1 tinyView 15 5).returnx = -2
        ∧ (drawPlaneOffMap (1 / 2) sqrt 1 tinyView 15 5).returny = 5
        ∧ outOfBounds tinyView (-2) 5 = true := by
  refine ⟨⟨by decide, by decide, by decide⟩, fun sqrt hsq => ?_⟩
  have hinx : offMapInx tinyView 15 = 10 := by
    simp only [offMapInx, shiftRight_one, tinyView, view800]
    norm_num
  have hiny : offMapIny (1 / 2) tinyView 5 = 0 := by
    simp only [offMapIny, tinyView, view800]
    norm_num
  have hmag : offMapInmag (1 / 2) sqrt tinyView 15 5 = 10 := by
    rw [offMapInmag, hinx, hiny]
    norm_num [hsq]
  have hside : offMapSides (1 / 2) tinyView 15 5 := by
    rw [offMapSides, hinx]
    simp only [shiftRight_one, tinyView, view800]
    norm_num
  have hox : offMapOutx (1 / 2) tinyView 15 5 = 5 := by
    rw [offMapOutx, if_pos hside, hinx]
    simp only [shiftRight_one, tinyView, view800]
    norm_num
  have hoy : offMapOuty (1 / 2) tinyView 15 5 = 0 := by
    rw [offMapOuty, if_pos hside, hiny]
    simp
  have hc : ((tinyView.screen_width >>> (1 : ℕ) : ℤ) : ℚ) = 5 := by
    simp only [shiftRight_one, tinyView, view800]
    norm_num
  have hh : (tinyView.screen_height : ℚ) * (1 / 2) = 5 := by
    simp only [tinyView, view800]
    norm_num
  refine ⟨?_, ?_, by decide⟩
  · show toInt (((tinyView.screen_width >>> (1 : ℕ) : ℤ) : ℚ) + offMapOutx (1 / 2) tinyView 15 5
        - 2 * (6 * ((1 : ℤ) : ℚ)) * (offMapInx tinyView 15 / offMapInmag (1 / 2) sqrt tinyView 15 5))
      = -2
    rw [hc, hox, hinx, hmag]
    norm_num [toInt]
    exact_mod_cast Int.ceil_intCast (-2 : ℤ)
  · show toInt ((tinyView.screen_height : ℚ) * (1 / 2) + offMapOuty (1 / 2) tinyView 15 5
        - 2 * (6 * ((1 : ℤ) : ℚ))
          * (offMapIny (1 / 2) tinyView 5 / offMapInmag (1 / 2) sqrt tinyView 15 5))
      = 5
    rw [hh, hoy, hiny, hmag]
    norm_num [toInt]

/-- C14 (amended) on the 800x600 screen for the pixel (1000, 300), straight to
the right of the screen, with a square root that returns 600. -/
theorem C14_offMap_anchor_inside_witness :
    (outOfBounds view800 1000 300 = true
      ∧ |offMapInx view800 1000| ≤ offMapInmag (1 / 2) (fun _ => 600) view800 1000 300
      ∧ |offMapIny (1 / 2) view800 300| ≤ offMapInmag (1 / 2) (fun _ => 600) view800 1000 300)
    ∧ onBorder view800.screen_width view800.screen_height
        (drawPlaneOffMap (1 / 2) (fun _ => 600) 1 view800 1000 300).edgeX
        (drawPlaneOffMap (1 / 2) (fun _ => 600) 1 view800 1000 300).edgeY
    ∧ outOfBounds view800
        (drawPlaneOffMap (1 / 2) (fun _ => 600) 1 view800 1000 300).returnx
        (drawPlaneOffMap (1 / 2) (fun _ => 600) 1 view800 1000 300).returny = false :=
  have h1 : outOfBounds view800 1000 300 = true := by decide
  have h2 : |offMapInx view800 1000| ≤ offMapInmag (1 / 2) (fun _ => 600) view800 1000 300 := by
    simp only [offMapInx, offMapInmag, shiftRight_one, view800]
    norm_num
  have h3 : |offMapIny (1 / 2) view800 300|
      ≤ offMapInmag (1 / 2) (fun _ => 600) view800 1000 300 := by
    simp only [offMapIny, offMapInmag, view800]
    norm_num
  ⟨⟨h1, h2, h3⟩,
    C14_offMap_anchor_inside (1 / 2) (fun _ => 600) 1 view800 1000 300 400 300 rfl rfl rfl
      (by decide) (by decide) (by decide) h1 ⟨h2, h3⟩⟩

/-- C19 (amended) at the aircraft `crowdedPlane` on the 800-wide screen, where
`pressure * screen_width = 1.5`: the identifier is shown alone. -/
theorem C19_label_detail_two_steps_witness :
    (1 ≤ crowdedPlane.pressure * (view800.screen_width : ℚ)
      ∧ crowdedPlane.pressure * (view800.screen_width : ℚ) < 2
      ∧ 0 < crowdedPlane.flight.length)
    ∧ (drawPlaneText 5 12 false view800 crowdedPlane).texts
        = [{ line := LabelLine.flight, x := crowdedPlane.x, y := crowdedPlane.y,
             chars := flightChars crowdedPlane }] :=
  have h1 : 1 ≤ crowdedPlane.pressure * (view800.screen_width : ℚ) := by
    norm_num [crowdedPlane, textPlane, northPlane, view800]
  have h2 : crowdedPlane.pressure * (view800.screen_width : ℚ) < 2 := by
    norm_num [crowdedPlane, textPlane, northPlane, view800]
  have h3 : 0 < crowdedPlane.flight.length := by decide
  ⟨⟨h1, h2, h3⟩, (C19_label_detail_two_steps 5 12 false view800 crowdedPlane).2.2.2.1 h1 h2 h3⟩

/-! ### Label forces -/

theorem range_one : List.range 1 = [0] := rfl

theorem range_two : List.range 2 = [0, 1] := rfl

theorem cround_zero : cround 0 = 0 := by
  unfold cround
  rw [if_pos (le_refl _)]
  exact Int.floor_eq_iff.mpr ⟨by norm_num, by norm_num⟩

/-- C21, failing input. `leftLabel` and `rightLabel` have distinct addresses and
the left edge of the padded rectangle of `rightLabel` (415) lies strictly
inside the padded rectangle of `leftLabel` (390 to 450). In the list order
`leftLabel`, `rightLabel` the turn of `leftLabel` gives `rightLabel` the
acceleration `-label_force * (415 - 450) = 7/20`, and the turn of `rightLabel`
then resets it: after the force loop the acceleration of `rightLabel` is 0 and
the update leaves its velocity 0. In the opposite list order it is the push on
`leftLabel` that is lost. -/
theorem C21_push_on_later_aircraft_lost :
    (rightLabel.addr ≠ leftLabel.addr
      ∧ leftLabel.x - 10 * 1 < rightLabel.x - 5 * 1
      ∧ rightLabel.x - 5 * 1 < leftLabel.x + leftLabel.w + 10 * 1)
    ∧ ∀ sqrt : ℚ → ℚ,
        labelTurn sqrt 1 view800 [leftLabel, rightLabel] 0
          = [{ leftLabel with pressure := 1 / 400 }, { rightLabel with ddox := 7 / 20 }]
        ∧ labelForces sqrt 1 view800 [leftLabel, rightLabel]
          = [{ leftLabel with pressure := 1 / 400, ddox := -(7 / 20) },
             { rightLabel with pressure := 1 / 400, ddox := 0 }]
        ∧ labelForces sqrt 1 view800 [rightLabel, leftLabel]
          = [{ rightLabel with pressure := 1 / 400, ddox := 7 / 20 },
             { leftLabel with pressure := 1 / 400, ddox := 0 }] := by
  refine ⟨⟨by decide, by decide, by decide⟩, fun sqrt => ⟨?_, ?_, ?_⟩⟩
  · simp [labelTurn, labelCheck, iconCheck, labelCollide, labelSpring, pressureTerm, Aircraft.addPressure,
      range_two, leftLabel, rightLabel, northPlane, view800]
    norm_num
  · simp [labelForces, labelTurn, labelCheck, iconCheck, labelCollide, labelSpring,
      pressureTerm, Aircraft.addPressure, range_two, leftLabel, rightLabel, northPlane, view800]
    norm_num
  · simp [labelForces, labelTurn, labelCheck, iconCheck, labelCollide, labelSpring,
      pressureTerm, Aircraft.addPressure, range_two, leftLabel, rightLabel, northPlane, view800]
    norm_num

theorem dead_zone {u : ℚ} (h : |u| < 1) :
    (if |(if |u| > 10 then sign u * 10 else u)| < 1 then 0
      else (if |u| > 10 then sign u * 10 else u)) = 0 := by
  rw [if_neg (not_lt.mpr (le_trans h.le (by norm_num))), if_pos h]

theorem labelUpdate_still (p : Aircraft) (hx : |(p.dox + p.ddox) * (95 / 100)| < 1)
    (hy : |(p.doy + p.ddoy) * (95 / 100)| < 1) :
    labelUpdate p
      = { p with dox := 0, doy := 0, ox := p.ox, oy := p.oy,
                 x := p.cx + cround p.ox, y := p.cy + cround p.oy } := by
  simp only [labelUpdate, dead_zone hx, dead_zone hy, add_zero]

theorem settled_forces (sqrt : ℚ → ℚ) (a b : ℚ) :
    labelForces sqrt 1 view800
        [{ leftLabel with pressure := a, ddox := b }, { rightLabel with pressure := a }]
      = [{ leftLabel with pressure := 1 / 400, ddox := -(7 / 20) },
         { rightLabel with pressure := 1 / 400 }] := by
  simp [labelForces, labelTurn, labelCheck, iconCheck, labelCollide, labelSpring, pressureTerm, Aircraft.addPressure,
    range_two, leftLabel, rightLabel, northPlane, view800]
  norm_num

theorem settled_pair (sqrt : ℚ → ℚ) (a b : ℚ) :
    resolveLabelConflicts sqrt 1 view800
        [{ leftLabel with pressure := a, ddox := b }, { rightLabel with pressure := a }]
      = [{ leftLabel with pressure := 1 / 400, ddox := -(7 / 20) },
         { rightLabel with pressure := 1 / 400 }] := by
  have h1 : labelUpdate { leftLabel with pressure := 1 / 400, ddox := -(7 / 20) }
      = { leftLabel with pressure := 1 / 400, ddox := -(7 / 20) } := by
    rw [labelUpdate_still _ (by norm_num [leftLabel, northPlane, abs_lt])
      (by norm_num [leftLabel, northPlane])]
    simp [leftLabel, northPlane, cround_zero]
  have h2 : labelUpdate { rightLabel with pressure := 1 / 400 }
      = { rightLabel with pressure := 1 / 400 } := by
    rw [labelUpdate_still _ (by norm_num [rightLabel, northPlane])
      (by norm_num [rightLabel, northPlane])]
    simp [rightLabel, northPlane, cround_zero]
  rw [resolveLabelConflicts, settled_forces, labelUpdateAll, List.map_cons, List.map_cons,
    List.map_nil, h1, h2]

/-- C22 counterexample. `leftLabel` and `rightLabel` are 20 pixels apart and
their 40x20 label rectangles share an area of 400. The four passes of one
frame leave both rectangles where they are: every acceleration is below 1 in
magnitude, so the update sets every velocity to 0, and the shared area is 400
after the passes as before. -/
theorem C22_small_labels_stay_overlapped :
    overlapArea leftLabel rightLabel = 400
    ∧ ∀ sqrt : ℚ → ℚ,
        relaxLabels sqrt 1 view800 [leftLabel, rightLabel]
          = [{ leftLabel with pressure := 1 / 400, ddox := -(7 / 20) },
             { rightLabel with pressure := 1 / 400 }]
        ∧ overlapArea { leftLabel with pressure := 1 / 400, ddox := -(7 / 20) }
            { rightLabel with pressure := 1 / 400 } = 400 := by
  refine ⟨by decide, fun sqrt => ⟨?_, by decide⟩⟩
  have h0 := settled_pair sqrt 0 0
  have h1 := settled_pair sqrt (1 / 400) (-(7 / 20))
  have e0 : [leftLabel, rightLabel]
      = [{ leftLabel with pressure := 0, ddox := 0 }, { rightLabel with pressure := 0 }] := rfl
  unfold relaxLabels
  rw [e0, h0, h1, h1, h1]

theorem labelCollide_rest (f : ℚ) (s l r t b : ℤ) (c : Aircraft) :
    (labelCollide f s l r t b c).rest = c.rest := by
  unfold labelCollide
  simp only []
  split_ifs <;> rfl

theorem push_bounds (f : ℚ) (hf : 0 ≤ f) (l r e : ℤ) (h : e > l ∧ e < r) :
    (-(f * ((max 0 (r - l) : ℤ) : ℚ)) ≤ f * ((e - r : ℤ) : ℚ) ∧ f * ((e - r : ℤ) : ℚ) ≤ 0)
    ∧ (0 ≤ f * ((e - l : ℤ) : ℚ) ∧ f * ((e - l : ℤ) : ℚ) ≤ f * ((max 0 (r - l) : ℤ) : ℚ)) := by
  obtain ⟨h1, h2⟩ := h
  have hrl : max 0 (r - l) = r - l := max_eq_right (by omega)
  have a1 : ((l - r : ℤ) : ℚ) ≤ ((e - r : ℤ) : ℚ) := by exact_mod_cast (by omega : l - r ≤ e - r)
  have a2 : ((e - r : ℤ) : ℚ) ≤ 0 := by exact_mod_cast (by omega : e - r ≤ 0)
  have a3 : (0 : ℚ) ≤ ((e - l : ℤ) : ℚ) := by exact_mod_cast (by omega : 0 ≤ e - l)
  have a4 : ((e - l : ℤ) : ℚ) ≤ ((r - l : ℤ) : ℚ) := by exact_mod_cast (by omega : e - l ≤ r - l)
  have a5 : ((l - r : ℤ) : ℚ) = -((r - l : ℤ) : ℚ) := by push_cast; ring
  rw [hrl]
  refine ⟨⟨?_, ?_⟩, ?_, ?_⟩
  · rw [← mul_neg, ← a5]
    exact mul_le_mul_of_nonneg_left a1 hf
  · exact mul_nonpos_of_nonneg_of_nonpos hf a2
  · exact mul_nonneg hf a3
  · exact mul_le_mul_of_nonneg_left a4 hf

theorem labelCollide_ddox (f : ℚ) (hf : 0 ≤ f) (s l r t b : ℤ) (c : Aircraft) :
    |(labelCollide f s l r t b c).ddox - c.ddox| ≤ f * ((max 0 (r - l) : ℤ) : ℚ) := by
  have hm : (0 : ℚ) ≤ f * ((max 0 (r - l) : ℤ) : ℚ) :=
    mul_nonneg hf (by exact_mod_cast le_max_left 0 (r - l))
  have hA := push_bounds f hf l r (c.x - 5 * s)
  have hB := push_bounds f hf l r (c.x + c.w + 5 * s)
  unfold labelCollide
  simp only []
  rw [abs_le]
  split_ifs with h1 h2 h3 h4 h5 h6 <;> simp only [sub_self] <;>
    first
    | exact ⟨by linarith, hm⟩
    | (have a := (hA ‹_›).1
       have b := (hB ‹_›).2
       constructor <;> linarith [a.1, a.2, b.1, b.2])
    | (have a := (hA ‹_›).1
       constructor <;> linarith [a.1, a.2])
    | (have b := (hB ‹_›).2
       constructor <;> linarith [b.1, b.2])

theorem labelCollide_ddoy (f : ℚ) (hf : 0 ≤ f) (s l r t b : ℤ) (c : Aircraft) :
    |(labelCollide f s l r t b c).ddoy - c.ddoy| ≤ f * ((max 0 (b - t) : ℤ) : ℚ) := by
  have hm : (0 : ℚ) ≤ f * ((max 0 (b - t) : ℤ) : ℚ) :=
    mul_nonneg hf (by exact_mod_cast le_max_left 0 (b - t))
  have hA := push_bounds f hf t b (c.y - 5 * s)
  have hB := push_bounds f hf t b (c.y + c.h + 5 * s)
  unfold labelCollide
  simp only []
  rw [abs_le]
  split_ifs with h1 h2 h3 h4 h5 h6 <;> simp only [sub_self] <;>
    first
    | exact ⟨by linarith, hm⟩
    | (have a := (hA ‹_›).1
       have b := (hB ‹_›).2
       constructor <;> linarith [a.1, a.2, b.1, b.2])
    | (have a := (hA ‹_›).1
       constructor <;> linarith [a.1, a.2])
    | (have b := (hB ‹_›).2
       constructor <;> linarith [b.1, b.2])

theorem labelCollide_addr (f : ℚ) (s l r t b : ℤ) (c : Aircraft) :
    (labelCollide f s l r t b c).addr = c.addr := by
  have h := congrArg Aircraft.addr (labelCollide_rest f s l r t b c)
  exact h

theorem labelCollide_x (f : ℚ) (s l r t b : ℤ) (c : Aircraft) :
    (labelCollide f s l r t b c).x = c.x := by
  have h := congrArg Aircraft.x (labelCollide_rest f s l r t b c)
  exact h

theorem labelCollide_y (f : ℚ) (s l r t b : ℤ) (c : Aircraft) :
    (labelCollide f s l r t b c).y = c.y := by
  have h := congrArg Aircraft.y (labelCollide_rest f s l r t b c)
  exact h

theorem labelCollide_w (f : ℚ) (s l r t b : ℤ) (c : Aircraft) :
    (labelCollide f s l r t b c).w = c.w := by
  have h := congrArg Aircraft.w (labelCollide_rest f s l r t b c)
  exact h

theorem labelCollide_h (f : ℚ) (s l r t b : ℤ) (c : Aircraft) :
    (labelCollide f s l r t b c).h = c.h := by
  have h := congrArg Aircraft.h (labelCollide_rest f s l r t b c)
  exact h

theorem addPressure_addr (p : Aircraft) (q : ℚ) : (p.addPressure q).addr = p.addr := rfl

theorem addPressure_x (p : Aircraft) (q : ℚ) : (p.addPressure q).x = p.x := rfl

theorem addPressure_y (p : Aircraft) (q : ℚ) : (p.addPressure q).y = p.y := rfl

theorem addPressure_w (p : Aircraft) (q : ℚ) : (p.addPressure q).w = p.w := rfl

theorem addPressure_h (p : Aircraft) (q : ℚ) : (p.addPressure q).h = p.h := rfl

theorem labelSpring_x (sqrt : ℚ → ℚ) (s : ℤ) (v : View) (p : Aircraft) :
    (labelSpring sqrt s v p).x = p.x := rfl

theorem labelSpring_y (sqrt : ℚ → ℚ) (s : ℤ) (v : View) (p : Aircraft) :
    (labelSpring sqrt s v p).y = p.y := rfl

theorem labelSpring_w (sqrt : ℚ → ℚ) (s : ℤ) (v : View) (p : Aircraft) :
    (labelSpring sqrt s v p).w = p.w := rfl

theorem labelSpring_h (sqrt : ℚ → ℚ) (s : ℤ) (v : View) (p : Aircraft) :
    (labelSpring sqrt s v p).h = p.h := rfl

theorem labelSpring_addr (sqrt : ℚ → ℚ) (s : ℤ) (v : View) (p : Aircraft) :
    (labelSpring sqrt s v p).addr = p.addr := rfl

theorem addPressure_rest (p : Aircraft) (q : ℚ) : (p.addPressure q).rest = p.rest := rfl

theorem addPressure_ddox (p : Aircraft) (q : ℚ) : (p.addPressure q).ddox = p.ddox := rfl

theorem addPressure_ddoy (p : Aircraft) (q : ℚ) : (p.addPressure q).ddoy = p.ddoy := rfl

theorem labelForces_pair (sqrt : ℚ → ℚ) (s : ℤ) (v : View) (a b : Aircraft)
    (hab : a.addr ≠ b.addr) :
    labelForces sqrt s v [a, b] =
      [labelCollide (1 / 100) s (b.x - 5 * s) (b.x + 5 * s) (b.y - 5 * s) (b.y + 5 * s)
        (labelCollide (1 / 100) s (b.x - 10 * s) (b.x + b.w + 10 * s) (b.y - 10 * s)
          (b.y + b.h + 10 * s)
          (labelCollide (1 / 100) s (a.x - 5 * s) (a.x + 5 * s) (a.y - 5 * s) (a.y + 5 * s)
            ((labelSpring sqrt s v a).addPressure (pressureTerm (labelSpring sqrt s v a) b)))),
       labelCollide (1 / 100) s (b.x - 5 * s) (b.x + 5 * s) (b.y - 5 * s) (b.y + 5 * s)
        ((labelSpring sqrt s v
            (labelCollide (1 / 100) s (a.x - 5 * s) (a.x + 5 * s) (a.y - 5 * s) (a.y + 5 * s)
              (labelCollide (1 / 100) s (a.x - 10 * s) (a.x + a.w + 10 * s) (a.y - 10 * s)
                (a.y + a.h + 10 * s) b))).addPressure
          (pressureTerm
            (labelSpring sqrt s v
              (labelCollide (1 / 100) s (a.x - 5 * s) (a.x + 5 * s) (a.y - 5 * s) (a.y + 5 * s)
                (labelCollide (1 / 100) s (a.x - 10 * s) (a.x + a.w + 10 * s) (a.y - 10 * s)
                  (a.y + a.h + 10 * s) b)))
            (labelCollide (1 / 100) s (a.x - 5 * s) (a.x + 5 * s) (a.y - 5 * s) (a.y + 5 * s)
              ((labelSpring sqrt s v a).addPressure
                (pressureTerm (labelSpring sqrt s v a) b)))))] := by
  simp [labelForces, labelTurn, labelCheck, iconCheck, range_two, labelCollide_addr,
    labelCollide_x, labelCollide_y, labelCollide_w, labelCollide_h, labelSpring_addr, hab,
    addPressure_addr, addPressure_x, addPressure_y, addPressure_w, addPressure_h,
    labelSpring_x, labelSpring_y, labelSpring_w, labelSpring_h,
    Ne.symm hab]

theorem resting_congr {s : ℤ} {v : View} {p q : Aircraft} (h : p.rest = q.rest)
    (hq : q.resting s v) : p.resting s v := by
  have h1 : q.rest.resting s v := hq
  rw [← h] at h1
  exact h1

theorem labelSpring_resting (sqrt : ℚ → ℚ) {s : ℤ} {v : View} {p : Aircraft}
    (hp : p.resting s v) : labelSpring sqrt s v p = p.rest := by
  obtain ⟨h1, h2, -, -, -, -, -, -, -, -, m1, m2, m3, m4⟩ := hp
  unfold labelSpring
  simp only [h1, h2, zero_div, zero_mul, sub_zero, ite_self, if_neg (not_lt.mpr m1),
    if_neg (not_lt.mpr m2), if_neg (not_lt.mpr m3), if_neg (not_lt.mpr m4)]
  cases p
  simp_all [Aircraft.rest]

theorem still_eq (p : Aircraft) (h1 : p.dox = 0) (h2 : p.doy = 0)
    (h3 : p.cx + cround p.ox = p.x) (h4 : p.cy + cround p.oy = p.y) :
    ({ p with dox := 0, doy := 0, ox := p.ox, oy := p.oy,
              x := p.cx + cround p.ox, y := p.cy + cround p.oy } : Aircraft) = p := by
  rw [h3, h4]
  cases p
  simp_all

theorem labelUpdate_resting {s : ℤ} {v : View} {p q : Aircraft} (h : p.rest = q.rest)
    (hq : q.resting s v) (hx : |p.ddox| ≤ 105 / 100) (hy : |p.ddoy| ≤ 105 / 100) :
    labelUpdate p = p := by
  have hp := resting_congr h hq
  obtain ⟨h1, h2, h3, h4, h5, h6, -⟩ := hp
  have bx : |(p.dox + p.ddox) * (95 / 100)| < 1 := by
    rw [h3, zero_add, abs_mul, abs_of_pos (by norm_num : (0 : ℚ) < 95 / 100)]
    linarith
  have by_ : |(p.doy + p.ddoy) * (95 / 100)| < 1 := by
    rw [h4, zero_add, abs_mul, abs_of_pos (by norm_num : (0 : ℚ) < 95 / 100)]
    linarith
  rw [labelUpdate_still p bx by_]
  exact still_eq p h3 h4 (by rw [h1, cround_zero, h5]; ring) (by rw [h2, cround_zero, h6]; ring)

theorem icon_ddox (s : ℤ) (hs : 0 ≤ s) (px t b : ℤ) (c : Aircraft) :
    |(labelCollide (1 / 100) s (px - 5 * s) (px + 5 * s) t b c).ddox - c.ddox|
      ≤ (10 * (s : ℚ)) / 100 := by
  have h := labelCollide_ddox (1 / 100) (by norm_num) s (px - 5 * s) (px + 5 * s) t b c
  have e : max 0 (px + 5 * s - (px - 5 * s)) = 10 * s := by
    rw [max_eq_right (by omega)]; ring
  rw [e] at h
  push_cast at h
  linarith

theorem icon_ddoy (s : ℤ) (hs : 0 ≤ s) (py l r : ℤ) (c : Aircraft) :
    |(labelCollide (1 / 100) s l r (py - 5 * s) (py + 5 * s) c).ddoy - c.ddoy|
      ≤ (10 * (s : ℚ)) / 100 := by
  have h := labelCollide_ddoy (1 / 100) (by norm_num) s l r (py - 5 * s) (py + 5 * s) c
  have e : max 0 (py + 5 * s - (py - 5 * s)) = 10 * s := by
    rw [max_eq_right (by omega)]; ring
  rw [e] at h
  push_cast at h
  linarith

theorem label_ddox (s : ℤ) (hs : 0 ≤ s) (px w t b : ℤ) (hw : 0 ≤ w) (c : Aircraft) :
    |(labelCollide (1 / 100) s (px - 10 * s) (px + w + 10 * s) t b c).ddox - c.ddox|
      ≤ ((w : ℚ) + 20 * (s : ℚ)) / 100 := by
  have h := labelCollide_ddox (1 / 100) (by norm_num) s (px - 10 * s) (px + w + 10 * s) t b c
  have e : max 0 (px + w + 10 * s - (px - 10 * s)) = w + 20 * s := by
    rw [max_eq_right (by omega)]; ring
  rw [e] at h
  push_cast at h
  linarith

theorem label_ddoy (s : ℤ) (hs : 0 ≤ s) (py h' l r : ℤ) (hh : 0 ≤ h') (c : Aircraft) :
    |(labelCollide (1 / 100) s l r (py - 10 * s) (py + h' + 10 * s) c).ddoy - c.ddoy|
      ≤ ((h' : ℚ) + 20 * (s : ℚ)) / 100 := by
  have h := labelCollide_ddoy (1 / 100) (by norm_num) s l r (py - 10 * s) (py + h' + 10 * s) c
  have e : max 0 (py + h' + 10 * s - (py - 10 * s)) = h' + 20 * s := by
    rw [max_eq_right (by omega)]; ring
  rw [e] at h
  push_cast at h
  linarith

theorem resolve_resting_pair (sqrt : ℚ → ℚ) {s : ℤ} {v : View} {a b : Aircraft}
    (hs : 0 ≤ s) (hab : a.addr ≠ b.addr) (ha : a.resting s v) (hb : b.resting s v) :
    ∃ a' b', resolveLabelConflicts sqrt s v [a, b] = [a', b']
      ∧ a'.rest = a.rest ∧ b'.rest = b.rest := by
  have hbw : ((b.w : ℚ)) + 40 * (s : ℚ) ≤ 105 := by exact_mod_cast hb.2.2.2.2.2.2.2.2.1
  have hbh : ((b.h : ℚ)) + 40 * (s : ℚ) ≤ 105 := by exact_mod_cast hb.2.2.2.2.2.2.2.2.2.1
  have hbw0 : (0 : ℚ) ≤ (b.w : ℚ) := by exact_mod_cast hb.2.2.2.2.2.2.1
  have hbh0 : (0 : ℚ) ≤ (b.h : ℚ) := by exact_mod_cast hb.2.2.2.2.2.2.2.1
  have hsq : (0 : ℚ) ≤ (s : ℚ) := by exact_mod_cast hs
  rw [resolveLabelConflicts, labelForces_pair sqrt s v a b hab, labelUpdateAll, List.map_cons,
    List.map_cons, List.map_nil]
  -- the first aircraft
  have hSa := labelSpring_resting sqrt ha
  have hX0 : ((labelSpring sqrt s v a).addPressure (pressureTerm (labelSpring sqrt s v a) b)).rest
      = a.rest := by rw [addPressure_rest, hSa]; rfl
  have hX0x : ((labelSpring sqrt s v a).addPressure
      (pressureTerm (labelSpring sqrt s v a) b)).ddox = 0 := by
    rw [addPressure_ddox, hSa]; rfl
  have hX0y : ((labelSpring sqrt s v a).addPressure
      (pressureTerm (labelSpring sqrt s v a) b)).ddoy = 0 := by
    rw [addPressure_ddoy, hSa]; rfl
  generalize (labelSpring sqrt s v a).addPressure (pressureTerm (labelSpring sqrt s v a) b)
    = X0 at hX0 hX0x hX0y ⊢
  -- the second aircraft
  have hb1 : (labelCollide (1 / 100) s (a.x - 5 * s) (a.x + 5 * s) (a.y - 5 * s) (a.y + 5 * s)
      (labelCollide (1 / 100) s (a.x - 10 * s) (a.x + a.w + 10 * s) (a.y - 10 * s)
        (a.y + a.h + 10 * s) b)).rest = b.rest := by
    rw [labelCollide_rest, labelCollide_rest]
  generalize labelCollide (1 / 100) s (a.x - 5 * s) (a.x + 5 * s) (a.y - 5 * s) (a.y + 5 * s)
      (labelCollide (1 / 100) s (a.x - 10 * s) (a.x + a.w + 10 * s) (a.y - 10 * s)
        (a.y + a.h + 10 * s) b) = b1 at hb1 ⊢
  have hSb := labelSpring_resting sqrt (resting_congr hb1 hb)
  rw [hSb]
  generalize pressureTerm b1.rest _ = t1
  have hY0 : (b1.rest.addPressure t1).rest = b.rest := by rw [addPressure_rest, ← hb1]; rfl
  have hY0x : (b1.rest.addPressure t1).ddox = 0 := rfl
  have hY0y : (b1.rest.addPressure t1).ddoy = 0 := rfl
  generalize b1.rest.addPressure t1 = Y0 at hY0 hY0x hY0y ⊢
  -- bounds
  have a1x := icon_ddox s hs a.x (a.y - 5 * s) (a.y + 5 * s) X0
  have a1y := icon_ddoy s hs a.y (a.x - 5 * s) (a.x + 5 * s) X0
  have hX1 := labelCollide_rest (1 / 100) s (a.x - 5 * s) (a.x + 5 * s) (a.y - 5 * s)
    (a.y + 5 * s) X0
  generalize labelCollide (1 / 100) s (a.x - 5 * s) (a.x + 5 * s) (a.y - 5 * s)
    (a.y + 5 * s) X0 = X1 at a1x a1y hX1 ⊢
  have a2x := label_ddox s hs b.x b.w (b.y - 10 * s) (b.y + b.h + 10 * s) hb.2.2.2.2.2.2.1 X1
  have a2y := label_ddoy s hs b.y b.h (b.x - 10 * s) (b.x + b.w + 10 * s)
    hb.2.2.2.2.2.2.2.1 X1
  have hX2 := labelCollide_rest (1 / 100) s (b.x - 10 * s) (b.x + b.w + 10 * s) (b.y - 10 * s)
    (b.y + b.h + 10 * s) X1
  generalize labelCollide (1 / 100) s (b.x - 10 * s) (b.x + b.w + 10 * s) (b.y - 10 * s)
    (b.y + b.h + 10 * s) X1 = X2 at a2x a2y hX2 ⊢
  have a3x := icon_ddox s hs b.x (b.y - 5 * s) (b.y + 5 * s) X2
  have a3y := icon_ddoy s hs b.y (b.x - 5 * s) (b.x + 5 * s) X2
  have hX3 := labelCollide_rest (1 / 100) s (b.x - 5 * s) (b.x + 5 * s) (b.y - 5 * s)
    (b.y + 5 * s) X2
  have b1x := icon_ddox s hs b.x (b.y - 5 * s) (b.y + 5 * s) Y0
  have b1y := icon_ddoy s hs b.y (b.x - 5 * s) (b.x + 5 * s) Y0
  have hY1 := labelCollide_rest (1 / 100) s (b.x - 5 * s) (b.x + 5 * s) (b.y - 5 * s)
    (b.y + 5 * s) Y0
  generalize labelCollide (1 / 100) s (b.x - 5 * s) (b.x + 5 * s) (b.y - 5 * s)
    (b.y + 5 * s) X2 = X3 at a3x a3y hX3 ⊢
  generalize labelCollide (1 / 100) s (b.x - 5 * s) (b.x + 5 * s) (b.y - 5 * s)
    (b.y + 5 * s) Y0 = Y1 at b1x b1y hY1 ⊢
  have rA : X3.rest = a.rest := by rw [hX3, hX2, hX1, hX0]
  have rB : Y1.rest = b.rest := by rw [hY1, hY0]
  rw [abs_le] at a1x a1y a2x a2y a3x a3y b1x b1y
  have uA : labelUpdate X3 = X3 :=
    labelUpdate_resting rA ha (abs_le.mpr ⟨by linarith [a1x.1, a2x.1, a3x.1],
      by linarith [a1x.2, a2x.2, a3x.2]⟩)
      (abs_le.mpr ⟨by linarith [a1y.1, a2y.1, a3y.1], by linarith [a1y.2, a2y.2, a3y.2]⟩)
  have uB : labelUpdate Y1 = Y1 :=
    labelUpdate_resting rB hb (abs_le.mpr ⟨by linarith [b1x.1], by linarith [b1x.2]⟩)
      (abs_le.mpr ⟨by linarith [b1y.1], by linarith [b1y.2]⟩)
  exact ⟨X3, Y1, by rw [uA, uB], rA, rB⟩

theorem rest_addr {p q : Aircraft} (h : p.rest = q.rest) : p.addr = q.addr := by
  have e := congrArg Aircraft.addr h
  exact e

theorem rest_box {p q : Aircraft} (h : p.rest = q.rest) :
    p.x = q.x ∧ p.y = q.y ∧ p.w = q.w ∧ p.h = q.h := by
  have e1 := congrArg Aircraft.x h
  have e2 := congrArg Aircraft.y h
  have e3 := congrArg Aircraft.w h
  have e4 := congrArg Aircraft.h h
  exact ⟨e1, e2, e3, e4⟩

theorem overlapArea_congr {a b a' b' : Aircraft} (ha : a'.rest = a.rest)
    (hb : b'.rest = b.rest) : overlapArea a' b' = overlapArea a b := by
  have e1 : overlapArea a' b' = overlapArea a'.rest b'.rest := rfl
  have e2 : overlapArea a b = overlapArea a.rest b.rest := rfl
  rw [e1, e2, ha, hb]

/-- C22 (amended). For two aircraft with distinct addresses whose labels are at
rest on their icons (zero offset and velocity), clear of the four screen
margins and small (width and height at most `105 - 40 * screen_uiscale`), the
four passes of `resolveLabelConflicts` of one frame move neither label: both
label rectangles, and so the area they share, are after the passes what they
were before, whether the rectangles overlap or not. -/
theorem C22_small_labels_unmoved (sqrt : ℚ → ℚ) (screen_uiscale : ℤ) (v : View)
    (a b : Aircraft) (hs : 0 ≤ screen_uiscale) (hab : a.addr ≠ b.addr)
    (ha : a.resting screen_uiscale v) (hb : b.resting screen_uiscale v) :
    ∃ a' b', relaxLabels sqrt screen_uiscale v [a, b] = [a', b']
      ∧ (a'.x = a.x ∧ a'.y = a.y ∧ a'.w = a.w ∧ a'.h = a.h)
      ∧ (b'.x = b.x ∧ b'.y = b.y ∧ b'.w = b.w ∧ b'.h = b.h)
      ∧ overlapArea a' b' = overlapArea a b := by
  have step : ∀ c d : Aircraft, c.rest = a.rest → d.rest = b.rest →
      ∃ c' d', resolveLabelConflicts sqrt screen_uiscale v [c, d] = [c', d']
        ∧ c'.rest = a.rest ∧ d'.rest = b.rest := by
    intro c d hc hd
    have hcd : c.addr ≠ d.addr := by
      rw [rest_addr hc, rest_addr hd]; exact hab
    obtain ⟨c', d', h, h1, h2⟩ :=
      resolve_resting_pair sqrt hs hcd (resting_congr hc ha) (resting_congr hd hb)
    exact ⟨c', d', h, h1.trans hc, h2.trans hd⟩
  obtain ⟨a1, b1, e1, ra1, rb1⟩ := step a b rfl rfl
  obtain ⟨a2, b2, e2, ra2, rb2⟩ := step a1 b1 ra1 rb1
  obtain ⟨a3, b3, e3, ra3, rb3⟩ := step a2 b2 ra2 rb2
  obtain ⟨a4, b4, e4, ra4, rb4⟩ := step a3 b3 ra3 rb3
  exact ⟨a4, b4, by rw [relaxLabels, e1, e2, e3, e4], rest_box ra4, rest_box rb4,
    overlapArea_congr ra4 rb4⟩

/-- C22 (amended) at `leftLabel` and `rightLabel` on the 800x600 view: the area
of 400 that the two label rectangles share is still shared after the passes. -/
theorem C22_small_labels_unmoved_witness :
    ((0 : ℤ) ≤ 1 ∧ leftLabel.addr ≠ rightLabel.addr
      ∧ leftLabel.resting 1 view800 ∧ rightLabel.resting 1 view800)
    ∧ ∃ a' b', relaxLabels (fun _ => 0) 1 view800 [leftLabel, rightLabel] = [a', b']
        ∧ overlapArea a' b' = 400 :=
  have h1 : leftLabel.resting 1 view800 := by
    norm_num [Aircraft.resting, leftLabel, northPlane, view800]
  have h2 : rightLabel.resting 1 view800 := by
    norm_num [Aircraft.resting, rightLabel, northPlane, view800]
  have h3 : leftLabel.addr ≠ rightLabel.addr := by decide
  ⟨⟨by norm_num, h3, h1, h2⟩,
    (C22_small_labels_unmoved (fun _ => 0) 1 view800 leftLabel rightLabel (by norm_num) h3 h1
      h2).imp fun _ h => h.imp fun _ h' => ⟨h'.1, h'.2.2.2.trans (by decide)⟩⟩

/-! ### The spring on a single label -/

theorem self_collide (f : ℚ) (s : ℤ) (c : Aircraft) (hw : 0 ≤ c.w) (hh : 0 ≤ c.h) :
    labelCollide f s (c.x - 5 * s) (c.x + 5 * s) (c.y - 5 * s) (c.y + 5 * s) c = c := by
  unfold labelCollide
  simp only []
  have n1 : ¬ (c.x - 5 * s > c.x - 5 * s ∧ c.x - 5 * s < c.x + 5 * s) := fun h => by omega
  have n2 : ¬ (c.x + c.w + 5 * s > c.x - 5 * s ∧ c.x + c.w + 5 * s < c.x + 5 * s) :=
    fun h => by omega
  have n3 : ¬ (c.y - 5 * s > c.y - 5 * s ∧ c.y - 5 * s < c.y + 5 * s) := fun h => by omega
  have n4 : ¬ (c.y + c.h + 5 * s > c.y - 5 * s ∧ c.y + c.h + 5 * s < c.y + 5 * s) :=
    fun h => by omega
  rw [if_neg n1, if_neg n2, if_neg n3, if_neg n4]
  split_ifs <;> rfl

theorem labelForces_single (sqrt : ℚ → ℚ) (s : ℤ) (v : View) (p : Aircraft)
    (hw : 0 ≤ p.w) (hh : 0 ≤ p.h) :
    labelForces sqrt s v [p] = [labelSpring sqrt s v p] := by
  have h := self_collide (1 / 100) s (labelSpring sqrt s v p) hw hh
  rw [labelSpring_x, labelSpring_y] at h
  simp [labelForces, labelTurn, labelCheck, iconCheck, range_one, labelSpring_addr]
  simpa using h

theorem settle_scale (u : ℚ) :
    ∃ c : ℚ, 0 ≤ c ∧ c ≤ 1 ∧ settle u = c * u ∧ (|u| < 1 → c = 0) := by
  unfold settle
  by_cases h10 : |u| ≤ 10
  · have hc : max (-10) (min 10 u) = u := by
      obtain ⟨h1, h2⟩ := abs_le.mp h10
      rw [min_eq_right h2, max_eq_right h1]
    rw [hc]
    by_cases h1 : |u| < 1
    · exact ⟨0, le_refl _, by norm_num, by rw [if_pos h1, zero_mul], fun _ => rfl⟩
    · exact ⟨1, by norm_num, le_refl _, by rw [if_neg h1, one_mul], fun h => absurd h h1⟩
  · have h10' : 10 < |u| := not_le.mp h10
    have hpos : 0 < |u| := lt_trans (by norm_num) h10'
    refine ⟨10 / |u|, by positivity, by rw [div_le_one hpos]; exact h10'.le, ?_,
      fun h => absurd h (not_lt.mpr (le_trans (by norm_num) h10'.le))⟩
    rcases lt_abs.mp h10' with h | h
    · have hc : max (-10) (min 10 u) = 10 := by
        rw [min_eq_left h.le, max_eq_right (by norm_num)]
      rw [hc, if_neg (by norm_num), abs_of_pos (lt_trans (by norm_num) h)]
      field_simp
    · have hu : u < 0 := by linarith
      have hc : max (-10) (min 10 u) = -10 := by
        rw [min_eq_right (by linarith), max_eq_left (by linarith)]
      rw [hc, if_neg (by norm_num), abs_of_neg hu]
      field_simp

theorem spring_velocity (Z o : ℚ) (ho : 0 < o) :
    95 / 100 * (0 + (0 - Z / o * (2 / 100) * (o - 10))) = -(19 / 1000 * (o - 10) / o * Z) := by
  field_simp
  ring

theorem spring_core (X Y o : ℚ) (ho : 0 < o) (hoo : o * o = X * X + Y * Y) (cx cy : ℚ)
    (hx0 : 0 ≤ cx) (hx1 : cx ≤ 1) (hy0 : 0 ≤ cy) (hy1 : cy ≤ 1)
    (hzx : |(-(19 / 1000 * (o - 10) / o * X))| < 1 → cx = 0)
    (hzy : |(-(19 / 1000 * (o - 10) / o * Y))| < 1 → cy = 0) :
    (|o - 10| * 19 < 1000 → cx = 0 ∧ cy = 0)
    ∧ ((cx * -(19 / 1000 * (o - 10) / o * X) ≠ 0 ∨ cy * -(19 / 1000 * (o - 10) / o * Y) ≠ 0) →
      100 < (X + cx * -(19 / 1000 * (o - 10) / o * X))
              * (X + cx * -(19 / 1000 * (o - 10) / o * X))
            + (Y + cy * -(19 / 1000 * (o - 10) / o * Y))
              * (Y + cy * -(19 / 1000 * (o - 10) / o * Y))
      ∧ (X + cx * -(19 / 1000 * (o - 10) / o * X))
              * (X + cx * -(19 / 1000 * (o - 10) / o * X))
            + (Y + cy * -(19 / 1000 * (o - 10) / o * Y))
              * (Y + cy * -(19 / 1000 * (o - 10) / o * Y))
          < X * X + Y * Y) := by
  have ho' : o ≠ 0 := ho.ne'
  have hXo : |X| ≤ o :=
    abs_le.mpr ⟨by nlinarith [mul_self_nonneg Y], by nlinarith [mul_self_nonneg Y]⟩
  have hYo : |Y| ≤ o :=
    abs_le.mpr ⟨by nlinarith [mul_self_nonneg X], by nlinarith [mul_self_nonneg X]⟩
  have small : ∀ Z : ℚ, |Z| ≤ o → |o - 10| * 19 < 1000 →
      |(-(19 / 1000 * (o - 10) / o * Z))| < 1 := by
    intro Z hZ hd
    have e : |(-(19 / 1000 * (o - 10) / o * Z))| = 19 / 1000 * |o - 10| * (|Z| / o) := by
      rw [abs_neg, abs_mul, abs_div, abs_mul, abs_of_pos ho,
        abs_of_pos (by norm_num : (0 : ℚ) < 19 / 1000)]
      field_simp
    rw [e]
    have h1 : |Z| / o ≤ 1 := by rw [div_le_one ho]; exact hZ
    have h2 : 0 ≤ |Z| / o := by positivity
    have h3 : 0 ≤ 19 / 1000 * |o - 10| := by positivity
    have h4 : 19 / 1000 * |o - 10| < 1 := by linarith
    calc 19 / 1000 * |o - 10| * (|Z| / o) ≤ 19 / 1000 * |o - 10| * 1 :=
          mul_le_mul_of_nonneg_left h1 h3
      _ < 1 := by linarith
  have partA : |o - 10| * 19 < 1000 → cx = 0 ∧ cy = 0 :=
    fun hd => ⟨hzx (small X hXo hd), hzy (small Y hYo hd)⟩
  refine ⟨partA, fun hmove => ?_⟩
  have hd : ¬ (|o - 10| * 19 < 1000) := by
    intro hd
    obtain ⟨h1, h2⟩ := partA hd
    rw [h1, h2] at hmove
    simp at hmove
  have hd' : 1000 / 19 ≤ o - 10 := by
    have h1 : 1000 ≤ |o - 10| * 19 := not_lt.mp hd
    rcases le_abs'.mp (show (1000 / 19 : ℚ) ≤ |o - 10| by linarith) with h | h
    · linarith
    · exact h
  obtain ⟨k, hk⟩ : ∃ k : ℚ, k = 19 / 1000 * (o - 10) / o := ⟨_, rfl⟩
  have hko : k * o = 19 / 1000 * (o - 10) := by rw [hk]; field_simp; ring
  have hk0 : 0 < k := by rw [hk]; apply div_pos <;> linarith
  have hk1 : k < 19 / 1000 := by
    have : k * o < 19 / 1000 * o := by rw [hko]; linarith
    exact lt_of_mul_lt_mul_right this ho.le
  rw [← hk] at hmove ⊢
  have cxk0 : 0 ≤ cx * k := mul_nonneg hx0 hk0.le
  have cyk0 : 0 ≤ cy * k := mul_nonneg hy0 hk0.le
  have cxk1 : cx * k ≤ k := mul_le_of_le_one_left hk0.le hx1
  have cyk1 : cy * k ≤ k := mul_le_of_le_one_left hk0.le hy1
  have hk1' : 0 < 1 - k := by linarith
  have gx0 : 0 < 1 - cx * k := by linarith
  have gy0 : 0 < 1 - cy * k := by linarith
  have gxk : 1 - k ≤ 1 - cx * k := by linarith
  have gyk : 1 - k ≤ 1 - cy * k := by linarith
  have gx1 : 1 - cx * k ≤ 1 := by linarith
  have gy1 : 1 - cy * k ≤ 1 := by linarith
  have eqx : X + cx * -(k * X) = X * (1 - cx * k) := by ring
  have eqy : Y + cy * -(k * Y) = Y * (1 - cy * k) := by ring
  rw [eqx, eqy]
  have sx : (1 - cx * k) * (1 - cx * k) ≤ 1 :=
    (mul_le_mul gx1 gx1 gx0.le zero_le_one).trans (by norm_num)
  have sy : (1 - cy * k) * (1 - cy * k) ≤ 1 :=
    (mul_le_mul gy1 gy1 gy0.le zero_le_one).trans (by norm_num)
  have lx : (1 - k) * (1 - k) ≤ (1 - cx * k) * (1 - cx * k) :=
    mul_le_mul gxk gxk hk1'.le gx0.le
  have ly : (1 - k) * (1 - k) ≤ (1 - cy * k) * (1 - cy * k) :=
    mul_le_mul gyk gyk hk1'.le gy0.le
  have exx : X * (1 - cx * k) * (X * (1 - cx * k)) = X * X * ((1 - cx * k) * (1 - cx * k)) := by
    ring
  have eyy : Y * (1 - cy * k) * (Y * (1 - cy * k)) = Y * Y * ((1 - cy * k) * (1 - cy * k)) := by
    ring
  rw [exx, eyy]
  have ux := mul_le_mul_of_nonneg_left sx (mul_self_nonneg X)
  have uy := mul_le_mul_of_nonneg_left sy (mul_self_nonneg Y)
  have vx := mul_le_mul_of_nonneg_left lx (mul_self_nonneg X)
  have vy := mul_le_mul_of_nonneg_left ly (mul_self_nonneg Y)
  constructor
  · have low : 100 < (1 - k) * (1 - k) * (o * o) := by
      have e : (1 - k) * (1 - k) * (o * o) = (o - k * o) * (o - k * o) := by ring
      rw [e, hko]
      have ht : 10 < o - 19 / 1000 * (o - 10) := by linarith
      have := mul_lt_mul'' ht ht (by norm_num) (by norm_num)
      linarith
    have e2 : (1 - k) * (1 - k) * (o * o)
        = X * X * ((1 - k) * (1 - k)) + Y * Y * ((1 - k) * (1 - k)) := by
      rw [hoo]; ring
    linarith
  · rcases hmove with h | h
    · have hc : cx ≠ 0 := fun h0 => h (by rw [h0, zero_mul])
      have hX : X ≠ 0 := fun h0 => h (by rw [h0]; ring)
      have hcpos : 0 < cx := lt_of_le_of_ne hx0 (Ne.symm hc)
      have hXX : 0 < X * X := mul_self_pos.mpr hX
      have g1 : 1 - cx * k < 1 := by linarith [mul_pos hcpos hk0]
      have strict : (1 - cx * k) * (1 - cx * k) < 1 := by
        have := mul_lt_mul'' g1 g1 gx0.le gx0.le
        linarith
      have := mul_lt_mul_of_pos_left strict hXX
      linarith
    · have hc : cy ≠ 0 := fun h0 => h (by rw [h0, zero_mul])
      have hY : Y ≠ 0 := fun h0 => h (by rw [h0]; ring)
      have hcpos : 0 < cy := lt_of_le_of_ne hy0 (Ne.symm hc)
      have hYY : 0 < Y * Y := mul_self_pos.mpr hY
      have g1 : 1 - cy * k < 1 := by linarith [mul_pos hcpos hk0]
      have strict : (1 - cy * k) * (1 - cy * k) < 1 := by
        have := mul_lt_mul'' g1 g1 gy0.le gy0.le
        linarith
      have := mul_lt_mul_of_pos_left strict hYY
      linarith

theorem labelSpring_clear (sqrt : ℚ → ℚ) (s : ℤ) (v : View) (p : Aircraft) (o : ℚ)
    (hm1 : 10 * s ≤ p.x - 10 * s) (hm2 : p.x + p.w + 10 * s ≤ v.screen_width - 10 * s)
    (hm3 : 10 * s ≤ p.y - 10 * s) (hm4 : p.y + p.h + 10 * s ≤ v.screen_height - 10 * s)
    (ho : sqrt (p.ox * p.ox + p.oy * p.oy) = o) :
    labelSpring sqrt s v p =
      { p with
        ddox := if o > 0 then 0 - p.ox / o * (2 / 100) * (o - 10) else 0
        ddoy := if o > 0 then 0 - p.oy / o * (2 / 100) * (o - 10) else 0
        pressure := 0 } := by
  unfold labelSpring
  simp only [ho, if_neg (not_lt.mpr hm1), if_neg (not_lt.mpr hm2), if_neg (not_lt.mpr hm3),
    if_neg (not_lt.mpr hm4)]

theorem settle_zero : settle 0 = 0 := by
  unfold settle
  rw [if_pos (by norm_num)]

/-- C23 counterexample. `offsetLabel` is alone in the list, clear of the four
margins of the 800x600 view and has zero velocity; its offset (12, 0) has the
magnitude 12, not the spring length 10. With `sqrt(144) = 12` one pass of
`resolveLabelConflicts` computes the acceleration -0.04, the update sets the
velocity to 0, and the offset is (12, 0) as before: its magnitude is not
closer to the spring length. -/
theorem C23_near_offset_not_pulled :
    (offsetLabel.dox = 0 ∧ offsetLabel.doy = 0
      ∧ (10 : ℤ) * 1 ≤ offsetLabel.x - 10 * 1
      ∧ offsetLabel.x + offsetLabel.w + 10 * 1 ≤ view800.screen_width - 10 * 1
      ∧ (10 : ℤ) * 1 ≤ offsetLabel.y - 10 * 1
      ∧ offsetLabel.y + offsetLabel.h + 10 * 1 ≤ view800.screen_height - 10 * 1
      ∧ offsetLabel.ox * offsetLabel.ox + offsetLabel.oy * offsetLabel.oy = 12 * 12)
    ∧ ∀ sqrt : ℚ → ℚ, sqrt 144 = 12 →
        resolveLabelConflicts sqrt 1 view800 [offsetLabel]
          = [{ offsetLabel with ddox := -(1 / 25) }] := by
  refine ⟨⟨rfl, rfl, by decide, by decide, by decide, by decide, ?_⟩, fun sqrt hsq => ?_⟩
  · norm_num [offsetLabel, northPlane]
  · have hs : labelSpring sqrt 1 view800 offsetLabel = { offsetLabel with ddox := -(1 / 25) } := by
      rw [labelSpring_clear sqrt 1 view800 offsetLabel 12 (by decide) (by decide) (by decide)
        (by decide) (by rw [← hsq]; norm_num [offsetLabel, northPlane])]
      norm_num [offsetLabel, northPlane]
    rw [resolveLabelConflicts, labelForces_single sqrt 1 view800 offsetLabel (by decide)
      (by decide), hs, labelUpdateAll, List.map_cons, List.map_nil,
      labelUpdate_still _ (by norm_num [offsetLabel, northPlane, abs_lt])
        (by norm_num [offsetLabel, northPlane])]
    have hc : cround 12 = 12 := by
      unfold cround
      rw [if_pos (by norm_num)]
      exact Int.floor_eq_iff.mpr ⟨by norm_num, by norm_num⟩
    simp [offsetLabel, northPlane, cround_zero, hc]

/-- C23 (amended). For a single aircraft with a label of non-negative size,
clear of the four screen margins and with zero velocity, where `o` is the
value the square root gives for the offset (exact: `o * o = ox * ox + oy * oy`,
`o ≥ 0`): one pass of `resolveLabelConflicts` leaves the offset unchanged
whenever `o` differs from the spring length 10 by less than 1000/19, in
particular whenever `o` is below the spring length; and whenever the pass does
change the offset, the new offset magnitude is strictly smaller than the old
one and still above the spring length (in squares: between 100 and `o * o`). -/
theorem C23_spring_pull (sqrt : ℚ → ℚ) (screen_uiscale : ℤ) (v : View) (p : Aircraft) (o : ℚ)
    (hw : 0 ≤ p.w) (hh : 0 ≤ p.h) (hvx : p.dox = 0) (hvy : p.doy = 0)
    (hm1 : 10 * screen_uiscale ≤ p.x - 10 * screen_uiscale)
    (hm2 : p.x + p.w + 10 * screen_uiscale ≤ v.screen_width - 10 * screen_uiscale)
    (hm3 : 10 * screen_uiscale ≤ p.y - 10 * screen_uiscale)
    (hm4 : p.y + p.h + 10 * screen_uiscale ≤ v.screen_height - 10 * screen_uiscale)
    (ho : sqrt (p.ox * p.ox + p.oy * p.oy) = o) (ho0 : 0 ≤ o)
    (hoo : o * o = p.ox * p.ox + p.oy * p.oy) :
    ∃ q, resolveLabelConflicts sqrt screen_uiscale v [p] = [q]
      ∧ (|o - 10| * 19 < 1000 → q.ox = p.ox ∧ q.oy = p.oy)
      ∧ ((q.ox ≠ p.ox ∨ q.oy ≠ p.oy) →
          100 < q.ox * q.ox + q.oy * q.oy ∧ q.ox * q.ox + q.oy * q.oy < o * o) := by
  refine ⟨labelUpdate (labelSpring sqrt screen_uiscale v p), ?_, ?_⟩
  · rw [resolveLabelConflicts, labelForces_single sqrt screen_uiscale v p hw hh, labelUpdateAll,
      List.map_cons, List.map_nil]
  have hS := labelSpring_clear sqrt screen_uiscale v p o hm1 hm2 hm3 hm4 ho
  obtain ⟨vx, vy⟩ := labelUpdate_velocity (labelSpring sqrt screen_uiscale v p)
  have ex : (labelUpdate (labelSpring sqrt screen_uiscale v p)).ox
      = (labelSpring sqrt screen_uiscale v p).ox
        + (labelUpdate (labelSpring sqrt screen_uiscale v p)).dox := rfl
  have ey : (labelUpdate (labelSpring sqrt screen_uiscale v p)).oy
      = (labelSpring sqrt screen_uiscale v p).oy
        + (labelUpdate (labelSpring sqrt screen_uiscale v p)).doy := rfl
  rw [ex, ey, vx, vy, hS]
  simp only [hvx, hvy]
  rcases ho0.eq_or_lt with h0 | hpos
  · rw [if_neg (by rw [← h0]; exact lt_irrefl _), if_neg (by rw [← h0]; exact lt_irrefl _)]
    simp only [add_zero, mul_zero, settle_zero]
    exact ⟨fun _ => ⟨trivial, trivial⟩, fun h => absurd h (by simp)⟩
  · rw [if_pos hpos, if_pos hpos, spring_velocity p.ox o hpos, spring_velocity p.oy o hpos]
    obtain ⟨cx, hx0, hx1, hxe, hxz⟩ := settle_scale (-(19 / 1000 * (o - 10) / o * p.ox))
    obtain ⟨cy, hy0, hy1, hye, hyz⟩ := settle_scale (-(19 / 1000 * (o - 10) / o * p.oy))
    obtain ⟨pa, pb⟩ := spring_core p.ox p.oy o hpos hoo cx cy hx0 hx1 hy0 hy1 hxz hyz
    rw [hxe, hye, hoo]
    refine ⟨fun hd => ?_, fun hmove => pb ?_⟩
    · obtain ⟨h1, h2⟩ := pa hd
      rw [h1, h2]
      simp
    · rcases hmove with h | h
      · left; intro h0; exact h (by rw [h0, add_zero])
      · right; intro h0; exact h (by rw [h0, add_zero])

/-- C23 (amended) at `pulledLabel` on the 800x600 view, with a square root that
gives 500 for its offset (300, 400). -/
theorem C23_spring_pull_witness :
    ((0 : ℤ) ≤ pulledLabel.w ∧ (0 : ℤ) ≤ pulledLabel.h
      ∧ pulledLabel.dox = 0 ∧ pulledLabel.doy = 0
      ∧ (fun _ : ℚ => (500 : ℚ)) (pulledLabel.ox * pulledLabel.ox + pulledLabel.oy * pulledLabel.oy)
          = 500
      ∧ (500 : ℚ) * 500 = pulledLabel.ox * pulledLabel.ox + pulledLabel.oy * pulledLabel.oy)
    ∧ ∃ q, resolveLabelConflicts (fun _ => 500) 1 view800 [pulledLabel] = [q]
        ∧ ((q.ox ≠ pulledLabel.ox ∨ q.oy ≠ pulledLabel.oy) →
            100 < q.ox * q.ox + q.oy * q.oy ∧ q.ox * q.ox + q.oy * q.oy < 500 * 500) :=
  have h : (500 : ℚ) * 500 = pulledLabel.ox * pulledLabel.ox + pulledLabel.oy * pulledLabel.oy := by
    norm_num [pulledLabel, northPlane]
  ⟨⟨by decide, by decide, rfl, rfl, rfl, h⟩,
    (C23_spring_pull (fun _ => 500) 1 view800 pulledLabel 500 (by decide) (by decide) rfl rfl
      (by decide) (by decide) (by decide) (by decide) rfl (by norm_num) h).imp
      fun _ hq => ⟨hq.1, hq.2.2⟩⟩

/-! ### Label pressure -/

theorem set_of_getElem? {α : Type} (l : List α) (k : ℕ) (x : α) (h : l[k]? = some x) :
    l.set k x = l := by
  apply List.ext_getElem?
  intro j
  rw [List.getElem?_set]
  split_ifs with h1 h2
  · rw [← h1, h]
  · rw [← h1, List.getElem?_eq_none (not_lt.mp h2)]
  · rfl

theorem map_set_same {α β : Type} (f : α → β) (l : List α) (k : ℕ) (a x : α)
    (h : l[k]? = some x) (hf : f a = f x) : (l.set k a).map f = l.map f := by
  rw [List.map_set, hf]
  exact set_of_getElem? _ _ _ (by rw [List.getElem?_map, h]; rfl)

theorem bump_zero (ps : List ℚ) (i : ℕ) : bump ps i 0 = ps := by
  unfold bump
  by_cases h : i < ps.length
  · apply set_of_getElem?
    rw [add_zero, List.getD_eq_getElem?_getD, List.getElem?_eq_getElem h]
    rfl
  · exact List.set_eq_of_length_le (not_lt.mp h)

theorem bump_bump (ps : List ℚ) (i : ℕ) (d e : ℚ) :
    bump (bump ps i d) i e = bump ps i (d + e) := by
  unfold bump
  by_cases h : i < ps.length
  · rw [List.set_set, List.getD_eq_getElem?_getD, List.getElem?_set_self h]
    simp only [Option.getD_some]
    rw [add_assoc]
  · rw [List.set_eq_of_length_le (not_lt.mp h), List.set_eq_of_length_le (not_lt.mp h),
      List.set_eq_of_length_le (not_lt.mp h)]

theorem labelCollide_key (f : ℚ) (s l r t b : ℤ) (c : Aircraft) :
    (labelCollide f s l r t b c).key = c.key := by
  have h := congrArg Aircraft.key (labelCollide_rest f s l r t b c)
  exact h

theorem labelCollide_pressure (f : ℚ) (s l r t b : ℤ) (c : Aircraft) :
    (labelCollide f s l r t b c).pressure = c.pressure := by
  unfold labelCollide
  simp only []
  split_ifs <;> rfl

theorem iconCheck_keys (s l r t b : ℤ) (st : List Aircraft) (j : ℕ) :
    (iconCheck s l r t b st j).map Aircraft.key = st.map Aircraft.key
    ∧ (iconCheck s l r t b st j).map Aircraft.pressure = st.map Aircraft.pressure := by
  unfold iconCheck
  cases hc : st[j]? with
  | none => exact ⟨rfl, rfl⟩
  | some c =>
    exact ⟨map_set_same _ _ _ _ _ hc (labelCollide_key _ _ _ _ _ _ _),
      map_set_same _ _ _ _ _ hc (labelCollide_pressure _ _ _ _ _ _ _)⟩

theorem fold_iconCheck (s l r t b : ℤ) (js : List ℕ) (st : List Aircraft) :
    (js.foldl (iconCheck s l r t b) st).map Aircraft.key = st.map Aircraft.key
    ∧ (js.foldl (iconCheck s l r t b) st).map Aircraft.pressure = st.map Aircraft.pressure := by
  induction js generalizing st with
  | nil => exact ⟨rfl, rfl⟩
  | cons j js ih =>
    rw [List.foldl_cons]
    obtain ⟨h1, h2⟩ := ih (iconCheck s l r t b st j)
    obtain ⟨h3, h4⟩ := iconCheck_keys s l r t b st j
    exact ⟨h1.trans h3, h2.trans h4⟩

theorem labelCheck_keys (s : ℤ) (i : ℕ) (l r t b : ℤ) (st : List Aircraft) (j : ℕ) :
    (labelCheck s i l r t b st j).map Aircraft.key = st.map Aircraft.key := by
  unfold labelCheck
  cases hp : st[i]? with
  | none => rfl
  | some p =>
    cases hc : st[j]? with
    | none => rfl
    | some c =>
      simp only []
      split_ifs with h
      · have hij : i ≠ j := by
          intro e
          rw [e, hc] at hp
          exact h (by rw [Option.some.inj hp])
        have hc' : (st.set i (p.addPressure (pressureTerm p c)))[j]? = some c := by
          rw [List.getElem?_set_ne hij, hc]
        rw [map_set_same _ _ _ _ _ hc' (labelCollide_key _ _ _ _ _ _ _)]
        exact map_set_same Aircraft.key st i (p.addPressure (pressureTerm p c)) p hp rfl
      · rfl

theorem pairTerm_key (p c : Aircraft) (h : c.addr ≠ p.addr) :
    pairTerm p.key c.key = pressureTerm p c := by
  unfold pairTerm pressureTerm Aircraft.key
  simp only []
  rw [if_pos h]

theorem labelCheck_pressure (s : ℤ) (i : ℕ) (l r t b : ℤ) (st : List Aircraft) (j : ℕ)
    (K : List (ℕ × ℤ × ℤ)) (k : ℕ × ℤ × ℤ) (hK : st.map Aircraft.key = K)
    (hk : K[i]? = some k) :
    (labelCheck s i l r t b st j).map Aircraft.pressure
      = bump (st.map Aircraft.pressure) i (rowTerm K k j) := by
  have hi : (st[i]?).map Aircraft.key = some k := by
    rw [← List.getElem?_map, hK, hk]
  cases hp : st[i]? with
  | none => rw [hp] at hi; cases hi
  | some p =>
    rw [hp] at hi
    have hpk : p.key = k := Option.some.inj hi
    have hgetD : (st.map Aircraft.pressure).getD i 0 = p.pressure := by
      rw [List.getD_eq_getElem?_getD, List.getElem?_map, hp]
      rfl
    unfold labelCheck
    rw [hp]
    cases hc : st[j]? with
    | none =>
      have : rowTerm K k j = 0 := by
        unfold rowTerm
        rw [← hK, List.getElem?_map, hc]
        rfl
      rw [this, bump_zero]
    | some c =>
      have hrow : rowTerm K k j = pairTerm k c.key := by
        unfold rowTerm
        rw [← hK, List.getElem?_map, hc]
        rfl
      simp only []
      split_ifs with h
      · have hij : i ≠ j := by
          intro e
          rw [e, hc] at hp
          exact h (by rw [Option.some.inj hp])
        have hc' : (st.set i (p.addPressure (pressureTerm p c)))[j]? = some c := by
          rw [List.getElem?_set_ne hij, hc]
        rw [map_set_same _ _ _ _ _ hc' (labelCollide_pressure _ _ _ _ _ _ _), List.map_set,
          hrow, ← hpk, pairTerm_key p c h]
        unfold bump
        rw [hgetD]
        rfl
      · have h' : c.addr = p.addr := not_not.mp h
        have : pairTerm k c.key = 0 := by
          rw [← hpk]
          unfold pairTerm Aircraft.key
          simp only []
          rw [if_neg (not_not.mpr h')]
        rw [hrow, this, bump_zero]

theorem fold_labelCheck (s : ℤ) (i : ℕ) (l r t b : ℤ) (K : List (ℕ × ℤ × ℤ))
    (k : ℕ × ℤ × ℤ) (hk : K[i]? = some k) (js : List ℕ) (st : List Aircraft)
    (hK : st.map Aircraft.key = K) :
    (js.foldl (labelCheck s i l r t b) st).map Aircraft.key = K
    ∧ (js.foldl (labelCheck s i l r t b) st).map Aircraft.pressure
        = bump (st.map Aircraft.pressure) i ((js.map (rowTerm K k)).sum) := by
  induction js generalizing st with
  | nil =>
    rw [List.foldl_nil, List.map_nil, List.sum_nil, bump_zero]
    exact ⟨hK, rfl⟩
  | cons j js ih =>
    rw [List.foldl_cons, List.map_cons, List.sum_cons]
    have hK1 : (labelCheck s i l r t b st j).map Aircraft.key = K :=
      (labelCheck_keys s i l r t b st j).trans hK
    obtain ⟨h1, h2⟩ := ih (labelCheck s i l r t b st j) hK1
    refine ⟨h1, ?_⟩
    rw [h2, labelCheck_pressure s i l r t b st j K k hK hk, bump_bump]

theorem labelTurn_keys (sqrt : ℚ → ℚ) (s : ℤ) (v : View) (K : List (ℕ × ℤ × ℤ))
    (st : List Aircraft) (i : ℕ) (hK : st.map Aircraft.key = K) :
    (labelTurn sqrt s v st i).map Aircraft.key = K
    ∧ ∀ k : ℕ, ((labelTurn sqrt s v st i).map Aircraft.pressure)[k]?
        = if k = i then
            (K[i]?).map (fun key => ((List.range K.length).map (rowTerm K key)).sum)
          else (st.map Aircraft.pressure)[k]? := by
  have hlen : st.length = K.length := by rw [← hK, List.length_map]
  unfold labelTurn
  cases hp : st[i]? with
  | none =>
    have hKi : K[i]? = none := by rw [← hK, List.getElem?_map, hp]; rfl
    refine ⟨hK, fun k => ?_⟩
    split_ifs with h
    · rw [h, hKi, List.getElem?_map, hp]; rfl
    · rfl
  | some p =>
    have hKi : K[i]? = some p.key := by rw [← hK, List.getElem?_map, hp]; rfl
    have hi : i < st.length := by
      by_contra hcon
      rw [List.getElem?_eq_none (not_lt.mp hcon)] at hp
      cases hp
    have hK1 : (st.set i (labelSpring sqrt s v p)).map Aircraft.key = K :=
      (map_set_same Aircraft.key st i (labelSpring sqrt s v p) p hp rfl).trans hK
    simp only []
    obtain ⟨h1, h2⟩ := fold_labelCheck s i (p.x - 10 * s) (p.x + p.w + 10 * s) (p.y - 10 * s)
      (p.y + p.h + 10 * s) K p.key hKi (List.range st.length)
      (st.set i (labelSpring sqrt s v p)) hK1
    obtain ⟨h3, h4⟩ := fold_iconCheck s (p.x - 5 * s) (p.x + 5 * s) (p.y - 5 * s) (p.y + 5 * s)
      (List.range st.length)
      ((List.range st.length).foldl (labelCheck s i (p.x - 10 * s) (p.x + p.w + 10 * s)
        (p.y - 10 * s) (p.y + p.h + 10 * s)) (st.set i (labelSpring sqrt s v p)))
    refine ⟨h3.trans h1, fun k => ?_⟩
    have hi' : i < (st.map Aircraft.pressure).length := by rw [List.length_map]; exact hi
    rw [h4, h2, List.map_set]
    unfold bump
    rw [List.set_set, List.getD_eq_getElem?_getD, List.getElem?_set_self hi', List.getElem?_set,
      hlen, hKi]
    have e0 : (labelSpring sqrt s v p).pressure = 0 := rfl
    simp only [Option.getD_some, e0, zero_add, Option.map_some']
    by_cases hki : k = i
    · rw [if_pos hki, if_pos hki.symm, if_pos (by rw [List.length_map]; exact hi)]
    · rw [if_neg hki, if_neg (fun e => hki e.symm)]

theorem fold_labelTurn (sqrt : ℚ → ℚ) (s : ℤ) (v : View) (K : List (ℕ × ℤ × ℤ))
    (is : List ℕ) (st : List Aircraft) (hK : st.map Aircraft.key = K) :
    (is.foldl (labelTurn sqrt s v) st).map Aircraft.key = K
    ∧ ∀ k : ℕ, ((is.foldl (labelTurn sqrt s v) st).map Aircraft.pressure)[k]?
        = if k ∈ is then
            (K[k]?).map (fun key => ((List.range K.length).map (rowTerm K key)).sum)
          else (st.map Aircraft.pressure)[k]? := by
  induction is generalizing st with
  | nil => exact ⟨hK, fun k => by simp⟩
  | cons i is ih =>
    rw [List.foldl_cons]
    obtain ⟨h1, h2⟩ := labelTurn_keys sqrt s v K st i hK
    obtain ⟨h3, h4⟩ := ih (labelTurn sqrt s v st i) h1
    refine ⟨h3, fun k => ?_⟩
    rw [h4 k, h2 k]
    by_cases hk : k ∈ is
    · rw [if_pos hk, if_pos (List.mem_cons_of_mem _ hk)]
    · rw [if_neg hk]
      by_cases hki : k = i
      · rw [if_pos hki, if_pos (by rw [hki]; exact List.mem_cons_self _ _), hki]
      · rw [if_neg hki, if_neg (by
          intro hmem
          rcases List.mem_cons.mp hmem with e | e
          · exact hki e
          · exact hk e)]

theorem rowTerm_sum (K : List (ℕ × ℤ × ℤ)) (k : ℕ × ℤ × ℤ) :
    ((List.range K.length).map (rowTerm K k)).sum = (K.map (pairTerm k)).sum := by
  induction K with
  | nil => rfl
  | cons c K ih =>
    have e0 : rowTerm (c :: K) k 0 = pairTerm k c := by simp [rowTerm]
    have e1 : rowTerm (c :: K) k ∘ Nat.succ = rowTerm K k := by
      funext j
      simp [rowTerm]
    rw [List.length_cons, List.range_succ_eq_map, List.map_cons, List.sum_cons, List.map_map,
      List.map_cons, List.sum_cons, ← ih, e0, e1]

theorem pairTerm_sum (p : Aircraft) (planes : List Aircraft) :
    ((planes.map Aircraft.key).map (pairTerm p.key)).sum = pressureSum p planes := by
  unfold pressureSum
  induction planes with
  | nil => rfl
  | cons c planes ih =>
    rw [List.map_cons, List.map_cons, List.sum_cons, ih]
    by_cases h : c.addr ≠ p.addr
    · rw [List.filter_cons_of_pos (by simpa using h), List.map_cons, List.sum_cons,
        pairTerm_key p c h]
    · rw [List.filter_cons_of_neg (by simpa using h)]
      have : pairTerm p.key c.key = 0 := by
        unfold pairTerm Aircraft.key
        simp only []
        rw [if_neg h]
      rw [this, zero_add]

theorem resolve_pressure (sqrt : ℚ → ℚ) (s : ℤ) (v : View) (planes : List Aircraft) (i : ℕ)
    (p : Aircraft) (hp : planes[i]? = some p) :
    ∃ q, (resolveLabelConflicts sqrt s v planes)[i]? = some q ∧ q.key = p.key
      ∧ q.pressure = pressureSum p planes := by
  obtain ⟨h1, h2⟩ := fold_labelTurn sqrt s v (planes.map Aircraft.key) (List.range planes.length)
    planes rfl
  have hi : i < planes.length := by
    by_contra hcon
    rw [List.getElem?_eq_none (not_lt.mp hcon)] at hp
    cases hp
  have h3 := h2 i
  rw [if_pos (List.mem_range.mpr hi), List.getElem?_map, List.getElem?_map, hp] at h3
  have h4 : ((labelForces sqrt s v planes).map Aircraft.key)[i]? = some p.key := by
    unfold labelForces
    rw [h1, List.getElem?_map, hp]
    rfl
  rw [List.getElem?_map] at h4
  unfold resolveLabelConflicts labelUpdateAll
  rw [List.getElem?_map]
  change Option.map Aircraft.pressure (labelForces sqrt s v planes)[i]? = _ at h3
  cases hq : (labelForces sqrt s v planes)[i]? with
  | none => rw [hq] at h4; cases h4
  | some q =>
    rw [hq] at h3 h4
    refine ⟨labelUpdate q, rfl, Option.some.inj h4, ?_⟩
    have e : q.pressure
        = ((List.range (planes.map Aircraft.key).length).map
            (rowTerm (planes.map Aircraft.key) p.key)).sum := Option.some.inj h3
    have e' : (labelUpdate q).pressure = q.pressure := rfl
    rw [e', e, rowTerm_sum, pairTerm_sum]

theorem pressureTerm_nonneg (p c : Aircraft) : 0 ≤ pressureTerm p c := by
  unfold pressureTerm
  apply div_nonneg zero_le_one
  exact_mod_cast add_nonneg (mul_self_nonneg (c.cx - p.cx)) (mul_self_nonneg (c.cy - p.cy))

theorem pressureTerm_pos (p c : Aircraft) (h : c.cx ≠ p.cx ∨ c.cy ≠ p.cy) :
    0 < pressureTerm p c := by
  unfold pressureTerm
  apply div_pos zero_lt_one
  have hz : 0 < (c.cx - p.cx) * (c.cx - p.cx) + (c.cy - p.cy) * (c.cy - p.cy) := by
    rcases h with h | h
    · have := mul_self_pos.mpr (sub_ne_zero.mpr h)
      nlinarith [mul_self_nonneg (c.cy - p.cy)]
    · have := mul_self_pos.mpr (sub_ne_zero.mpr h)
      nlinarith [mul_self_nonneg (c.cx - p.cx)]
  exact_mod_cast hz

theorem pressureSum_nonneg (p : Aircraft) (planes : List Aircraft) :
    0 ≤ pressureSum p planes := by
  unfold pressureSum
  apply List.sum_nonneg
  intro x hx
  obtain ⟨c, -, rfl⟩ := List.mem_map.mp hx
  exact pressureTerm_nonneg p c

theorem pressureSum_alone (p : Aircraft) (planes : List Aircraft)
    (h : ∀ c ∈ planes, c.addr = p.addr) : pressureSum p planes = 0 := by
  unfold pressureSum
  have : planes.filter (fun c => c.addr ≠ p.addr) = [] := by
    rw [List.filter_eq_nil_iff]
    intro c hc
    simpa using h c hc
  rw [this]
  rfl

/-- C24 counterexample. `leftLabel` has icon and label at (400, 300);
`shiftedLabel` has its icon at (420, 300) and its label, by the offset (20, 0),
at (440, 300). With `sqrt(400) = 20` a pass of `resolveLabelConflicts` leaves
both labels where they are and gives `leftLabel` the pressure 1/400, the
inverse square of the 20 pixels between the two icons; the inverse square of
the 40 pixels between the two label positions is 1/1600. -/
theorem C24_pressure_from_icons :
    (pressureTerm leftLabel shiftedLabel = 1 / 400
      ∧ labelTerm { leftLabel with pressure := 1 / 400, ddox := -(3 / 20) }
          { shiftedLabel with pressure := 1 / 400, ddox := -(1 / 5) } = 1 / 1600)
    ∧ ∀ sqrt : ℚ → ℚ, sqrt 400 = 20 →
      resolveLabelConflicts sqrt 1 view800 [leftLabel, shiftedLabel]
        = [{ leftLabel with pressure := 1 / 400, ddox := -(3 / 20) },
           { shiftedLabel with pressure := 1 / 400, ddox := -(1 / 5) }] := by
  refine ⟨⟨by norm_num [pressureTerm, leftLabel, shiftedLabel, northPlane],
    by norm_num [labelTerm, leftLabel, shiftedLabel, northPlane]⟩, ?_⟩
  intro sqrt hsq
  have hf : labelForces sqrt 1 view800 [leftLabel, shiftedLabel]
      = [{ leftLabel with pressure := 1 / 400, ddox := -(3 / 20) },
         { shiftedLabel with pressure := 1 / 400, ddox := -(1 / 5) }] := by
    have e : (20 : ℚ) * 20 = 400 := by norm_num
    simp [labelForces, labelTurn, labelCheck, iconCheck, labelCollide, labelSpring,
      pressureTerm, Aircraft.addPressure, range_two, leftLabel, shiftedLabel, northPlane,
      view800, e, hsq]
    norm_num
  have hc : cround 20 = 20 := by
    unfold cround
    rw [if_pos (by norm_num)]
    exact Int.floor_eq_iff.mpr ⟨by norm_num, by norm_num⟩
  have h1 : labelUpdate { leftLabel with pressure := 1 / 400, ddox := -(3 / 20) }
      = { leftLabel with pressure := 1 / 400, ddox := -(3 / 20) } := by
    rw [labelUpdate_still _ (by norm_num [leftLabel, northPlane, abs_lt])
      (by norm_num [leftLabel, northPlane])]
    simp [leftLabel, northPlane, cround_zero]
  have h2 : labelUpdate { shiftedLabel with pressure := 1 / 400, ddox := -(1 / 5) }
      = { shiftedLabel with pressure := 1 / 400, ddox := -(1 / 5) } := by
    rw [labelUpdate_still _ (by norm_num [shiftedLabel, northPlane, abs_lt])
      (by norm_num [shiftedLabel, northPlane])]
    simp [shiftedLabel, northPlane, cround_zero, hc]
  rw [resolveLabelConflicts, hf, labelUpdateAll, List.map_cons, List.map_cons, List.map_nil,
    h1, h2]

/-- C24 (amended). After a pass of `resolveLabelConflicts` the pressure of the
aircraft at any position of the list is the sum, over the aircraft of the list
with another address, of the inverse squared pixel distance between the two
icons `(cx, cy)`, the label positions not entering; when no aircraft of another
address is drawn on the same pixel every term is positive (no zero divisor);
the pressure is non-negative, and it is 0 when no aircraft of the list has
another address, so for an aircraft alone in the list. -/
theorem C24_pressure_sum (sqrt : ℚ → ℚ) (screen_uiscale : ℤ) (v : View)
    (planes : List Aircraft) (i : ℕ) (p : Aircraft) (hp : planes[i]? = some p)
    (hpix : ∀ c ∈ planes, c.addr ≠ p.addr → c.cx ≠ p.cx ∨ c.cy ≠ p.cy) :
    ∃ q, (resolveLabelConflicts sqrt screen_uiscale v planes)[i]? = some q
      ∧ (q.addr = p.addr ∧ q.cx = p.cx ∧ q.cy = p.cy)
      ∧ q.pressure = pressureSum p planes
      ∧ (∀ c ∈ planes, c.addr ≠ p.addr → 0 < pressureTerm p c)
      ∧ 0 ≤ q.pressure
      ∧ ((∀ c ∈ planes, c.addr = p.addr) → q.pressure = 0) := by
  obtain ⟨q, h1, h2, h3⟩ := resolve_pressure sqrt screen_uiscale v planes i p hp
  have e1 : q.addr = p.addr := congrArg (fun k : ℕ × ℤ × ℤ => k.1) h2
  have e2 : q.cx = p.cx := congrArg (fun k : ℕ × ℤ × ℤ => k.2.1) h2
  have e3 : q.cy = p.cy := congrArg (fun k : ℕ × ℤ × ℤ => k.2.2) h2
  refine ⟨q, h1, ⟨e1, e2, e3⟩, h3, fun c hc hne => pressureTerm_pos p c (hpix c hc hne), ?_, ?_⟩
  · rw [h3]; exact pressureSum_nonneg p planes
  · intro h
    rw [h3]; exact pressureSum_alone p planes h

/-- C24 (amended) at the list `leftLabel`, `rightLabel`, whose icons are 20
pixels apart: the pressure of `leftLabel` after a pass is 1/400. -/
theorem C24_pressure_sum_witness :
    ([leftLabel, rightLabel][0]? = some leftLabel
      ∧ ∀ c ∈ [leftLabel, rightLabel], c.addr ≠ leftLabel.addr →
          c.cx ≠ leftLabel.cx ∨ c.cy ≠ leftLabel.cy)
    ∧ ∃ q, (resolveLabelConflicts (fun _ => 0) 1 view800 [leftLabel, rightLabel])[0]? = some q
        ∧ q.pressure = 1 / 400 :=
  have h1 : [leftLabel, rightLabel][0]? = some leftLabel := rfl
  have h2 : ∀ c ∈ [leftLabel, rightLabel], c.addr ≠ leftLabel.addr →
      c.cx ≠ leftLabel.cx ∨ c.cy ≠ leftLabel.cy := by
    intro c hc hne
    rcases List.mem_cons.mp hc with e | e
    · exact absurd (by rw [e]) hne
    · rw [List.mem_singleton.mp e]
      left
      decide
  have h3 : pressureSum leftLabel [leftLabel, rightLabel] = 1 / 400 := by
    norm_num [pressureSum, pressureTerm, List.filter, leftLabel, rightLabel, northPlane]
  ⟨⟨h1, h2⟩,
    (C24_pressure_sum (fun _ => 0) 1 view800 [leftLabel, rightLabel] 0 leftLabel h1 h2).imp
      fun _ hq => ⟨hq.1, hq.2.2.1.trans h3⟩⟩

/-! ### `anetRead` -/

theorem anetReadLoop_spec (read : ℕ → ℤ → ℤ) (count : ℤ)
    (hread : ∀ n req, 0 < req →
      read n req = -1 ∨ read n req = 0 ∨ (0 < read n req ∧ read n req ≤ req))
    (fuel n : ℕ) (hfuel : (count - accumulated read count n).toNat < fuel)
    (hn : (n : ℤ) ≤ accumulated read count n) (hle : accumulated read count n ≤ count)
    (hpos : ∀ j < n, 0 < read j (count - accumulated read count j)) :
    ∃ k : ℕ, (k : ℤ) ≤ count
      ∧ (∀ j < k, 0 < read j (count - accumulated read count j))
      ∧ ((accumulated read count k = count
            ∧ anetReadLoop read count fuel n (accumulated read count n) = some count)
        ∨ (accumulated read count k < count ∧ read k (count - accumulated read count k) = 0
            ∧ anetReadLoop read count fuel n (accumulated read count n)
                = some (accumulated read count k))
        ∨ (accumulated read count k < count ∧ read k (count - accumulated read count k) = -1
            ∧ anetReadLoop read count fuel n (accumulated read count n) = some (-1))) := by
  induction fuel generalizing n with
  | zero => exact absurd hfuel (Nat.not_lt_zero _)
  | succ fuel ih =>
    rw [anetReadLoop]
    by_cases hc : accumulated read count n = count
    · rw [if_neg (not_not.mpr hc)]
      exact ⟨n, by rw [← hc]; exact hn, hpos, Or.inl ⟨hc, by rw [hc]⟩⟩
    · rw [if_pos hc]
      have hlt : accumulated read count n < count := lt_of_le_of_ne hle hc
      have hk : (n : ℤ) ≤ count := le_trans hn hle
      rcases hread n (count - accumulated read count n) (by omega) with h | h | ⟨h1, h2⟩
      · rw [if_neg (by rw [h]; decide), if_pos h]
        exact ⟨n, hk, hpos, Or.inr (Or.inr ⟨hlt, h, rfl⟩)⟩
      · rw [if_pos h]
        exact ⟨n, hk, hpos, Or.inr (Or.inl ⟨hlt, h, rfl⟩)⟩
      · rw [if_neg (by omega), if_neg (by omega)]
        have hacc : accumulated read count (n + 1)
            = accumulated read count n + read n (count - accumulated read count n) := rfl
        rw [← hacc]
        refine ih (n + 1) (by omega) (by push_cast; omega) (by omega) ?_
        intro j hj
        rcases Nat.lt_succ_iff_lt_or_eq.mp hj with h3 | h3
        · exact hpos j h3
        · rw [h3]; exact h1

/-- C25. With `count ≥ 0` and a `read` that per call returns -1, 0 or a
positive number of bytes not above the number requested, `anetRead` returns
after at most `count` successful reads (any bound above `count` on the number
of rounds is enough), each read requesting the `count - totlen` bytes still
missing. With `k` the number of successful reads: it returns `count` when the
`k` reads accumulated `count` bytes; it returns the bytes accumulated, fewer
than `count`, when the next read returns 0; and it returns -1 when the next
read returns -1, which is the only way it returns -1. -/
theorem C25_anetRead_result (read : ℕ → ℤ → ℤ) (count : ℤ) (fuel : ℕ) (hcount : 0 ≤ count)
    (hread : ∀ n req, 0 < req →
      read n req = -1 ∨ read n req = 0 ∨ (0 < read n req ∧ read n req ≤ req))
    (hfuel : count.toNat < fuel) :
    ∃ k : ℕ, (k : ℤ) ≤ count
      ∧ (∀ j < k, 0 < read j (count - accumulated read count j))
      ∧ ((accumulated read count k = count ∧ anetRead read count fuel = some count)
        ∨ (accumulated read count k < count ∧ read k (count - accumulated read count k) = 0
            ∧ anetRead read count fuel = some (accumulated read count k))
        ∨ (accumulated read count k < count ∧ read k (count - accumulated read count k) = -1
            ∧ anetRead read count fuel = some (-1)))
      ∧ (anetRead read count fuel = some (-1) ↔
          accumulated read count k < count
            ∧ read k (count - accumulated read count k) = -1) := by
  have h0 : accumulated read count 0 = 0 := rfl
  obtain ⟨k, hk, hpos, hres⟩ := anetReadLoop_spec read count hread fuel 0
    (by rw [h0, sub_zero]; exact hfuel) (by rw [h0]; rfl) (by rw [h0]; exact hcount)
    (fun j hj => absurd hj (Nat.not_lt_zero j))
  rw [h0] at hres
  have hacc : 0 ≤ accumulated read count k := le_trans (Int.natCast_nonneg k) (by
    clear hres
    induction k with
    | zero => exact le_refl _
    | succ m ih =>
      have hm : (m : ℤ) ≤ count := by push_cast at hk; omega
      have hp := hpos m (Nat.lt_succ_self m)
      have := ih hm (fun j hj => hpos j (Nat.lt_succ_of_lt hj))
      have e : accumulated read count (m + 1)
          = accumulated read count m + read m (count - accumulated read count m) := rfl
      rw [e]; push_cast; omega)
  refine ⟨k, hk, hpos, hres, ?_⟩
  unfold anetRead
  rcases hres with ⟨h1, h2⟩ | ⟨h1, h2, h3⟩ | ⟨h1, h2, h3⟩
  · rw [h2]
    constructor
    · intro h; have := Option.some.inj h; omega
    · intro h; omega
  · rw [h3]
    constructor
    · intro h; have := Option.some.inj h; omega
    · intro h; omega
  · rw [h3]
    exact ⟨fun _ => ⟨h1, h2⟩, fun _ => rfl⟩

/-- C25 at `count = 7` and a `read` that hands out at most three bytes per
call: `anetRead` returns 7. -/
theorem C25_anetRead_result_witness :
    ((0 : ℤ) ≤ 7
      ∧ (∀ n req, 0 < req → threeAtATime n req = -1 ∨ threeAtATime n req = 0
          ∨ (0 < threeAtATime n req ∧ threeAtATime n req ≤ req))
      ∧ (7 : ℤ).toNat < 8)
    ∧ anetRead threeAtATime 7 8 = some 7
    ∧ ∃ k : ℕ, (k : ℤ) ≤ 7
        ∧ (anetRead threeAtATime 7 8 = some (-1) ↔
            accumulated threeAtATime 7 k < 7
              ∧ threeAtATime k (7 - accumulated threeAtATime 7 k) = -1) :=
  have h1 : ∀ n req, 0 < req → threeAtATime n req = -1 ∨ threeAtATime n req = 0
      ∨ (0 < threeAtATime n req ∧ threeAtATime n req ≤ req) := by
    intro n req h
    right; right
    unfold threeAtATime
    exact ⟨lt_min (by norm_num) h, min_le_right _ _⟩
  ⟨⟨by norm_num, h1, by decide⟩, by decide,
    (C25_anetRead_result threeAtATime 7 8 (by norm_num) h1 (by decide)).imp
      fun _ h => ⟨h.1, h.2.2.2⟩⟩

/-! ### Per-segment culling -/

theorem drawLine_eq (LATLONMULT CENTEROFFSET : ℚ) (cos : ℚ → ℚ) (v : View)
    (r : LineRender) (l : Line) :
    drawLine LATLONMULT CENTEROFFSET cos v r l =
      { lineCount := r.lineCount + 1
        visited := r.visited ++ [l]
        drawn := r.drawn ++
          (if passesCulling v (linePixels LATLONMULT CENTEROFFSET cos v l) = true then
            [linePixels LATLONMULT CENTEROFFSET cos v l] else []) } := by
  unfold drawLine linePixels
  simp only []
  generalize screenCoords CENTEROFFSET v
    (pxFromLonLat LATLONMULT cos v l.start.lon l.start.lat).1
    (pxFromLonLat LATLONMULT cos v l.start.lon l.start.lat).2 = p1
  generalize screenCoords CENTEROFFSET v
    (pxFromLonLat LATLONMULT cos v l.end_.lon l.end_.lat).1
    (pxFromLonLat LATLONMULT cos v l.end_.lon l.end_.lat).2 = p2
  unfold passesCulling
  cases h1 : outOfBounds v p1.1 p1.2 <;> cases h2 : outOfBounds v p2.1 p2.2 <;>
    by_cases h3 : (p1.1 = p2.1 ∧ p1.2 = p2.2) <;> simp [h3]

theorem foldl_drawLine_eq (LATLONMULT CENTEROFFSET : ℚ) (cos : ℚ → ℚ) (v : View)
    (lines : List Line) (r : LineRender) :
    lines.foldl (drawLine LATLONMULT CENTEROFFSET cos v) r =
      { lineCount := r.lineCount + lines.length
        visited := r.visited ++ lines
        drawn := r.drawn ++
          ((lines.map (linePixels LATLONMULT CENTEROFFSET cos v)).filter (passesCulling v)) } := by
  induction lines generalizing r with
  | nil => simp
  | cons l rest ih =>
    rw [List.foldl_cons, ih, drawLine_eq]
    simp only [List.length_cons, List.map_cons, List.append_assoc, List.singleton_append,
      Nat.cast_add, Nat.cast_one]
    by_cases h : passesCulling v (linePixels LATLONMULT CENTEROFFSET cos v l) = true
    · rw [if_pos h, List.filter_cons_of_pos h]
      simp only [List.singleton_append, add_assoc, add_comm (1 : ℤ)]
    · rw [if_neg h, List.filter_cons_of_neg h]
      simp only [List.nil_append, add_assoc, add_comm (1 : ℤ)]

theorem drawLinesRecursive_eq (LATLONMULT CENTEROFFSET : ℚ) (cos : ℚ → ℚ) (v : View)
    (e f g h : ℚ) (t : QuadTree) (r : LineRender) :
    drawLinesRecursive LATLONMULT CENTEROFFSET cos v e f g h t r =
      { lineCount := r.lineCount + (t.entered e f g h).length
        visited := r.visited ++ t.entered e f g h
        drawn := r.drawn ++
          (((t.entered e f g h).map (linePixels LATLONMULT CENTEROFFSET cos v)).filter
            (passesCulling v)) } := by
  induction t generalizing r with
  | null => simp [drawLinesRecursive, QuadTree.entered]
  | node la lA lo lO nw sw ne se lines ih1 ih2 ih3 ih4 =>
    unfold drawLinesRecursive QuadTree.entered
    by_cases h1 : la > f ∨ e > lA
    · rw [if_pos h1, if_pos h1]; simp
    · rw [if_neg h1, if_neg h1]
      by_cases h2 : lo > h ∨ g > lO
      · rw [if_pos h2, if_pos h2]; simp
      · rw [if_neg h2, if_neg h2]
        simp only []
        rw [foldl_drawLine_eq, ih4, ih3, ih2, ih1]
        simp only [List.length_append, List.map_append, List.filter_append, List.append_assoc,
          Nat.cast_add, add_assoc]

theorem meridian_pixel (cos : ℚ → ℚ) (lat : ℚ) (n : ℤ) (hlat : lat ≠ 0)
    (h1 : (n : ℚ) ≤ 16 * |111195 / 1000 * (lat - 40)| + 1 / 2)
    (h2 : 16 * |111195 / 1000 * (lat - 40)| + 1 / 2 < (n : ℚ) + 1) :
    screenCoords (1 / 2) view800 (pxFromLonLat (111195 / 1000) cos view800 10 lat).1
        (pxFromLonLat (111195 / 1000) cos view800 10 lat).2
      = (400, 300 + (if 111195 / 1000 * (lat - 40) > 0 then -1 else 1) * n) := by
  have hp : pxFromLonLat (111195 / 1000) cos view800 10 lat
      = (0, 111195 / 1000 * (lat - 40)) := by
    simp [pxFromLonLat, view800, hlat]
  have hsd0 : screenDist view800 0 = 0 := by
    simp only [screenDist, cround, abs_zero, mul_zero, zero_div]
    norm_num
  have harg : scale_factor view800 * (1 / 2) * |111195 / 1000 * (lat - 40)| / view800.maxDist
      = 16 * |111195 / 1000 * (lat - 40)| := by
    norm_num [scale_factor, view800]
    ring
  have hnn : (0 : ℚ) ≤ 16 * |111195 / 1000 * (lat - 40)| := by positivity
  have hval : screenDist view800 (111195 / 1000 * (lat - 40)) = n := by
    rw [screenDist, harg, cround, if_pos hnn, Int.floor_eq_iff]
    exact ⟨h1, h2⟩
  have h300 : ((600 : ℤ) : ℚ) * (1 / 2) = ((300 : ℤ) : ℚ) := by norm_num
  have hto : ∀ k : ℤ, toInt ((k : ℤ) : ℚ) = k := by
    intro k
    unfold toInt
    split_ifs <;> simp
  rw [hp]
  unfold screenCoords
  simp only []
  rw [hsd0, hval]
  simp only [shiftRight_one, view800]
  rw [h300, ← Int.cast_add, hto]
  norm_num

/-- C26 counterexample. `crossingSeg` runs on the meridian of the centre of
`view800` from latitude 42 to latitude 38. Its pixel endpoints are (400, -3258)
and (400, 3858): they differ, both are outside the 800x600 screen, and the
screen pixel (400, 300) lies on the segment between them. The traversal visits
the segment, counts it and does not draw it. -/
theorem C26_crossing_segment_skipped :
    (outOfBounds view800 400 300 = false ∧ (-3258 : ℤ) ≤ 300 ∧ (300 : ℤ) ≤ 3858
      ∧ ((400 : ℤ), (-3258 : ℤ)) ≠ (400, 3858))
    ∧ ∀ cos : ℚ → ℚ,
        linePixels (111195 / 1000) (1 / 2) cos view800 crossingSeg = (400, -3258, 400, 3858)
        ∧ drawLinesRecursive (111195 / 1000) (1 / 2) cos view800 30 50 0 20
            (QuadTree.leaf 36 44 6 14 [crossingSeg]) LineRender.empty
          = { lineCount := 1, visited := [crossingSeg], drawn := [] } := by
  refine ⟨⟨by decide, by decide, by decide, by decide⟩, fun cos => ?_⟩
  have e1 := meridian_pixel cos 42 3558 (by norm_num)
    (by rw [abs_of_pos (by norm_num)]; norm_num) (by rw [abs_of_pos (by norm_num)]; norm_num)
  have e2 := meridian_pixel cos 38 3558 (by norm_num)
    (by rw [abs_of_neg (by norm_num)]; norm_num) (by rw [abs_of_neg (by norm_num)]; norm_num)
  rw [if_pos (by norm_num)] at e1
  rw [if_neg (by norm_num)] at e2
  have hpix : linePixels (111195 / 1000) (1 / 2) cos view800 crossingSeg
      = (400, -3258, 400, 3858) := by
    unfold linePixels crossingSeg
    simp only []
    rw [e1, e2]
    norm_num
  refine ⟨hpix, ?_⟩
  rw [drawLinesRecursive_eq]
  have hent : (QuadTree.leaf 36 44 6 14 [crossingSeg]).entered 30 50 0 20 = [crossingSeg] := by
    unfold QuadTree.leaf QuadTree.entered
    rw [if_neg (by norm_num), if_neg (by norm_num)]
    rfl
  rw [hent, List.map_cons, List.map_nil, hpix]
  have hcull : passesCulling view800 (400, -3258, 400, 3858) = false := by decide
  rw [List.filter_cons_of_neg (by rw [hcull]; decide)]
  rfl

/-- C26 (amended). The traversal counts every segment whose loop body it runs:
`lineCount` grows by the number of visited segments, drawn or skipped. A
visited segment is drawn exactly when it passes the two tests of the loop
body, that is when at least one of its two pixel endpoints is inside the
screen and the two pixel endpoints differ; the segments drawn are the visited
ones that pass, in order, at their pixel endpoints. A segment with both pixel
endpoints outside the screen is skipped whether or not it crosses the screen. -/
theorem C26_segment_culling (LATLONMULT CENTEROFFSET : ℚ) (cos : ℚ → ℚ) (v : View)
    (screen_lat_min screen_lat_max screen_lon_min screen_lon_max : ℚ) (tree : QuadTree)
    (r : LineRender) :
    (drawLinesRecursive LATLONMULT CENTEROFFSET cos v screen_lat_min screen_lat_max
        screen_lon_min screen_lon_max tree r).visited
      = r.visited ++ tree.entered screen_lat_min screen_lat_max screen_lon_min screen_lon_max
    ∧ (drawLinesRecursive LATLONMULT CENTEROFFSET cos v screen_lat_min screen_lat_max
        screen_lon_min screen_lon_max tree r).lineCount
      = r.lineCount
        + (tree.entered screen_lat_min screen_lat_max screen_lon_min screen_lon_max).length
    ∧ (drawLinesRecursive LATLONMULT CENTEROFFSET cos v screen_lat_min screen_lat_max
        screen_lon_min screen_lon_max tree r).drawn
      = r.drawn ++
        (((tree.entered screen_lat_min screen_lat_max screen_lon_min screen_lon_max).map
          (linePixels LATLONMULT CENTEROFFSET cos v)).filter (passesCulling v))
    ∧ (∀ l ∈ tree.entered screen_lat_min screen_lat_max screen_lon_min screen_lon_max,
        ∀ x1 y1 x2 y2 : ℤ, linePixels LATLONMULT CENTEROFFSET cos v l = (x1, y1, x2, y2) →
          ((outOfBounds v x1 y1 = false ∨ outOfBounds v x2 y2 = false)
              ∧ ¬ (x1 = x2 ∧ y1 = y2) →
            (x1, y1, x2, y2) ∈ (drawLinesRecursive LATLONMULT CENTEROFFSET cos v
              screen_lat_min screen_lat_max screen_lon_min screen_lon_max tree r).drawn)
          ∧ ((outOfBounds v x1 y1 = true ∧ outOfBounds v x2 y2 = true) ∨ (x1 = x2 ∧ y1 = y2) →
            passesCulling v (x1, y1, x2, y2) = false)) := by
  rw [drawLinesRecursive_eq]
  refine ⟨rfl, rfl, rfl, ?_⟩
  intro l hl x1 y1 x2 y2 hpix
  constructor
  · rintro ⟨hin, hne⟩
    apply List.mem_append_right
    rw [List.mem_filter]
    refine ⟨List.mem_map.mpr ⟨l, hl, hpix⟩, ?_⟩
    unfold passesCulling
    rcases hin with h | h <;> simp [h, hne]
  · intro h
    unfold passesCulling
    rcases h with ⟨h1, h2⟩ | h
    · simp [h1, h2]
    · simp [h]

/-! ### Trails of several aircraft -/

theorem drawTrails_empty_history (LATLONMULT CENTEROFFSET : ℚ) (cos : ℚ → ℚ) (v : View)
    (left top right bottom : ℤ) (p : Aircraft) (rest : List Aircraft)
    (hlon : p.lon ≠ 0) (hlat : p.lat ≠ 0) (hh : p.lonHistory = []) :
    drawTrails LATLONMULT CENTEROFFSET cos v left top right bottom (p :: rest) = [] := by
  rw [drawTrails, if_pos ⟨hlon, hlat⟩, if_pos hh]

/-- C27, failing input. `shortTrailPlane` has a valid position and two history
samples, both on the 800x600 screen: alone in the list, and also when it comes
before `northPlane`, its trail segment from (400, 300) to (400, 522) is drawn.
`northPlane` has a valid position and an empty history: when it comes first,
`drawTrails` returns at it and draws nothing, neither for `shortTrailPlane` nor
for any other list that follows. -/
theorem C27_empty_history_ends_all_trails (cos : ℚ → ℚ) :
    (northPlane.lon ≠ 0 ∧ northPlane.lat ≠ 0 ∧ northPlane.lonHistory = [])
    ∧ drawTrails (111195 / 1000) (1 / 2) cos view800 0 0 800 600 [shortTrailPlane]
        = [{ prevX := 400, prevY := 300, currentX := 400, currentY := 522, colorVal := 0 }]
    ∧ drawTrails (111195 / 1000) (1 / 2) cos view800 0 0 800 600 [shortTrailPlane, northPlane]
        = [{ prevX := 400, prevY := 300, currentX := 400, currentY := 522, colorVal := 0 }]
    ∧ drawTrails (111195 / 1000) (1 / 2) cos view800 0 0 800 600 [northPlane, shortTrailPlane]
        = []
    ∧ ∀ rest : List Aircraft,
        drawTrails (111195 / 1000) (1 / 2) cos view800 0 0 800 600 (northPlane :: rest) = [] := by
  have hn : northPlane.lon ≠ 0 ∧ northPlane.lat ≠ 0 ∧ northPlane.lonHistory = [] := by
    refine ⟨?_, ?_, rfl⟩ <;> norm_num [northPlane]
  have hall : ∀ rest : List Aircraft,
      drawTrails (111195 / 1000) (1 / 2) cos view800 0 0 800 600 (northPlane :: rest) = [] :=
    fun rest => drawTrails_empty_history _ _ cos view800 0 0 800 600 northPlane rest hn.1 hn.2.1
      hn.2.2
  have e40 := meridian_pixel cos 40 0 (by norm_num) (by norm_num) (by norm_num)
  have e39 := meridian_pixel cos (319 / 8) 222 (by norm_num)
    (by rw [abs_of_neg (by norm_num)]; norm_num) (by rw [abs_of_neg (by norm_num)]; norm_num)
  rw [if_neg (by norm_num)] at e40 e39
  rw [show ((400 : ℤ), (300 : ℤ) + 1 * 0) = (400, 300) from rfl] at e40
  rw [show ((400 : ℤ), (300 : ℤ) + 1 * 222) = (400, 522) from rfl] at e39
  have hseg : trailSegments (111195 / 1000) (1 / 2) cos view800 0 0 800 600 2 2
      [((10 : ℚ), (40 : ℚ)), (10, 319 / 8)]
      = [{ prevX := 400, prevY := 300, currentX := 400, currentY := 522, colorVal := 0 }] := by
    rw [trailSegments]
    simp only []
    rw [e40, e39]
    have hb : (outOfBoundsRect 400 522 0 0 800 600 && outOfBoundsRect 400 300 0 0 800 600)
        = false := by decide
    rw [hb]
    simp only [Bool.false_eq_true, if_false]
    have hc : toUInt8 ((⌊255 * clamp (1 - ((2 : ℤ) : ℚ) / ((2 : ℕ) : ℚ)) 0 (1 / 2)⌋ : ℤ) : ℚ) = 0 := by
      have : clamp (1 - ((2 : ℤ) : ℚ) / ((2 : ℕ) : ℚ)) 0 (1 / 2) = 0 := by
        norm_num [clamp]
      rw [this]
      norm_num [toUInt8, toInt]
    rw [hc, trailSegments]
  have hone : drawTrails (111195 / 1000) (1 / 2) cos view800 0 0 800 600 [shortTrailPlane]
      = [{ prevX := 400, prevY := 300, currentX := 400, currentY := 522, colorVal := 0 }] := by
    have hl : shortTrailPlane.lon ≠ 0 ∧ shortTrailPlane.lat ≠ 0 := by
      constructor <;> norm_num [shortTrailPlane, northPlane]
    rw [drawTrails, if_pos hl, if_neg (by simp [shortTrailPlane]), drawTrails]
    simpa [shortTrailPlane] using hseg
  refine ⟨hn, hone, ?_, hall _, hall⟩
  have hl : shortTrailPlane.lon ≠ 0 ∧ shortTrailPlane.lat ≠ 0 := by
    constructor <;> norm_num [shortTrailPlane, northPlane]
  rw [drawTrails, if_pos hl, if_neg (by simp [shortTrailPlane]), hall []]
  simpa [shortTrailPlane] using hseg

/-! ### Cache validity -/

theorem cacheValid_of_moved {v : View} (h : v.mapMoved = 1) : CacheValid v := by
  intro h0
  rw [h] at h0
  exact absurd h0 (by decide)

theorem cacheValid_of_redraw {v : View} (h : v.mapRedraw = 1) : CacheValid v := by
  intro _ h0
  rw [h] at h0
  exact absurd h0 (by decide)

theorem cacheValid_moveMapToTarget (v : View) (h : CacheValid v) :
    CacheValid (moveMapToTarget v) := by
  unfold moveMapToTarget
  split_ifs
  · exact cacheValid_of_moved rfl
  · exact h
  · exact h

theorem cacheValid_zoomMapToTarget (v : View) (h : CacheValid v) :
    CacheValid (zoomMapToTarget v) := by
  unfold zoomMapToTarget
  split_ifs
  · exact cacheValid_of_moved rfl
  · exact h
  · exact h

theorem cacheValid_registerClick (cos : ℚ → ℚ) (planes : List Aircraft) (s : ViewObject)
    (tapcount x y : ℤ) (h : CacheValid s.view) :
    CacheValid (registerClick cos planes s tapcount x y).view := by
  unfold registerClick
  simp only []
  split_ifs
  · exact h
  · exact cacheValid_of_moved rfl
  · exact h

theorem cacheValid_drawPlanes (LATLONMULT CENTEROFFSET : ℚ) (cos : ℚ → ℚ)
    (MODES_ACFLAGS_HEADING_VALID : ℤ) (drawPlaneOffMap : ℤ → ℤ → ℤ × ℤ) (v : View)
    (selectedAircraft : Option ℕ) (planes : List Aircraft) (h : CacheValid v) :
    CacheValid (drawPlanes LATLONMULT CENTEROFFSET cos MODES_ACFLAGS_HEADING_VALID
      drawPlaneOffMap v selectedAircraft planes).1 := by
  unfold drawPlanes
  simp only []
  cases selectedAircraft.bind planes.get? with
  | none => exact h
  | some a => exact h

theorem drawGeography_view_not_due (LATLONMULT CENTEROFFSET : ℚ) (cos : ℚ → ℚ)
    (FRAMETIME sinceRedraw : ℚ) (v : View) (h : ¬ redrawDue FRAMETIME sinceRedraw v) :
    (drawGeography LATLONMULT CENTEROFFSET cos FRAMETIME sinceRedraw v).1
      = if v.mapMoved ≠ 0 then { v with mapRedraw := 1, mapMoved := 0 } else v := by
  simp only [drawGeography, h, decide_False, Bool.false_eq_true, if_false]
  by_cases hm : v.mapMoved ≠ 0
  · rw [if_pos hm, if_pos hm]
  · rw [if_neg hm, if_neg hm]

theorem cacheValid_drawGeography (LATLONMULT CENTEROFFSET : ℚ) (cos : ℚ → ℚ)
    (FRAMETIME sinceRedraw : ℚ) (v : View) (h : CacheValid v) :
    CacheValid (drawGeography LATLONMULT CENTEROFFSET cos FRAMETIME sinceRedraw v).1 := by
  by_cases hd : redrawDue FRAMETIME sinceRedraw v
  · rw [drawGeography_of_due LATLONMULT CENTEROFFSET cos FRAMETIME sinceRedraw v hd]
    intro _ _
    exact ⟨rfl, rfl, rfl⟩
  · rw [drawGeography_view_not_due LATLONMULT CENTEROFFSET cos FRAMETIME sinceRedraw v hd]
    split_ifs
    · exact cacheValid_of_redraw rfl
    · exact h

theorem reachable_cacheValid (LATLONMULT CENTEROFFSET : ℚ) (cos : ℚ → ℚ) (FRAMETIME : ℚ)
    (MODES_ACFLAGS_HEADING_VALID : ℤ) (drawPlaneOffMap : ℤ → ℤ → ℤ × ℤ) (s : ViewObject)
    (hs : Reachable LATLONMULT CENTEROFFSET cos FRAMETIME MODES_ACFLAGS_HEADING_VALID
      drawPlaneOffMap s) : CacheValid s.view := by
  induction hs with
  | constructed s h => exact cacheValid_of_moved h.2.2.2.1
  | moveRelative s dx dy _ _ => exact cacheValid_of_moved rfl
  | moveAbsolute s x y _ _ => exact cacheValid_of_moved rfl
  | animate s x y _ _ => exact cacheValid_of_moved rfl
  | click s planes tapcount x y _ ih => exact cacheValid_registerClick cos planes s _ _ _ ih
  | moveStep s _ ih => exact cacheValid_moveMapToTarget s.view ih
  | zoomStep s _ ih => exact cacheValid_zoomMapToTarget s.view ih
  | drawnPlanes s planes _ ih =>
    exact cacheValid_drawPlanes LATLONMULT CENTEROFFSET cos MODES_ACFLAGS_HEADING_VALID
      drawPlaneOffMap s.view s.selectedAircraft planes ih
  | drawnGeography s sinceRedraw _ ih =>
    exact cacheValid_drawGeography LATLONMULT CENTEROFFSET cos FRAMETIME sinceRedraw s.view ih

/-- C28. In every state that a sequence of calls of `moveCenterRelative`,
`moveCenterAbsolute`, `animateCenterAbsolute`, `registerClick`,
`moveMapToTarget`, `zoomMapToTarget`, `drawPlanes` and `drawGeography` reaches
from a constructed `View`, whenever `mapMoved` and `mapRedraw` are both clear
the view recorded for the cache is the live view: `currentLon = centerLon`,
`currentLat = centerLat` and `currentMaxDist = maxDist`. -/
theorem C28_cache_valid (LATLONMULT CENTEROFFSET : ℚ) (cos : ℚ → ℚ) (FRAMETIME : ℚ)
    (MODES_ACFLAGS_HEADING_VALID : ℤ) (drawPlaneOffMap : ℤ → ℤ → ℤ × ℤ) (s : ViewObject)
    (hs : Reachable LATLONMULT CENTEROFFSET cos FRAMETIME MODES_ACFLAGS_HEADING_VALID
      drawPlaneOffMap s)
    (hmoved : s.view.mapMoved = 0) (hredraw : s.view.mapRedraw = 0) :
    s.view.currentLon = s.view.centerLon ∧ s.view.currentLat = s.view.centerLat
      ∧ s.view.currentMaxDist = s.view.maxDist :=
  reachable_cacheValid LATLONMULT CENTEROFFSET cos FRAMETIME MODES_ACFLAGS_HEADING_VALID
    drawPlaneOffMap s hs hmoved hredraw

/-- C28 at the constructed object `freshObject` after two calls of
`drawGeography`: the first clears `mapMoved` and keeps `mapRedraw`, the second
regenerates the cache and clears both flags. -/
theorem C28_cache_valid_witness :
    (Reachable (111195 / 1000) (1 / 2) (fun _ => 1) 33 16 (fun x y => (x, y))
        { freshObject with
          view := (drawGeography (111195 / 1000) (1 / 2) (fun _ => 1) 33 0
            (drawGeography (111195 / 1000) (1 / 2) (fun _ => 1) 33 0 freshObject.view).1).1 }
      ∧ (drawGeography (111195 / 1000) (1 / 2) (fun _ => 1) 33 0
          (drawGeography (111195 / 1000) (1 / 2) (fun _ => 1) 33 0 freshObject.view).1).1.mapMoved
          = 0
      ∧ (drawGeography (111195 / 1000) (1 / 2) (fun _ => 1) 33 0
          (drawGeography (111195 / 1000) (1 / 2) (fun _ => 1) 33 0 freshObject.view).1).1.mapRedraw
          = 0)
    ∧ (drawGeography (111195 / 1000) (1 / 2) (fun _ => 1) 33 0
        (drawGeography (111195 / 1000) (1 / 2) (fun _ => 1) 33 0
          freshObject.view).1).1.currentMaxDist = 25 := by
  have h1 : (drawGeography (111195 / 1000) (1 / 2) (fun _ => 1) 33 0 freshObject.view).1
      = { freshObject.view with mapRedraw := 1, mapMoved := 0 } := by
    rw [drawGeography_view_not_due _ _ _ _ _ _ (by
      unfold redrawDue freshObject
      simp), if_pos (by decide)]
  have h2 : (drawGeography (111195 / 1000) (1 / 2) (fun _ => 1) 33 0
      { freshObject.view with mapRedraw := 1, mapMoved := 0 }).1
      = { freshObject.view with
          mapRedraw := 0, mapMoved := 0, mapAnimating := 0, currentLon := 0, currentLat := 0,
          currentMaxDist := 25 } := by
    rw [drawGeography_of_due _ _ _ _ _ _ (Or.inl ⟨by decide, by decide⟩)]
    rfl
  have hr : Reachable (111195 / 1000) (1 / 2) (fun _ => 1) 33 16 (fun x y => (x, y))
      { freshObject with
        view := (drawGeography (111195 / 1000) (1 / 2) (fun _ => 1) 33 0
          (drawGeography (111195 / 1000) (1 / 2) (fun _ => 1) 33 0 freshObject.view).1).1 } :=
    Reachable.drawnGeography
      { freshObject with
        view := (drawGeography (111195 / 1000) (1 / 2) (fun _ => 1) 33 0 freshObject.view).1 } 0
      (Reachable.drawnGeography freshObject 0
        (Reachable.constructed freshObject ⟨rfl, rfl, rfl, rfl, rfl, rfl⟩))
  have hm : (drawGeography (111195 / 1000) (1 / 2) (fun _ => 1) 33 0
      (drawGeography (111195 / 1000) (1 / 2) (fun _ => 1) 33 0 freshObject.view).1).1.mapMoved
      = 0 := by rw [h1, h2]
  have hd : (drawGeography (111195 / 1000) (1 / 2) (fun _ => 1) 33 0
      (drawGeography (111195 / 1000) (1 / 2) (fun _ => 1) 33 0 freshObject.view).1).1.mapRedraw
      = 0 := by rw [h1, h2]
  refine ⟨⟨hr, hm, hd⟩, ?_⟩
  have h := (C28_cache_valid (111195 / 1000) (1 / 2) (fun _ => 1) 33 16 (fun x y => (x, y)) _
    hr hm hd).2.2
  rw [h, h1, h2]
  rfl

/-! ### Zoom radius -/

theorem radiusOk_zoomMapToTarget (v : View) (h : RadiusOk v) : RadiusOk (zoomMapToTarget v) := by
  obtain ⟨h1, h2⟩ := h
  unfold zoomMapToTarget
  split_ifs with ht hd
  · have hpos : 0 < v.mapTargetMaxDist := h2.resolve_left ht
    refine ⟨?_, Or.inr hpos⟩
    show 0 < v.maxDist + 1 / 10 * (v.mapTargetMaxDist - v.maxDist)
    linarith
  · exact ⟨h1, Or.inl rfl⟩
  · exact ⟨h1, h2⟩

theorem radiusOk_animateCenterAbsolute (cos : ℚ → ℚ) (s : ViewObject) (x y : ℚ)
    (h : RadiusOk s.view) : RadiusOk (animateCenterAbsolute cos s x y).view := by
  obtain ⟨h1, _⟩ := h
  refine ⟨h1, Or.inr ?_⟩
  show 0 < 25 / 100 * s.view.maxDist
  linarith

theorem radiusOk_registerClick (cos : ℚ → ℚ) (planes : List Aircraft) (s : ViewObject)
    (tapcount x y : ℤ) (h : RadiusOk s.view) :
    RadiusOk (registerClick cos planes s tapcount x y).view := by
  unfold registerClick
  simp only []
  split_ifs
  · exact h
  · exact radiusOk_animateCenterAbsolute cos _ _ _ ⟨h.1, Or.inr (by
      show 0 < 25 / 100 * s.view.maxDist
      linarith [h.1])⟩
  · exact h

theorem zoom_between (v : View) (h : (zoomMapToTarget v).maxDist ≠ v.maxDist) :
    (v.maxDist < (zoomMapToTarget v).maxDist ∧ (zoomMapToTarget v).maxDist < v.mapTargetMaxDist)
    ∨ (v.mapTargetMaxDist < (zoomMapToTarget v).maxDist
        ∧ (zoomMapToTarget v).maxDist < v.maxDist) := by
  unfold zoomMapToTarget at h ⊢
  split_ifs at h ⊢ with ht hd
  · have e : ({ v with
        maxDist := v.maxDist + 1 / 10 * (v.mapTargetMaxDist - v.maxDist)
        mapAnimating := 1
        mapMoved := 1 } : View).maxDist
        = v.maxDist + 1 / 10 * (v.mapTargetMaxDist - v.maxDist) := rfl
    rw [e]
    have hne : v.mapTargetMaxDist ≠ v.maxDist := by
      intro he
      rw [he, sub_self, abs_zero] at hd
      norm_num at hd
    rcases lt_or_gt_of_ne hne with hlt | hgt
    · right; constructor <;> linarith
    · left; constructor <;> linarith
  · exact absurd rfl h
  · exact absurd rfl h

/-- C29. If `maxDist > 0` and the radius target is unset (0) or positive, the
same holds after `zoomMapToTarget`, after `registerClick`, after
`animateCenterAbsolute`, after `moveCenterRelative` and after
`moveCenterAbsolute`, with any arguments; a `zoomMapToTarget` step that changes
`maxDist` leaves it strictly between its old value and the target; and the
divisor `maxDist` of `screenDist` is not zero before or after the step. -/
theorem C29_radius_positive (cos : ℚ → ℚ) (planes : List Aircraft) (s : ViewObject)
    (tapcount x y : ℤ) (px py dx dy : ℚ) (h : RadiusOk s.view) :
    RadiusOk (zoomMapToTarget s.view)
    ∧ RadiusOk (registerClick cos planes s tapcount x y).view
    ∧ RadiusOk (animateCenterAbsolute cos s px py).view
    ∧ RadiusOk (moveCenterRelative cos s dx dy).view
    ∧ RadiusOk (moveCenterAbsolute cos s px py).view
    ∧ ((zoomMapToTarget s.view).maxDist ≠ s.view.maxDist →
        (s.view.maxDist < (zoomMapToTarget s.view).maxDist
          ∧ (zoomMapToTarget s.view).maxDist < s.view.mapTargetMaxDist)
        ∨ (s.view.mapTargetMaxDist < (zoomMapToTarget s.view).maxDist
          ∧ (zoomMapToTarget s.view).maxDist < s.view.maxDist))
    ∧ s.view.maxDist ≠ 0 ∧ (zoomMapToTarget s.view).maxDist ≠ 0 :=
  ⟨radiusOk_zoomMapToTarget s.view h, radiusOk_registerClick cos planes s tapcount x y h,
    radiusOk_animateCenterAbsolute cos s px py h, h, h, zoom_between s.view, h.1.ne',
    (radiusOk_zoomMapToTarget s.view h).1.ne'⟩

/-- C29 at the view `animView` (radius 25, target radius 5): after the zoom
step the radius is positive and the target is positive or unset. -/
theorem C29_radius_positive_witness :
    RadiusOk ({ object800 with view := animView } : ViewObject).view
    ∧ RadiusOk (zoomMapToTarget animView)
    ∧ (zoomMapToTarget animView).maxDist ≠ 0 :=
  have h : RadiusOk ({ object800 with view := animView } : ViewObject).view := by
    constructor
    · show (0 : ℚ) < 25
      norm_num
    · right
      show (0 : ℚ) < 5
      norm_num
  ⟨h, (C29_radius_positive (fun _ => 1) [] { object800 with view := animView } 1 0 0 0 0 0 0
      h).1,
    (C29_radius_positive (fun _ => 1) [] { object800 with view := animView } 1 0 0 0 0 0 0
      h).2.2.2.2.2.2.2⟩

/-! ### Divisors of the off-screen indicator -/

theorem row_in_bounds (CENTEROFFSET : ℚ) (v : View) (hC0 : 0 < CENTEROFFSET)
    (hC1 : CENTEROFFSET < 1) (hh : 0 < v.screen_height) (y : ℤ)
    (hy : offMapIny CENTEROFFSET v y = 0) : 0 ≤ y ∧ y < v.screen_height := by
  have hhq : (0 : ℚ) < (v.screen_height : ℚ) := by exact_mod_cast hh
  have e : (y : ℚ) = (v.screen_height : ℚ) * CENTEROFFSET := by
    unfold offMapIny at hy
    linarith
  have h1 : (0 : ℚ) < (y : ℚ) := by rw [e]; positivity
  have h2 : (y : ℚ) < (v.screen_height : ℚ) := by
    rw [e]
    calc (v.screen_height : ℚ) * CENTEROFFSET < (v.screen_height : ℚ) * 1 :=
          mul_lt_mul_of_pos_left hC1 hhq
      _ = (v.screen_height : ℚ) := mul_one _
  constructor
  · have : (0 : ℤ) < y := by exact_mod_cast h1
    omega
  · exact_mod_cast h2

theorem column_in_bounds (v : View) (hw : 0 < v.screen_width) (x : ℤ)
    (hx : offMapInx v x = 0) : 0 ≤ x ∧ x < v.screen_width := by
  unfold offMapInx at hx
  rw [shiftRight_one] at hx
  have : x - v.screen_width / 2 = 0 := by exact_mod_cast hx
  omega

/-- C30. With `CENTEROFFSET` between 0.25 and 1 (0.5 in particular) and a
square root that is positive on positive arguments, for every screen of
positive width and height and every pixel `(x, y)` that `outOfBounds` reports
as outside the viewport, no division of `drawPlaneOffMap` has a zero divisor:
`inmag` is not zero, `inx` is not zero when the left/right branch is taken,
`iny` is not zero when the up/down branch is taken, and the divisor
`screen_height * CENTEROFFSET` of the branch test is not zero. -/
theorem C30_offMap_divisors (CENTEROFFSET : ℚ) (sqrt : ℚ → ℚ) (v : View) (x y : ℤ)
    (hC0 : 1 / 4 < CENTEROFFSET) (hC1 : CENTEROFFSET < 1)
    (hsqrt : ∀ q : ℚ, 0 < q → 0 < sqrt q)
    (hw : 0 < v.screen_width) (hh : 0 < v.screen_height)
    (hout : outOfBounds v x y = true) :
    offMapInmag CENTEROFFSET sqrt v x y ≠ 0
    ∧ (offMapSides CENTEROFFSET v x y → offMapInx v x ≠ 0)
    ∧ (¬ offMapSides CENTEROFFSET v x y → offMapIny CENTEROFFSET v y ≠ 0)
    ∧ (v.screen_height : ℚ) * CENTEROFFSET ≠ 0 := by
  have hCpos : 0 < CENTEROFFSET := lt_trans (by norm_num) hC0
  have hhq : (0 : ℚ) < (v.screen_height : ℚ) := by exact_mod_cast hh
  have hdiv : (0 : ℚ) < (v.screen_height : ℚ) * CENTEROFFSET := by positivity
  have hbounds : x < 0 ∨ x ≥ v.screen_width ∨ y < 0 ∨ y ≥ v.screen_height := by
    unfold outOfBounds outOfBoundsRect at hout
    exact of_decide_eq_true hout
  have hnot : ¬ (offMapInx v x = 0 ∧ offMapIny CENTEROFFSET v y = 0) := by
    rintro ⟨h1, h2⟩
    obtain ⟨a1, a2⟩ := column_in_bounds v hw x h1
    obtain ⟨b1, b2⟩ := row_in_bounds CENTEROFFSET v hCpos hC1 hh y h2
    omega
  have hc0 : (0 : ℚ) ≤ ((v.screen_width >>> (1 : ℕ) : ℤ) : ℚ) := by
    rw [shiftRight_one]
    exact_mod_cast Int.ediv_nonneg hw.le (by norm_num)
  have hrhs : (0 : ℚ) ≤ ((|y - (v.screen_height >>> (1 : ℕ))| : ℤ) : ℚ)
      * ((v.screen_width >>> (1 : ℕ) : ℤ) : ℚ) / ((v.screen_height : ℚ) * CENTEROFFSET) := by
    apply div_nonneg _ hdiv.le
    exact mul_nonneg (by exact_mod_cast abs_nonneg _) hc0
  refine ⟨?_, ?_, ?_, hdiv.ne'⟩
  · unfold offMapInmag
    apply ne_of_gt
    apply hsqrt
    by_contra hcon
    have h0 : offMapInx v x * offMapInx v x
        + offMapIny CENTEROFFSET v y * offMapIny CENTEROFFSET v y = 0 :=
      le_antisymm (not_lt.mp hcon)
        (add_nonneg (mul_self_nonneg _) (mul_self_nonneg _))
    have hx : offMapInx v x = 0 := by
      have := mul_self_nonneg (offMapIny CENTEROFFSET v y)
      have hxx : offMapInx v x * offMapInx v x = 0 :=
        le_antisymm (by linarith) (mul_self_nonneg _)
      exact mul_self_eq_zero.mp hxx
    have hy : offMapIny CENTEROFFSET v y = 0 := by
      rw [hx] at h0
      simp only [mul_zero, zero_add] at h0
      exact mul_self_eq_zero.mp h0
    exact hnot ⟨hx, hy⟩
  · intro hs h0
    unfold offMapSides at hs
    rw [h0, abs_zero] at hs
    exact absurd hs (not_lt.mpr hrhs)
  · intro hs h0
    obtain ⟨b1, b2⟩ := row_in_bounds CENTEROFFSET v hCpos hC1 hh y h0
    have hxout : x < 0 ∨ x ≥ v.screen_width := by omega
    have ey : (y : ℚ) = (v.screen_height : ℚ) * CENTEROFFSET := by
      unfold offMapIny at h0
      linarith
    -- |inx| is at least the half width and at least 1
    have hin : ((v.screen_width >>> (1 : ℕ) : ℤ) : ℚ) ≤ |offMapInx v x|
        ∧ (1 : ℚ) ≤ |offMapInx v x| := by
      unfold offMapInx
      rw [shiftRight_one, ← Int.cast_abs]
      have hge : v.screen_width / 2 ≤ |x - v.screen_width / 2|
          ∧ 1 ≤ |x - v.screen_width / 2| := by
        rcases hxout with h | h
        · rw [abs_of_neg (by omega)]
          omega
        · rw [abs_of_nonneg (by omega)]
          omega
      exact ⟨by exact_mod_cast hge.1, by exact_mod_cast hge.2⟩
    unfold offMapSides at hs
    rw [gt_iff_lt, not_lt] at hs
    rcases hc0.eq_or_lt with hz | hpos
    · rw [← hz, mul_zero, zero_div] at hs
      linarith [hin.2]
    · -- the height is at least 2, else `y` would be a fraction
      have hh2 : 2 ≤ v.screen_height := by
        by_contra hlt
        have h1 : v.screen_height = 1 := by omega
        have hy0 : y = 0 := by omega
        rw [hy0, h1] at ey
        norm_num at ey
        linarith
      have hm : (1 : ℚ) ≤ ((v.screen_height >>> (1 : ℕ) : ℤ) : ℚ)
          ∧ ((v.screen_height >>> (1 : ℕ) : ℤ) : ℚ) ≤ (v.screen_height : ℚ) / 2 := by
        rw [shiftRight_one]
        constructor
        · have : (1 : ℤ) ≤ v.screen_height / 2 := by omega
          exact_mod_cast this
        · have : 2 * (v.screen_height / 2) ≤ v.screen_height := by omega
          have hq : (2 : ℚ) * ((v.screen_height / 2 : ℤ) : ℚ) ≤ (v.screen_height : ℚ) := by
            exact_mod_cast this
          linarith
      have habs : ((|y - (v.screen_height >>> (1 : ℕ))| : ℤ) : ℚ)
          < (v.screen_height : ℚ) * CENTEROFFSET := by
        rw [Int.cast_abs, Int.cast_sub, ey, abs_lt]
        constructor
        · have : (v.screen_height : ℚ) / 2 < 2 * ((v.screen_height : ℚ) * CENTEROFFSET) := by
            nlinarith
          linarith [hm.2]
        · linarith [hm.1]
      have hlt : ((|y - (v.screen_height >>> (1 : ℕ))| : ℤ) : ℚ)
          * ((v.screen_width >>> (1 : ℕ) : ℤ) : ℚ) / ((v.screen_height : ℚ) * CENTEROFFSET)
          < ((v.screen_width >>> (1 : ℕ) : ℤ) : ℚ) := by
        rw [div_lt_iff₀ hdiv]
        calc ((|y - (v.screen_height >>> (1 : ℕ))| : ℤ) : ℚ)
              * ((v.screen_width >>> (1 : ℕ) : ℤ) : ℚ)
            < (v.screen_height : ℚ) * CENTEROFFSET * ((v.screen_width >>> (1 : ℕ) : ℤ) : ℚ) :=
              mul_lt_mul_of_pos_right habs hpos
          _ = ((v.screen_width >>> (1 : ℕ) : ℤ) : ℚ) * ((v.screen_height : ℚ) * CENTEROFFSET) := by
              ring
      linarith [hin.1]

/-- C30 on the 10x10 view at the pixel (15, 5), which is outside the viewport,
with `CENTEROFFSET = 0.5` and the square root replaced by the identity. -/
theorem C30_offMap_divisors_witness :
    ((1 / 4 : ℚ) < 1 / 2 ∧ (1 / 2 : ℚ) < 1 ∧ (∀ q : ℚ, 0 < q → 0 < (fun r : ℚ => r) q)
      ∧ 0 < tinyView.screen_width ∧ 0 < tinyView.screen_height
      ∧ outOfBounds tinyView 15 5 = true)
    ∧ offMapInmag (1 / 2) (fun r => r) tinyView 15 5 ≠ 0 :=
  ⟨⟨by norm_num, by norm_num, fun _ h => h, by decide, by decide, by decide⟩,
    (C30_offMap_divisors (1 / 2) (fun r => r) tinyView 15 5 (by norm_num) (by norm_num)
      (fun _ h => h) (by decide) (by decide) (by decide)).1⟩


end Viz1090
